import Mathlib

/-!
# SpringReviewer front end

A shallow embedding of these parts of the client:

* the log-generation workflow of `src/features/home/HomePage.jsx`
  (`stopPolling`, `pollStatus`, `handleStartGeneration`) with `handleApiError`
  from `src/api/index.js`;
* `calculateAverageRatings` of `src/context/RatingContext.jsx`;
* the rules of the fields `grade` and `comment` of
  `src/features/reviews/ReviewForm.jsx`;
* `getRatingColor` of `src/utils/helpers.jsx`, `updateTeacherSubjects` of
  `src/features/teachers/TeacherList.jsx`, the filter and sort effect of
  `src/features/reviews/ReviewList.jsx` and `nameRegex` of
  `src/features/teachers/TeacherForm.jsx`.

The React state of `HomePage` (`logDate`, `logTask`, `logLoading`, `logError`),
its ref (`pollingIntervalRef`), the timers it registers with the window and the
notifications it sends through `messageApi` are the fields of one record,
`Poller`; every handler is a function on that record.  An asynchronous handler
is applied to the state in which its awaited request settles, with the outcome
of the request as an argument.

JSON values received from the backend are values of `JsVal`; numbers are
restricted to integers (printed in decimal).  A task id is a string.
-/

namespace SpringReviewer

/-! ## JavaScript values -/

/-- A JavaScript value as the handlers meet it: `undefined`, or a parsed JSON value. -/
inductive JsVal where
  | undefined
  | null
  | bool (b : Bool)
  | num (n : Int)
  | str (s : String)
  | arr (items : List JsVal)
  | obj (fields : List (String × JsVal))

namespace JsVal

/-- Truthiness: what `if (v)`, `!v`, `v && _` and `v || _` test. -/
def truthy : JsVal → Bool
  | undefined => false
  | null => false
  | bool b => b
  | num n => n != 0
  | str s => s != ""
  | arr _ => true
  | obj _ => true

mutual
/-- String conversion, as performed by a template literal or by `+` with a string. -/
def toStr : JsVal → String
  | undefined => "undefined"
  | null => "null"
  | bool true => "true"
  | bool false => "false"
  | num n => toString n
  | str s => s
  | arr items => String.intercalate "," (joinItems items)
  | obj _ => "[object Object]"
/-- The pieces `Array.prototype.join` puts between the separators: `null` and
`undefined` elements give the empty string. -/
def joinItems : List JsVal → List String
  | [] => []
  | undefined :: rest => "" :: joinItems rest
  | null :: rest => "" :: joinItems rest
  | v :: rest => toStr v :: joinItems rest
end

/-- The value of `a || b`. -/
def or (a b : JsVal) : JsVal :=
  if a.truthy then a else b

/-- The test `v === 'literal'`. -/
def strictEqStr : JsVal → String → Bool
  | str t, s => t == s
  | _, _ => false

/-- The test `v === n` for a number literal `n`. -/
def strictEqNum : JsVal → Int → Bool
  | num m, n => m == n
  | _, _ => false

/-- The test `typeof v === 'string'`. -/
def isString : JsVal → Bool
  | str _ => true
  | _ => false

/-- The test `typeof v === 'object'`. -/
def typeofObject : JsVal → Bool
  | null => true
  | arr _ => true
  | obj _ => true
  | _ => false

/-- The test `Array.isArray(v)`. -/
def isArray : JsVal → Bool
  | arr _ => true
  | _ => false

/-- Property read `v.key` on a value that is neither `null` nor `undefined`,
for the keys the handlers read (`message`, `error`, `detail`, `errors`,
`field`, `defaultMessage`, `teacher`, `id`, `grade`): only an object can have
them. -/
def get : JsVal → String → JsVal
  | obj fields, key => (fields.lookup key).getD undefined
  | _, _ => undefined

/-- The pairs of `Object.entries(v)` for an object or an array. -/
def entries : JsVal → List (String × JsVal)
  | obj fields => fields
  | arr items => items.enum.map (fun p => (toString p.1, p.2))
  | _ => []

end JsVal

/-! ## `handleApiError` (src/api/index.js) -/

/-- The `response` of an axios error. -/
structure ApiResponse where
  data : JsVal
  status : JsVal

/-- An error caught by a handler: `request` says whether `error.request` is truthy. -/
structure ApiError where
  response : Option ApiResponse
  request : Bool
  message : JsVal

/-- The three `messageApi` calls the handlers make. -/
inductive MessageKind where
  | success
  | warning
  | error
  deriving DecidableEq

/-- One notification sent through `messageApi`. -/
structure Message where
  kind : MessageKind
  content : JsVal

/-- The strings of `data.errors.map(e => ...)` with the template
"field: defaultMessage"; reading a property of a `null` or `undefined`
element throws a `TypeError`, which is the result `none`. -/
def validationErrors : List JsVal → Option (List String)
  | [] => some []
  | JsVal.undefined :: _ => none
  | JsVal.null :: _ => none
  | e :: rest =>
    (validationErrors rest).map
      (fun tl => ((e.get "field").toStr ++ ": " ++ (e.get "defaultMessage").toStr) :: tl)

/-- The function `handleApiError(error, messageApi, defaultMessage)`: the
returned message together with the notifications sent (`messageApi` says
whether a message API with an `error` method was passed); `none` when the
function throws. -/
def handleApiError (error : ApiError) (messageApi : Bool) (defaultMessage : String) :
    Option (JsVal × List Message) := do
  let mut errorMessage := JsVal.str defaultMessage
  match error.response with
  | some r =>
    if r.data.isString && r.data.truthy then
      errorMessage := r.data
    else if r.data.truthy &&
        (((r.data.get "message").or (r.data.get "error")).or (r.data.get "detail")).truthy then
      errorMessage := ((r.data.get "message").or (r.data.get "error")).or (r.data.get "detail")
    else if r.status.strictEqNum 404 then
      errorMessage := JsVal.str "Запрашиваемый ресурс не найден (404)."
    else if r.status.strictEqNum 400 then
      errorMessage := JsVal.str "Неверные данные запроса (400)."
      if r.data.truthy && (r.data.get "errors").isArray then
        match r.data.get "errors" with
        | JsVal.arr es =>
          let validationErrors ← validationErrors es
          errorMessage := JsVal.str (errorMessage.toStr ++
            (" Детали: " ++ String.intercalate "; " validationErrors))
        | _ => pure ()
      else if r.data.truthy && r.data.typeofObject then
        let details := String.intercalate "; "
          (r.data.entries.map (fun kv => kv.1 ++ ": " ++ kv.2.toStr))
        if details != "" then
          errorMessage := JsVal.str (errorMessage.toStr ++ (" Детали: " ++ details))
    else if r.status.strictEqNum 409 then
      errorMessage := JsVal.str "Конфликт данных (409)."
    else if r.status.strictEqNum 422 then
      errorMessage := JsVal.str "Ошибка обработки данных (422)."
      if r.data.truthy && (r.data.get "message").truthy then
        errorMessage := JsVal.str (errorMessage.toStr ++ (" " ++ (r.data.get "message").toStr))
    else
      errorMessage := JsVal.str ("Ошибка сервера: " ++
        (r.status.or (JsVal.str "Статус неизвестен")).toStr ++ ".")
  | none =>
    if error.request then
      errorMessage := JsVal.str "Не удалось подключиться к серверу. Проверьте бэкенд и сеть."
    else
      errorMessage := JsVal.str ("Ошибка при настройке запроса: " ++ error.message.toStr)
  let sent := if messageApi then [Message.mk MessageKind.error errorMessage] else []
  return (errorMessage, sent)

/-! ## The log-generation poller (src/features/home/HomePage.jsx) -/

/-- The constant object `LogGenerationStatus`. -/
structure LogGenerationStatusT where
  PENDING : String
  RUNNING : String
  COMPLETED : String
  FAILED : String

/-- The constant `LogGenerationStatus` of the source. -/
def LogGenerationStatus : LogGenerationStatusT :=
  { PENDING := "PENDING", RUNNING := "RUNNING", COMPLETED := "COMPLETED", FAILED := "FAILED" }

/-- The date held by the `DatePicker` (a valid dayjs value): a calendar day. -/
structure Dayjs where
  year : Nat
  month : Nat
  day : Nat

/-- Decimal digits of `n`, left-padded with zeros to `width`. -/
def zeroPad (width n : Nat) : String :=
  String.mk (List.replicate (width - (toString n).length) '0') ++ toString n

/-- The call `dayjs(d).format('YYYY-MM-DD')`. -/
def Dayjs.format (d : Dayjs) : String :=
  zeroPad 4 d.year ++ "-" ++ zeroPad 2 d.month ++ "-" ++ zeroPad 2 d.day

/-- The object kept in the `logTask` state. -/
structure LogTask where
  id : String
  status : JsVal
  date : String
  downloadUrl : JsVal
  errorMessage : JsVal

/-- A timer registered with the window by `setTimeout` (one-shot) or
`setInterval` (recurring); when it fires it calls `pollStatus(taskId)`. -/
structure Timer where
  handle : ℕ+
  taskId : String
  recurring : Bool

/-- The state of the component and of the environment it acts on:
the four `useState` cells, the ref `pollingIntervalRef`, the timers pending in
the window (`lastHandle` is the last timer handle the window gave out; the
window numbers its timers 1, 2, 3, ..., so a handle is positive and truthy) and
the notifications sent through `messageApi` so far.  In `pollingIntervalRef`,
`none` is `null`. -/
structure Poller where
  logDate : Option Dayjs
  logTask : Option LogTask
  logLoading : Bool
  logError : JsVal
  pollingIntervalRef : Option ℕ+
  timers : List Timer
  lastHandle : Nat
  messages : List Message

/-- The state of a freshly mounted component. -/
def Poller.initial : Poller :=
  { logDate := none, logTask := none, logLoading := false, logError := JsVal.null,
    pollingIntervalRef := none, timers := [], lastHandle := 0, messages := [] }

/-- The `onChange` of the `DatePicker`: `setLogDate(date)`. -/
def setLogDate (date : Dayjs) (s : Poller) : Poller :=
  { s with logDate := some date }

/-- The window operation `clearInterval(handle)`. -/
def clearInterval (handle : ℕ+) (timers : List Timer) : List Timer :=
  timers.filter (fun t => t.handle != handle)

/-- The callback `stopPolling`. -/
def stopPolling (s : Poller) : Poller :=
  match s.pollingIntervalRef with
  | some handle =>
    { s with timers := clearInterval handle s.timers, pollingIntervalRef := none }
  | none => s

/-- The `data` of a response of `getLogGenerationStatus`. -/
structure StatusData where
  status : JsVal
  errorMessage : JsVal
  downloadUrl : JsVal

/-- How the request awaited by `pollStatus` settles: with a response whose
`data` is destructured, or with an error that lands in the `catch` branch (a
rejected request, or the `TypeError` of destructuring a `null` body). -/
inductive PollOutcome where
  | ok (data : StatusData)
  | error (e : ApiError)

/-- The callback `pollStatus(taskId)`, applied to the state in which the
request it awaits settles with `outcome`. -/
def pollStatus (taskId : String) (outcome : PollOutcome) (s : Poller) : Poller :=
  if taskId == "" then s
  else
    match outcome with
    | PollOutcome.ok data =>
      let s1 : Poller :=
        { s with logTask :=
            match s.logTask with
            | none => none
            | some prev =>
              if prev.id != taskId then some prev
              else some { prev with status := data.status, errorMessage := data.errorMessage,
                                    downloadUrl := data.downloadUrl } }
      if data.status.strictEqStr LogGenerationStatus.COMPLETED ||
          data.status.strictEqStr LogGenerationStatus.FAILED then
        let s2 := stopPolling s1
        let s3 : Poller := { s2 with logLoading := false }
        let s4 : Poller :=
          if data.status.strictEqStr LogGenerationStatus.FAILED then
            { s3 with logError :=
                data.errorMessage.or (JsVal.str "Генерация лога завершилась с ошибкой.") }
          else s3
        if data.status.strictEqStr LogGenerationStatus.COMPLETED && !data.downloadUrl.truthy then
          { s4 with
            logError := JsVal.str "Генерация завершена, но ссылка на скачивание отсутствует.",
            messages := s4.messages ++ [Message.mk MessageKind.warning (JsVal.str
              "Генерация завершена, но ссылка на скачивание не получена от сервера.")] }
        else s4
      else s1
    | PollOutcome.error e =>
      match handleApiError e false "Ошибка при проверке статуса задачи" with
      | none => s
      | some (errMsg, sent) =>
        let s1 : Poller :=
          { s with messages := s.messages ++ sent,
                   logError := JsVal.str (errMsg.toStr ++ ". Проверка остановлена.") }
        let s2 := stopPolling s1
        let s3 : Poller := { s2 with logLoading := false }
        { s3 with logTask :=
            match s3.logTask with
            | some prev =>
              if prev.id == taskId then
                some { prev with status := JsVal.str LogGenerationStatus.FAILED }
              else none
            | none => none }

/-- The `data` of a response of `startLogGeneration`; `taskId` is `none` when
the field is absent or `null`. -/
structure StartData where
  taskId : Option String
  status : JsVal
  statusUrl : JsVal

/-- How the request awaited by `handleStartGeneration` settles: with a response
whose `data` is destructured, or with an error that lands in the `catch` block. -/
inductive StartOutcome where
  | ok (data : StartData)
  | error (e : ApiError)

/-- The error thrown by `handleStartGeneration` when the response has no task id. -/
def noTaskIdError : ApiError :=
  { response := none, request := false,
    message := JsVal.str "Не удалось получить ID задачи от сервера." }

/-- First part of `handleStartGeneration`, up to the `await`: the new state and
the formatted date the start request is sent with (`none`: no request). -/
def handleStartGenerationSend (s : Poller) : Poller × Option String :=
  match s.logDate with
  | none =>
    ({ s with messages := s.messages ++ [Message.mk MessageKind.warning
        (JsVal.str "Пожалуйста, выберите дату для генерации лога.")] }, none)
  | some logDate =>
    let s1 := stopPolling s
    ({ s1 with logLoading := true, logError := JsVal.null, logTask := none },
      some logDate.format)

/-- The `catch` block of `handleStartGeneration`. -/
def handleStartGenerationCatch (error : ApiError) (s : Poller) : Poller :=
  match handleApiError error true "Не удалось запустить генерацию лога" with
  | none => s
  | some (errorMsg, sent) =>
    { s with messages := s.messages ++ sent, logError := errorMsg, logLoading := false }

/-- Second part of `handleStartGeneration`, from the `await` on, applied to the
state in which the start request settles with `outcome`. -/
def handleStartGenerationSettle (formattedDate : String) (outcome : StartOutcome)
    (s : Poller) : Poller :=
  match outcome with
  | StartOutcome.error e => handleStartGenerationCatch e s
  | StartOutcome.ok data =>
    match data.taskId with
    | none => handleStartGenerationCatch noTaskIdError s
    | some taskId =>
      if taskId == "" then handleStartGenerationCatch noTaskIdError s
      else
        { s with
          messages := s.messages ++ [Message.mk MessageKind.success
            (JsVal.str ("Задача генерации лога " ++ taskId ++ " запущена."))],
          logTask := some
            { id := taskId, status := data.status.or (JsVal.str LogGenerationStatus.PENDING),
              date := formattedDate, downloadUrl := JsVal.null, errorMessage := JsVal.null },
          timers := s.timers ++
            [Timer.mk (Nat.succPNat s.lastHandle) taskId false,
             Timer.mk (Nat.succPNat (s.lastHandle + 1)) taskId true],
          lastHandle := s.lastHandle + 2,
          pollingIntervalRef := some (Nat.succPNat (s.lastHandle + 1)) }

/-- The handler `handleStartGeneration` when nothing else happens between its
request and the response: both parts in a row. -/
def handleStartGeneration (outcome : StartOutcome) (s : Poller) : Poller :=
  match handleStartGenerationSend s with
  | (s1, some formattedDate) => handleStartGenerationSettle formattedDate outcome s1
  | (s1, none) => s1

/-- A timer of the window fires: a one-shot timer is consumed, a recurring one
stays; the result names the task whose status request `pollStatus` sends
(`none`: no such timer, or `pollStatus` returns at once on an empty id). -/
def fireTimer (handle : ℕ+) (s : Poller) : Poller × Option String :=
  match s.timers.find? (fun t => t.handle == handle) with
  | none => (s, none)
  | some t =>
    (if t.recurring then s
      else { s with timers := s.timers.filter (fun u => u.handle != handle) },
      if t.taskId == "" then none else some t.taskId)

/-! ## Vocabulary of the specification -/

/-- A status is terminal when it is `COMPLETED` or `FAILED` (the test of `pollStatus`). -/
def terminal (status : JsVal) : Bool :=
  status.strictEqStr LogGenerationStatus.COMPLETED ||
    status.strictEqStr LogGenerationStatus.FAILED

/-- A run of successful status responses for `taskId`, handled one after the other. -/
def pollResponses (taskId : String) (responses : List StatusData) (s : Poller) : Poller :=
  responses.foldl (fun st data => pollStatus taskId (PollOutcome.ok data) st) s

/-- The error the `catch` block of `handleStartGeneration` receives for an
outcome of the start request: the rejection itself, or the error thrown for a
response without task id; `none` for a successful submission. -/
def StartOutcome.thrown : StartOutcome → Option ApiError
  | StartOutcome.error e => some e
  | StartOutcome.ok data =>
    match data.taskId with
    | none => some noTaskIdError
    | some taskId => if taskId == "" then some noTaskIdError else none

/-- The recurring timer the ref points to is pending in the window for `taskId`. -/
def scheduleActive (taskId : String) (s : Poller) : Prop :=
  ∃ handle, s.pollingIntervalRef = some handle ∧ Timer.mk handle taskId true ∈ s.timers

/-- The view renders the error alert: the JSX guard `logError && !logLoading`. -/
def showsErrorAlert (s : Poller) : Bool :=
  s.logError.truthy && !s.logLoading

/-- The view renders the panel of the tracked job (task id, progress bar,
download button): the JSX guard `logTask && !logError && logStatusProps`, in
which `logStatusProps` is an object, hence truthy, whenever `logTask` is set. -/
def showsTaskPanel (s : Poller) : Bool :=
  s.logTask.isSome && !s.logError.truthy

/-- The `onClose` of the error alert: `setLogError(null)`. -/
def closeAlert (s : Poller) : Poller :=
  { s with logError := JsVal.null }

/-- What can happen to the mounted component, one event at a time. -/
inductive Event where
  /-- A date is picked in the `DatePicker`. -/
  | pickDate (date : Dayjs)
  /-- The button is clicked: `handleStartGeneration` runs up to its `await`. -/
  | clickGenerate
  /-- A start request, sent with `formattedDate`, settles. -/
  | startSettled (formattedDate : String) (outcome : StartOutcome)
  /-- A timer of the window fires. -/
  | timerFired (handle : ℕ+)
  /-- A status request for `taskId` settles. -/
  | pollSettled (taskId : String) (outcome : PollOutcome)
  /-- The error alert is closed. -/
  | alertClosed
  /-- The cleanup of the effect runs `stopPolling` (the view unmounts). -/
  | cleanup

/-- The effect of one event on the state. -/
def step (s : Poller) : Event → Poller
  | Event.pickDate date => setLogDate date s
  | Event.clickGenerate => (handleStartGenerationSend s).1
  | Event.startSettled formattedDate outcome => handleStartGenerationSettle formattedDate outcome s
  | Event.timerFired handle => (fireTimer handle s).1
  | Event.pollSettled taskId outcome => pollStatus taskId outcome s
  | Event.alertClosed => closeAlert s
  | Event.cleanup => stopPolling s

/-- The state after a sequence of events.  Every run of the component is such a
sequence; sequences in which a request settles that was never sent are
included as well. -/
def run (events : List Event) (s : Poller) : Poller :=
  events.foldl step s

/-- The event is not a status response that carries a download link together
with a status other than COMPLETED. -/
def Event.linkOnlyWhenCompleted : Event → Prop
  | Event.pollSettled _ (PollOutcome.ok data) =>
    data.downloadUrl.truthy = true → data.status = JsVal.str "COMPLETED"
  | _ => True

/-- The event is not a status response that carries an error message together
with a status other than FAILED. -/
def Event.errorOnlyWhenFailed : Event → Prop
  | Event.pollSettled _ (PollOutcome.ok data) =>
    data.errorMessage.truthy = true → data.status = JsVal.str "FAILED"
  | _ => True

/-! ## Sample data and sample runs -/

namespace Sample

/-- The date 2024-01-01 picked in the `DatePicker`. -/
def date : Dayjs := { year := 2024, month := 1, day := 1 }

/-- The start response with task id T1 and status PENDING. -/
def startT1 : StartData :=
  { taskId := some "T1", status := JsVal.str "PENDING", statusUrl := JsVal.undefined }

/-- The start response with task id T2 and status PENDING. -/
def startT2 : StartData :=
  { taskId := some "T2", status := JsVal.str "PENDING", statusUrl := JsVal.undefined }

/-- The start response with task id T1 whose status field is already RUNNING. -/
def startRunning : StartData :=
  { taskId := some "T1", status := JsVal.str "RUNNING", statusUrl := JsVal.undefined }

/-- A start response that carries no task id. -/
def startNoId : StartData :=
  { taskId := none, status := JsVal.str "PENDING", statusUrl := JsVal.undefined }

/-- The status response with status RUNNING and nothing else. -/
def running : StatusData :=
  { status := JsVal.str "RUNNING", errorMessage := JsVal.undefined,
    downloadUrl := JsVal.undefined }

/-- The status response with status COMPLETED and download link "/x". -/
def completed : StatusData :=
  { status := JsVal.str "COMPLETED", errorMessage := JsVal.undefined,
    downloadUrl := JsVal.str "/x" }

/-- The status response with status COMPLETED and no download link. -/
def completedNoLink : StatusData :=
  { status := JsVal.str "COMPLETED", errorMessage := JsVal.undefined,
    downloadUrl := JsVal.undefined }

/-- A status response with status RUNNING that carries a download link all the same. -/
def runningWithLink : StatusData :=
  { status := JsVal.str "RUNNING", errorMessage := JsVal.undefined,
    downloadUrl := JsVal.str "/x" }

/-- A status response with status RUNNING that carries an error message all the same. -/
def runningWithError : StatusData :=
  { status := JsVal.str "RUNNING", errorMessage := JsVal.str "boom",
    downloadUrl := JsVal.undefined }

/-- The status response with status FAILED and the error message "boom". -/
def failedWithError : StatusData :=
  { status := JsVal.str "FAILED", errorMessage := JsVal.str "boom",
    downloadUrl := JsVal.undefined }

/-- A request that got no response (a network failure). -/
def networkError : ApiError :=
  { response := none, request := true, message := JsVal.str "Network Error" }

/-- A freshly mounted component in which the date 2024-01-01 has been picked. -/
def idle : Poller := setLogDate date Poller.initial

/-- The submission of `idle` answered with `startT1`. -/
def submittedT1 : Poller := handleStartGeneration (StartOutcome.ok startT1) idle

/-- After `submittedT1`: the one-shot timer fires (first status request for T1,
still unanswered), then the interval timer fires and its request is answered
with `completed`. -/
def finishedT1 : Poller :=
  pollStatus "T1" (PollOutcome.ok completed) (fireTimer 2 (fireTimer 1 submittedT1).1).1

/-- After `finishedT1`: a second submission, answered with `startT2`; job T2 is
tracked and its interval timer (handle 4) is pending, while the first status
request for T1 is still unanswered. -/
def trackingT2 : Poller := handleStartGeneration (StartOutcome.ok startT2) finishedT1

/-- The events that lead to `submittedT1`. -/
def submitT1 : List Event :=
  [Event.pickDate date, Event.clickGenerate,
   Event.startSettled "2024-01-01" (StartOutcome.ok startT1)]

/-- The events that lead to `finishedT1`: both timers fire, the request of the
interval timer is answered `completed`, the request of the one-shot timer is
still unanswered. -/
def finishT1 : List Event :=
  submitT1 ++ [Event.timerFired 1, Event.timerFired 2,
    Event.pollSettled "T1" (PollOutcome.ok completed)]

end Sample

/-! ## `calculateAverageRatings` (src/context/RatingContext.jsx)

The three local objects `gradeSums`, `reviewCounts` and `ratingsMap` are
dictionaries from property keys to numbers; the property key of a teacher id is
its string conversion, and the ids are not names of members of
`Object.prototype`.  Grades are integers, and sums of grades and counts are
exact, as they are in the code while they stay below 2^53.  The quotient of
sum and count is a double: the exact quotient rounded to 53 significant bits,
the nearest double throughout the normal range.  A double is written as the
rational number it is. -/

/-- Property read `obj[key]` on a dictionary; `none` is `undefined`. -/
def dictGet {α : Type} (obj : List (String × α)) (key : String) : Option α :=
  obj.lookup key

/-- Assignment `obj[key] = value` on a dictionary: an existing property is
overwritten in place, a new one is added at the end. -/
def dictSet {α : Type} : List (String × α) → String → α → List (String × α)
  | [], key, value => [(key, value)]
  | (k, v) :: rest, key, value =>
    if k == key then (k, value) :: rest else (k, v) :: dictSet rest key value

/-- The expression `review.teacher?.id`; `none` when it throws a `TypeError`
(`review` itself is `null` or `undefined`). -/
def reviewTeacherId : JsVal → Option JsVal
  | JsVal.undefined => none
  | JsVal.null => none
  | review =>
    match review.get "teacher" with
    | JsVal.undefined => some JsVal.undefined
    | JsVal.null => some JsVal.undefined
    | teacher => some (teacher.get "id")

/-- The objects `gradeSums` and `reviewCounts` of `calculateAverageRatings`. -/
structure RatingSums where
  gradeSums : List (String × Int)
  reviewCounts : List (String × Nat)

/-- The callback of `reviews.forEach`; `none` when it throws. -/
def addReview (acc : RatingSums) (review : JsVal) : Option RatingSums :=
  match reviewTeacherId review with
  | none => none
  | some teacherId =>
    if teacherId.truthy then
      match review.get "grade" with
      | JsVal.num grade =>
        some
          { gradeSums := dictSet acc.gradeSums teacherId.toStr
              ((dictGet acc.gradeSums teacherId.toStr).getD 0 + grade),
            reviewCounts := dictSet acc.reviewCounts teacherId.toStr
              ((dictGet acc.reviewCounts teacherId.toStr).getD 0 + 1) }
      | _ => some acc
    else some acc

/-- Rounding to the nearest whole number, a tie going to the even one: the
rounding of the significand in double arithmetic. -/
def roundHalfEven (x : ℚ) : ℤ :=
  if x - ⌊x⌋ < 1 / 2 then ⌊x⌋
  else if 1 / 2 < x - ⌊x⌋ then ⌊x⌋ + 1
  else if ⌊x⌋ % 2 = 0 then ⌊x⌋ else ⌊x⌋ + 1

/-- The double nearest to the exact number `x`: with `2^e ≤ |x| < 2^(e+1)` the
nearest multiple of `2^(e-52)`, a tie going to the even multiple.  It is the
result of a division of doubles whose exact quotient is `x`, and of reading a
decimal numeral that denotes `x`. -/
def toDouble (x : ℚ) : ℚ :=
  if x = 0 then 0
  else (roundHalfEven (x / 2 ^ (Int.log 2 |x| - 52)) : ℚ) * 2 ^ (Int.log 2 |x| - 52)

/-- The decimal number the text `x.toFixed(1)` denotes, for the double `x`:
`toFixed` rounds the absolute value to the nearest tenth, a tie going to the
larger tenth, and puts the sign back. -/
def toFixed1 (x : ℚ) : ℚ :=
  if x < 0 then -((⌊(-x) * 10 + 1 / 2⌋ : ℤ) / 10 : ℚ) else (⌊x * 10 + 1 / 2⌋ : ℤ) / 10

/-- The number `parseFloat(text)` for a text that denotes the decimal number
`decimal`. -/
def parseFloat (decimal : ℚ) : ℚ :=
  toDouble decimal

/-- The `for (const teacherId in gradeSums)` loop, which fills `ratingsMap`:
`average` is the double quotient, the entry is `parseFloat(average.toFixed(1))`. -/
def averageRatings (sums : RatingSums) : List (String × ℚ) :=
  sums.gradeSums.foldl
    (fun ratingsMap entry =>
      match dictGet sums.reviewCounts entry.1 with
      | some count =>
        if count > 0 then
          dictSet ratingsMap entry.1
            (parseFloat (toFixed1 (toDouble ((entry.2 : ℚ) / (count : ℚ)))))
        else ratingsMap
      | none => ratingsMap)
    []

/-- The function `calculateAverageRatings(reviews)`; `none` when it throws (a
`null` or `undefined` element, or a truthy value without `forEach`). -/
def calculateAverageRatings (reviews : JsVal) : Option (List (String × ℚ)) :=
  if !reviews.truthy then some []
  else
    match reviews with
    | JsVal.arr [] => some []
    | JsVal.arr items =>
      (items.foldlM addReview { gradeSums := [], reviewCounts := [] }).map averageRatings
    | JsVal.obj fields =>
      if ((JsVal.obj fields).get "length").strictEqNum 0 then some [] else none
    | _ => none

/-- The numeric grades, in order, of the reviews whose teacher id is truthy and
has the property key `key`: the grades of "that teacher". -/
def gradesOf (key : String) (reviews : List JsVal) : List Int :=
  reviews.filterMap (fun review =>
    match reviewTeacherId review, review.get "grade" with
    | some teacherId, JsVal.num grade =>
      if teacherId.truthy && teacherId.toStr == key then some grade else none
    | _, _ => none)

/-- The property key and the grade a review contributes to the sums, if it
contributes: its teacher id is truthy and its grade is a number. -/
def reviewEntry (review : JsVal) : Option (String × Int) :=
  match reviewTeacherId review, review.get "grade" with
  | some teacherId, JsVal.num grade =>
    if teacherId.truthy then some (teacherId.toStr, grade) else none
  | _, _ => none

/-- The sums and counts `sums` are those of the reviews `seen`: for every
property key, sum and count of the grades of that key, and no entry when there
is no such grade; and no key occurs twice. -/
def SumsOf (sums : RatingSums) (seen : List JsVal) : Prop :=
  (sums.gradeSums.map Prod.fst).Nodup ∧
  ∀ key,
    dictGet sums.gradeSums key =
      (if gradesOf key seen = [] then none else some (gradesOf key seen).sum) ∧
    dictGet sums.reviewCounts key =
      (if gradesOf key seen = [] then none else some (gradesOf key seen).length)

/-- The arithmetic mean of a list of grades: sum divided by count. -/
def mean (grades : List Int) : ℚ :=
  (grades.sum : ℚ) / (grades.length : ℚ)

namespace Sample

/-- A review object with teacher id `teacherId` and grade `grade`. -/
def review (teacherId : Int) (grade : JsVal) : JsVal :=
  JsVal.obj [("id", JsVal.num 100), ("teacher", JsVal.obj [("id", JsVal.num teacherId)]),
    ("grade", grade)]

/-- Five reviews: grades 8 and 9 and a non-numeric grade for teacher 1, grade 5
for teacher 2, and grade 3 without teacher. -/
def reviews : List JsVal :=
  [review 1 (JsVal.num 8), review 2 (JsVal.num 5), review 1 (JsVal.num 9),
   JsVal.obj [("teacher", JsVal.null), ("grade", JsVal.num 3)],
   review 1 (JsVal.str "10")]

/-- Twenty reviews of teacher 1: seventeen with grade 1 and three with grade 2,
of mean 1.15. -/
def tieReviews : List JsVal :=
  List.replicate 17 (review 1 (JsVal.num 1)) ++ List.replicate 3 (review 1 (JsVal.num 2))

end Sample

/-! ## The rules of `ReviewForm` (src/features/reviews/ReviewForm.jsx) -/

/-- The outcome of a validation rule: the promise resolves, or it is rejected
with an error carrying a message. -/
inductive Validation where
  | resolved
  | rejected (message : String)
  deriving DecidableEq

/-- A JavaScript number as `Number(value)` yields it: `NaN`, an infinity, or a
finite number with its exact value. -/
inductive JsNumber where
  | nan
  | negInf
  | finite (q : ℚ)
  | posInf

namespace JsNumber

/-- The test `isNaN(x)`. -/
def isNaN : JsNumber → Bool
  | nan => true
  | _ => false

/-- The comparison `x < c` with a finite number `c`. -/
def lt : JsNumber → ℚ → Bool
  | nan, _ => false
  | negInf, _ => true
  | finite q, c => decide (q < c)
  | posInf, _ => false

/-- The comparison `x > c` with a finite number `c`. -/
def gt : JsNumber → ℚ → Bool
  | nan, _ => false
  | negInf, _ => false
  | finite q, c => decide (q > c)
  | posInf, _ => true

end JsNumber

/-- The conversion `Number(value)`.  How the runtime reads a string as a number
is the parameter `stringToNumber`; an array is converted through its string
conversion, and the string conversion of an object is not a numeral. -/
def toNumber (stringToNumber : String → JsNumber) : JsVal → JsNumber
  | JsVal.undefined => JsNumber.nan
  | JsVal.null => JsNumber.finite 0
  | JsVal.bool true => JsNumber.finite 1
  | JsVal.bool false => JsNumber.finite 0
  | JsVal.num n => JsNumber.finite n
  | JsVal.str s => stringToNumber s
  | JsVal.arr items => stringToNumber (JsVal.arr items).toStr
  | JsVal.obj _ => JsNumber.nan

/-- The `validator` of the second rule of the field `grade`. -/
def gradeValidator (stringToNumber : String → JsNumber) (value : JsVal) : Validation :=
  match value with
  | JsVal.null => Validation.resolved
  | JsVal.undefined => Validation.resolved
  | value =>
    let numValue := toNumber stringToNumber value
    if numValue.isNaN then Validation.rejected "Введите число!"
    else if numValue.lt 1 || numValue.gt 10 then
      Validation.rejected "Оценка должна быть от 1 до 10!"
    else Validation.resolved

/-- The `max` of the rule of the field `comment`. -/
def commentRuleMax : Nat := 254

/-- The rule of the field `comment`, an object with `max: 254` and the message
'Максимум 255 символов', as the form library applies it to a string: the value
is rejected with the message of the rule when its length exceeds `max`. -/
def commentRule (comment : String) : Validation :=
  if comment.length > commentRuleMax then Validation.rejected "Максимум 255 символов"
  else Validation.resolved

/-! ## `getRatingColor` (src/utils/helpers.jsx) -/

namespace JsNumber

/-- The comparison `x >= c` with a finite number `c`. -/
def ge : JsNumber → ℚ → Bool
  | nan, _ => false
  | negInf, _ => false
  | finite q, c => decide (q ≥ c)
  | posInf, _ => true

/-- The comparison `x <= c` with a finite number `c`. -/
def le : JsNumber → ℚ → Bool
  | nan, _ => false
  | negInf, _ => true
  | finite q, c => decide (q ≤ c)
  | posInf, _ => false

end JsNumber

/-- The body of `getRatingColor` from `isNaN(numericRating)` on. -/
def ratingColor (numericRating : JsNumber) : String :=
  if numericRating.isNaN then "default"
  else if numericRating.ge 0 && numericRating.lt 4 then "error"
  else if numericRating.ge 4 && numericRating.lt 7 then "warning"
  else if numericRating.ge 7 && numericRating.lt 9 then "gold"
  else if numericRating.ge 9 && numericRating.le 10 then "success"
  else "default"

/-- The function `getRatingColor(rating)` for an argument that is a value of
`JsVal`; how `Number` reads a string is the parameter `stringToNumber`. -/
def getRatingColor (stringToNumber : String → JsNumber) (rating : JsVal) : String :=
  match rating with
  | JsVal.null => "default"
  | JsVal.undefined => "default"
  | rating => ratingColor (toNumber stringToNumber rating)

/-- The function `getRatingColor(rating)` for an argument that is a number
with the exact value `rating`, such as an entry of the ratings map: it is
neither `null` nor `undefined`, and `Number(rating)` is the number itself. -/
def getRatingColorOfNumber (rating : ℚ) : String :=
  ratingColor (JsNumber.finite rating)

/-! ## `updateTeacherSubjects` (src/features/teachers/TeacherList.jsx)

Subject and teacher ids are numbers; a subject whose `id` is `null` or
`undefined` has the id `none`. -/

/-- An element of `allSubjects`. -/
structure Subject where
  id : Option Int
  name : String

/-- A request `updateTeacherSubjects` sends: `api.assignSubjectToTeacher` or
`api.removeSubjectFromTeacher`, with teacher id and subject id. -/
inductive SubjectRequest where
  | assign (teacherId subjectId : Int)
  | remove (teacherId subjectId : Int)
  deriving DecidableEq

/-- The local `currentSubjectIds`: each name is mapped to the id of the first
subject of that name, and the names that give no id are dropped. -/
def currentSubjectIds (allSubjects : List Subject) (currentSubjectNames : List String) :
    List Int :=
  (currentSubjectNames.map
    (fun name => (allSubjects.find? (fun s => s.name == name)).bind (fun s => s.id))).filterMap
    (fun id => id)

/-- The local `idsToAdd`. -/
def idsToAdd (newSubjectIds currentIds : List Int) : List Int :=
  newSubjectIds.filter (fun id => !currentIds.contains id)

/-- The local `idsToRemove`. -/
def idsToRemove (newSubjectIds currentIds : List Int) : List Int :=
  currentIds.filter (fun id => !newSubjectIds.contains id)

/-- The requests `updateTeacherSubjects` sends, in the order in which it hands
them to `Promise.allSettled`. -/
def updateTeacherSubjects (allSubjects : List Subject) (teacherId : Int)
    (newSubjectIds : List Int) (currentSubjectNames : List String) : List SubjectRequest :=
  let currentIds := currentSubjectIds allSubjects currentSubjectNames
  (idsToAdd newSubjectIds currentIds).map (SubjectRequest.assign teacherId) ++
    (idsToRemove newSubjectIds currentIds).map (SubjectRequest.remove teacherId)

/-! ## The filter and sort effect of `ReviewList` (src/features/reviews/ReviewList.jsx)

Ids and grades are numbers, `none` standing for `null` or `undefined`; the date
of a review is a valid date, given by its timestamp `dayjs(date).valueOf()`.
The collation `localeCompare` of the runtime is a parameter. -/

/-- The `teacher` of a review. -/
structure ReviewTeacher where
  id : Option Int
  surname : Option String
  name : Option String
  patronym : Option String
  deriving DecidableEq

/-- An element of `allReviews`, with the fields the effect reads. -/
structure ReviewItem where
  authorId : Option Int
  teacher : Option ReviewTeacher
  subjectId : Option Int
  grade : Option Int
  date : Int
  deriving DecidableEq

/-- The value of `x || ''` for a name part. -/
def orEmpty : Option String → String
  | some part => if part != "" then part else ""
  | none => ""

/-- The callback `getTeacherFullName` of `ReviewList`; the parts hold no white
space other than blanks, tabs and line breaks, which is what `trim` removes here. -/
def getTeacherFullName (teacher : Option ReviewTeacher) : String :=
  match teacher with
  | none => "N/A"
  | some t => (orEmpty t.surname ++ " " ++ orEmpty t.name ++ " " ++ orEmpty t.patronym).trim

/-- Truthiness of a selected id: `null` and 0 are not truthy. -/
def idTruthy : Option Int → Bool
  | some n => n != 0
  | none => false

/-- The comparison function of the `sort` call, before the order multiplier. -/
def compareResult (localeCompare : String → String → Int) (sortField : String)
    (a b : ReviewItem) : Int :=
  if sortField == "teacher" then
    localeCompare (getTeacherFullName a.teacher) (getTeacherFullName b.teacher)
  else if sortField == "grade" then a.grade.getD 0 - b.grade.getD 0
  else a.date - b.date

/-- The method `Array.prototype.sort` with a comparison function: a stable
sort, which for a consistent comparison function is the result of every
conforming implementation. -/
def arraySort {α : Type} (compare : α → α → Int) (items : List α) : List α :=
  items.insertionSort (fun a b => compare a b ≤ 0)

/-- The list the effect hands to `setProcessedReviews`. -/
def processReviews (localeCompare : String → String → Int) (mode : String)
    (selectedAuthorId selectedTeacherId selectedSubjectId : Option Int)
    (sortField sortOrder : String) (allReviews : List ReviewItem) : List ReviewItem :=
  let filtered :=
    if mode == "all" then
      allReviews.filter (fun review =>
        let authorMatch := !idTruthy selectedAuthorId || review.authorId == selectedAuthorId
        let teacherMatch := !idTruthy selectedTeacherId ||
          review.teacher.bind (fun t => t.id) == selectedTeacherId
        let subjectMatch := !idTruthy selectedSubjectId ||
          review.subjectId == selectedSubjectId
        authorMatch && teacherMatch && subjectMatch)
    else allReviews
  let orderMultiplier : Int := if sortOrder == "asc" then 1 else -1
  arraySort (fun a b => compareResult localeCompare sortField a b * orderMultiplier) filtered

/-- A comparison function on strings is consistent: exchanging the arguments
flips the sign, and "not after" is transitive. -/
def ConsistentComparator (compare : String → String → Int) : Prop :=
  (∀ a b, compare a b ≤ 0 ↔ 0 ≤ compare b a) ∧
  (∀ a b c, compare a b ≤ 0 → compare b c ≤ 0 → compare a c ≤ 0)

/-- A filter matches a review: no id is selected (`null`, or 0), or the
selected id is the id of the review. -/
def filterMatches (selected actual : Option Int) : Bool :=
  match selected with
  | none => true
  | some n => if n = 0 then true else actual == some n

/-- The review passes the filters: in mode 'all' the author, teacher and
subject filters match it; in the other modes every review passes. -/
def passesFilters (mode : String)
    (selectedAuthorId selectedTeacherId selectedSubjectId : Option Int)
    (review : ReviewItem) : Bool :=
  if mode = "all" then
    filterMatches selectedAuthorId review.authorId &&
    filterMatches selectedTeacherId (review.teacher.bind (fun t => t.id)) &&
    filterMatches selectedSubjectId review.subjectId
  else true

/-- The sort key of `x` is not after the sort key of `y`: teacher full names in
the collation, grades with a missing grade counted as 0, or dates. -/
def keyLe (localeCompare : String → String → Int) (sortField : String)
    (x y : ReviewItem) : Prop :=
  if sortField = "teacher" then
    localeCompare (getTeacherFullName x.teacher) (getTeacherFullName y.teacher) ≤ 0
  else if sortField = "grade" then x.grade.getD 0 ≤ y.grade.getD 0
  else x.date ≤ y.date

namespace Sample

/-- Three subjects; the names are unique. -/
def allSubjects : List Subject :=
  [{ id := some 1, name := "Algebra" }, { id := some 2, name := "Physics" },
   { id := some 3, name := "History" }]

/-- A collation that orders strings by their length. -/
def byLength (a b : String) : Int :=
  (a.length : Int) - (b.length : Int)

/-- A review as `ReviewList` reads it, without teacher. -/
def item (authorId grade date : Int) : ReviewItem :=
  { authorId := some authorId, teacher := none, subjectId := some 1, grade := some grade,
    date := date }

end Sample

/-! ## `nameRegex` (src/features/teachers/TeacherForm.jsx)

The pattern is a value of Mathlib's `RegularExpression Char`; it has no flags
and is anchored at both ends, so `test` asks whether the whole string matches.
Every character of its classes lies in the basic plane, so matching code units
and matching characters is the same. -/

/-- The characters a range `lo-hi` of a character class stands for. -/
def charRange (lo hi : Char) : List Char :=
  (List.range (hi.toNat - lo.toNat + 1)).map (fun i => Char.ofNat (lo.toNat + i))

/-- A character class `[...]`: any one of the listed characters. -/
def charClass (chars : List Char) : RegularExpression Char :=
  chars.foldr (fun c rest => RegularExpression.char c + rest) 0

/-- The quantifier `+`: one or more times. -/
def oneOrMore (r : RegularExpression Char) : RegularExpression Char :=
  r * RegularExpression.star r

/-- The quantifier `?` on a group: at most once. -/
def optional (r : RegularExpression Char) : RegularExpression Char :=
  r + 1

/-- The characters of the class `[А-ЯЁA-Z]`. -/
def upperChars : List Char :=
  charRange 'А' 'Я' ++ ['Ё'] ++ charRange 'A' 'Z'

/-- The characters of the class `[а-яёa-z]`. -/
def lowerChars : List Char :=
  charRange 'а' 'я' ++ ['ё'] ++ charRange 'a' 'z'

/-- The part `[А-ЯЁA-Z][а-яёa-z]+` of the pattern, which occurs twice. -/
def namePart : RegularExpression Char :=
  charClass upperChars * oneOrMore (charClass lowerChars)

/-- The constant `nameRegex`. -/
def nameRegex : RegularExpression Char :=
  namePart * optional (RegularExpression.char '-' * namePart)

/-- The call `nameRegex.test(value)`. -/
def nameRegexTest (value : String) : Bool :=
  nameRegex.rmatch value.data

/-- An uppercase Cyrillic or Latin letter. -/
def isUpperLetter (c : Char) : Prop :=
  ('А' ≤ c ∧ c ≤ 'Я') ∨ c = 'Ё' ∨ ('A' ≤ c ∧ c ≤ 'Z')

/-- A lowercase Cyrillic or Latin letter. -/
def isLowerLetter (c : Char) : Prop :=
  ('а' ≤ c ∧ c ≤ 'я') ∨ c = 'ё' ∨ ('a' ≤ c ∧ c ≤ 'z')

/-- A Cyrillic or Latin letter. -/
def isLetter (c : Char) : Prop :=
  isUpperLetter c ∨ isLowerLetter c

/-! ## Basic facts about the handlers -/

theorem strictEqStr_eq_true {v : JsVal} {t : String} :
    v.strictEqStr t = true ↔ v = JsVal.str t := by
  cases v <;> simp [JsVal.strictEqStr]

theorem stopPolling_ref (s : Poller) : (stopPolling s).pollingIntervalRef = none := by
  unfold stopPolling
  cases h : s.pollingIntervalRef <;> simp [h]

theorem stopPolling_frame (s : Poller) :
    (stopPolling s).logTask = s.logTask ∧ (stopPolling s).logLoading = s.logLoading ∧
    (stopPolling s).logError = s.logError ∧ (stopPolling s).logDate = s.logDate ∧
    (stopPolling s).messages = s.messages ∧ (stopPolling s).lastHandle = s.lastHandle := by
  unfold stopPolling
  cases h : s.pollingIntervalRef <;> simp

theorem stopPolling_of_ref_none (s : Poller) (h : s.pollingIntervalRef = none) :
    stopPolling s = s := by
  unfold stopPolling
  simp [h]

theorem stopPolling_timers_of_ref (s : Poller) (handle : ℕ+)
    (h : s.pollingIntervalRef = some handle) :
    (stopPolling s).timers = clearInterval handle s.timers := by
  unfold stopPolling
  simp [h]

theorem stopPolling_timers_congr (s t : Poller)
    (href : s.pollingIntervalRef = t.pollingIntervalRef) (htimers : s.timers = t.timers) :
    (stopPolling s).timers = (stopPolling t).timers := by
  unfold stopPolling
  rw [← href]
  cases s.pollingIntervalRef <;> simp [htimers]

theorem not_mem_clearInterval (handle : ℕ+) (taskId : String) (recurring : Bool)
    (timers : List Timer) : Timer.mk handle taskId recurring ∉ clearInterval handle timers := by
  simp [clearInterval, List.mem_filter]

/-- A non-terminal successful response touches `logTask` only. -/
theorem pollStatus_ok_nonterminal (taskId : String) (data : StatusData) (s : Poller)
    (h : terminal data.status = false) :
    (pollStatus taskId (PollOutcome.ok data) s).pollingIntervalRef = s.pollingIntervalRef ∧
    (pollStatus taskId (PollOutcome.ok data) s).timers = s.timers ∧
    (pollStatus taskId (PollOutcome.ok data) s).logLoading = s.logLoading ∧
    (pollStatus taskId (PollOutcome.ok data) s).logError = s.logError := by
  unfold terminal at h
  unfold pollStatus
  by_cases ht : taskId = ""
  · simp [ht]
  · simp [ht, h]

/-- A terminal successful response clears the ref and the loading flag. -/
theorem pollStatus_ok_terminal (taskId : String) (data : StatusData) (s : Poller)
    (ht : taskId ≠ "") (h : terminal data.status = true) :
    (pollStatus taskId (PollOutcome.ok data) s).pollingIntervalRef = none ∧
    (pollStatus taskId (PollOutcome.ok data) s).logLoading = false ∧
    (pollStatus taskId (PollOutcome.ok data) s).timers = (stopPolling s).timers := by
  unfold terminal at h
  unfold pollStatus
  simp only [beq_iff_eq, ht, if_false, h, if_true]
  refine ⟨?_, ?_, ?_⟩ <;> split <;> split <;>
    simp [stopPolling_ref, stopPolling_frame] <;>
    exact stopPolling_timers_congr _ _ rfl rfl

/-- What a successful submission leaves behind, field by field. -/
theorem handleStartGeneration_ok (s : Poller) (date : Dayjs) (hdate : s.logDate = some date)
    (start : StartData) (taskId : String) (hstart : start.taskId = some taskId)
    (hid : taskId ≠ "") :
    handleStartGeneration (StartOutcome.ok start) s =
      { logDate := some date,
        logTask := some
          { id := taskId, status := start.status.or (JsVal.str LogGenerationStatus.PENDING),
            date := date.format, downloadUrl := JsVal.null, errorMessage := JsVal.null },
        logLoading := true,
        logError := JsVal.null,
        pollingIntervalRef := some (Nat.succPNat (s.lastHandle + 1)),
        timers := (stopPolling s).timers ++
          [Timer.mk (Nat.succPNat s.lastHandle) taskId false,
           Timer.mk (Nat.succPNat (s.lastHandle + 1)) taskId true],
        lastHandle := s.lastHandle + 2,
        messages := s.messages ++ [Message.mk MessageKind.success
          (JsVal.str ("Задача генерации лога " ++ taskId ++ " запущена."))] } := by
  have hf := stopPolling_frame s
  simp [handleStartGeneration, handleStartGenerationSend, handleStartGenerationSettle, hdate,
    hstart, hid, hf.2.2.2.1, hf.2.2.2.2.1, hf.2.2.2.2.2]

/-- A run of non-terminal responses leaves the ref, the timers and the loading flag alone. -/
theorem pollResponses_nonterminal (taskId : String) (responses : List StatusData)
    (hnon : ∀ r ∈ responses, terminal r.status = false) (s : Poller) :
    (pollResponses taskId responses s).pollingIntervalRef = s.pollingIntervalRef ∧
    (pollResponses taskId responses s).timers = s.timers ∧
    (pollResponses taskId responses s).logLoading = s.logLoading := by
  induction responses generalizing s with
  | nil => simp [pollResponses]
  | cons r rest ih =>
    have hr := pollStatus_ok_nonterminal taskId r s (hnon r (List.mem_cons_self r rest))
    have hrest := ih (fun x hx => hnon x (List.mem_cons_of_mem r hx))
      (pollStatus taskId (PollOutcome.ok r) s)
    simp only [pollResponses, List.foldl_cons] at hrest ⊢
    rw [hrest.1, hrest.2.1, hrest.2.2, hr.1, hr.2.1, hr.2.2.1]
    exact ⟨rfl, rfl, rfl⟩

/-- The notifications `handleApiError` sends: the returned message, once, when
it was given a message API, and nothing otherwise. -/
theorem handleApiError_sent (e : ApiError) (api : Bool) (d : String) (m : JsVal)
    (sent : List Message) (h : handleApiError e api d = some (m, sent)) :
    sent = if api then [Message.mk MessageKind.error m] else [] := by
  unfold handleApiError at h
  simp only [bind, Option.bind, pure] at h
  repeat' split at h
  all_goals first
    | (simp only [Option.some.injEq, Prod.mk.injEq] at h
       obtain ⟨h1, h2⟩ := h
       subst h1
       subst h2
       simp_all)
    | (exact absurd h (by simp))

/-- For an error without response (a transport failure, or an error thrown
before the request was sent) `handleApiError` returns, with a fixed message. -/
theorem handleApiError_of_no_response (e : ApiError) (api : Bool) (d : String)
    (h : e.response = none) :
    handleApiError e api d = some
      (if e.request then
          JsVal.str "Не удалось подключиться к серверу. Проверьте бэкенд и сеть."
        else JsVal.str ("Ошибка при настройке запроса: " ++ e.message.toStr),
       if api then
          [Message.mk MessageKind.error
            (if e.request then
              JsVal.str "Не удалось подключиться к серверу. Проверьте бэкенд и сеть."
            else JsVal.str ("Ошибка при настройке запроса: " ++ e.message.toStr))]
        else []) := by
  unfold handleApiError
  simp only [bind, Option.bind, pure, h]
  cases e.request <;> cases api <;> rfl

/-- With no timer pending, no timer fires and no status request is sent. -/
theorem fireTimer_of_no_timers (s : Poller) (handle : ℕ+) (h : s.timers = []) :
    (fireTimer handle s).2 = none := by
  simp [fireTimer, h]

/-- The `logTask` a successful status response leaves, whatever its status. -/
theorem pollStatus_ok_logTask (taskId : String) (data : StatusData) (s : Poller)
    (ht : taskId ≠ "") :
    (pollStatus taskId (PollOutcome.ok data) s).logTask =
      match s.logTask with
      | none => none
      | some prev =>
        if prev.id = taskId then
          some { prev with status := data.status, errorMessage := data.errorMessage,
                           downloadUrl := data.downloadUrl }
        else some prev := by
  unfold pollStatus
  simp only [beq_iff_eq, ht, if_false]
  split
  · split <;> split <;> simp [(stopPolling_frame _).1]
  · simp

/-- The `catch` branch of `pollStatus`, field by field. -/
theorem pollStatus_error (taskId : String) (e : ApiError) (m : JsVal) (sent : List Message)
    (s : Poller) (ht : taskId ≠ "")
    (herr : handleApiError e false "Ошибка при проверке статуса задачи" = some (m, sent)) :
    pollStatus taskId (PollOutcome.error e) s =
      { logDate := s.logDate,
        logTask :=
          match s.logTask with
          | some prev =>
            if prev.id == taskId then
              some { prev with status := JsVal.str LogGenerationStatus.FAILED }
            else none
          | none => none,
        logLoading := false,
        logError := JsVal.str (m.toStr ++ ". Проверка остановлена."),
        pollingIntervalRef := none,
        timers := (stopPolling s).timers,
        lastHandle := s.lastHandle,
        messages := s.messages } := by
  have hsent : sent = [] := by
    simpa using handleApiError_sent e false _ m sent herr
  subst hsent
  unfold pollStatus
  simp only [beq_iff_eq, ht, if_false, herr, List.append_nil]
  have hf := stopPolling_frame
    { s with logError := JsVal.str (m.toStr ++ ". Проверка остановлена.") }
  have hr := stopPolling_ref
    { s with logError := JsVal.str (m.toStr ++ ". Проверка остановлена.") }
  have ht := stopPolling_timers_congr
    { s with logError := JsVal.str (m.toStr ++ ". Проверка остановлена.") } s rfl rfl
  simp only [] at hf hr ht
  simp [hf.1, hf.2.2.1, hf.2.2.2.1, hf.2.2.2.2.1, hf.2.2.2.2.2, hr, ht]

/-- The `catch` block of `handleStartGeneration`, reached by every failing outcome. -/
theorem handleStartGeneration_thrown (s : Poller) (date : Dayjs) (hdate : s.logDate = some date)
    (outcome : StartOutcome) (e : ApiError) (hthrown : outcome.thrown = some e) :
    handleStartGeneration outcome s =
      handleStartGenerationCatch e
        { stopPolling s with logLoading := true, logError := JsVal.null, logTask := none } := by
  unfold handleStartGeneration handleStartGenerationSend
  simp only [hdate]
  cases outcome with
  | error e2 =>
    simp only [StartOutcome.thrown, Option.some.injEq] at hthrown
    subst hthrown
    rfl
  | ok data =>
    simp only [StartOutcome.thrown] at hthrown
    cases hid : data.taskId with
    | none =>
      simp only [hid, Option.some.injEq] at hthrown
      subst hthrown
      simp [handleStartGenerationSettle, hid]
    | some taskId =>
      simp only [hid] at hthrown
      by_cases hempty : (taskId == "") = true
      · simp only [hempty, if_true, Option.some.injEq] at hthrown
        subst hthrown
        simp only [handleStartGenerationSettle, hid, hempty, if_true]
      · simp [hempty] at hthrown

/-- A COMPLETED response, field by field (apart from `logTask`): polling stops,
and a response without (truthy) download link sets `logError` and sends one warning. -/
theorem pollStatus_ok_completed (taskId : String) (data : StatusData) (s : Poller)
    (ht : taskId ≠ "") (hstatus : data.status = JsVal.str "COMPLETED") :
    pollStatus taskId (PollOutcome.ok data) s =
      { logDate := s.logDate,
        logTask := (pollStatus taskId (PollOutcome.ok data) s).logTask,
        logLoading := false,
        logError :=
          if data.downloadUrl.truthy then s.logError
          else JsVal.str "Генерация завершена, но ссылка на скачивание отсутствует.",
        pollingIntervalRef := none,
        timers := (stopPolling s).timers,
        lastHandle := s.lastHandle,
        messages :=
          if data.downloadUrl.truthy then s.messages
          else s.messages ++ [Message.mk MessageKind.warning (JsVal.str
            "Генерация завершена, но ссылка на скачивание не получена от сервера.")] } := by
  have hc : data.status.strictEqStr LogGenerationStatus.COMPLETED = true := by
    rw [hstatus]; rfl
  have hf : data.status.strictEqStr LogGenerationStatus.FAILED = false := by
    rw [hstatus]; rfl
  unfold pollStatus
  simp only [beq_iff_eq, ht, if_false, hc, hf, Bool.true_or, if_true, Bool.true_and,
    Bool.false_eq_true]
  cases hl : data.downloadUrl.truthy
  all_goals
    simp [stopPolling_ref, (stopPolling_frame _).2.1, (stopPolling_frame _).2.2.1,
      (stopPolling_frame _).2.2.2.1, (stopPolling_frame _).2.2.2.2.1,
      (stopPolling_frame _).2.2.2.2.2, (stopPolling_frame _).1]
    exact stopPolling_timers_congr _ _ rfl rfl

/-- The four ways a settled status request can leave `logTask`. -/
theorem pollStatus_logTask (taskId : String) (outcome : PollOutcome) (s : Poller) :
    (pollStatus taskId outcome s).logTask = s.logTask ∨
    (pollStatus taskId outcome s).logTask = none ∨
    (∃ prev data, s.logTask = some prev ∧ outcome = PollOutcome.ok data ∧
      (pollStatus taskId outcome s).logTask = some
        { prev with status := data.status, errorMessage := data.errorMessage,
                    downloadUrl := data.downloadUrl }) ∨
    (∃ prev e, s.logTask = some prev ∧ outcome = PollOutcome.error e ∧
      (pollStatus taskId outcome s).logTask = some
        { prev with status := JsVal.str "FAILED" }) := by
  by_cases ht : taskId = ""
  · left
    simp [pollStatus, ht]
  · cases outcome with
    | ok data =>
      rw [pollStatus_ok_logTask taskId data s ht]
      cases hj : s.logTask with
      | none => left; rfl
      | some prev =>
        by_cases hid : prev.id = taskId
        · right; right; left
          exact ⟨prev, data, rfl, rfl, by simp [hid]⟩
        · left
          simp [hid]
    | error e =>
      cases herr : handleApiError e false "Ошибка при проверке статуса задачи" with
      | none =>
        left
        simp [pollStatus, ht, herr]
      | some res =>
        obtain ⟨m, sent⟩ := res
        rw [pollStatus_error taskId e m sent s ht herr]
        cases hj : s.logTask with
        | none => left; rfl
        | some prev =>
          by_cases hid : prev.id = taskId
          · right; right; right
            exact ⟨prev, e, rfl, rfl, by simp [hid, LogGenerationStatus]⟩
          · right; left
            simp [hid]

/-- The `catch` block of `handleStartGeneration` never writes `logTask`, the
ref, the timers or the handle counter. -/
theorem handleStartGenerationCatch_frame (e : ApiError) (s : Poller) :
    (handleStartGenerationCatch e s).logTask = s.logTask ∧
    (handleStartGenerationCatch e s).pollingIntervalRef = s.pollingIntervalRef ∧
    (handleStartGenerationCatch e s).timers = s.timers ∧
    (handleStartGenerationCatch e s).lastHandle = s.lastHandle ∧
    (handleStartGenerationCatch e s).logDate = s.logDate := by
  unfold handleStartGenerationCatch
  cases handleApiError e true "Не удалось запустить генерацию лога" with
  | none => exact ⟨rfl, rfl, rfl, rfl, rfl⟩
  | some res => exact ⟨rfl, rfl, rfl, rfl, rfl⟩

/-- A settled start request leaves `logTask` alone or installs a fresh job
without download link and without error message. -/
theorem handleStartGenerationSettle_logTask (formattedDate : String) (outcome : StartOutcome)
    (s : Poller) :
    (handleStartGenerationSettle formattedDate outcome s).logTask = s.logTask ∨
    ∃ taskId status, (handleStartGenerationSettle formattedDate outcome s).logTask = some
      { id := taskId, status := status, date := formattedDate,
        downloadUrl := JsVal.null, errorMessage := JsVal.null } := by
  cases outcome with
  | error e => exact Or.inl (handleStartGenerationCatch_frame e s).1
  | ok data =>
    cases hid : data.taskId with
    | none =>
      simp only [handleStartGenerationSettle, hid]
      exact Or.inl (handleStartGenerationCatch_frame _ s).1
    | some taskId =>
      by_cases hempty : (taskId == "") = true
      · simp only [handleStartGenerationSettle, hid, hempty, if_true]
        exact Or.inl (handleStartGenerationCatch_frame _ s).1
      · simp only [handleStartGenerationSettle, hid, hempty]
        exact Or.inr ⟨taskId, _, rfl⟩

/-- The first part of `handleStartGeneration` leaves `logTask` alone or clears it. -/
theorem handleStartGenerationSend_logTask (s : Poller) :
    (handleStartGenerationSend s).1.logTask = s.logTask ∨
    (handleStartGenerationSend s).1.logTask = none := by
  unfold handleStartGenerationSend
  cases s.logDate with
  | none => exact Or.inl rfl
  | some d => exact Or.inr rfl

/-- The timers of the window do not touch the React state. -/
theorem fireTimer_logTask (handle : ℕ+) (s : Poller) :
    (fireTimer handle s).1.logTask = s.logTask := by
  unfold fireTimer
  cases List.find? (fun t => t.handle == handle) s.timers with
  | none => rfl
  | some t => cases h : t.recurring <;> simp [h]

/-- A property kept by every admitted event holds after every run of admitted events. -/
theorem run_invariant (P : Poller → Prop) (Q : Event → Prop)
    (hstep : ∀ s e, Q e → P s → P (step s e)) :
    ∀ (events : List Event) (s : Poller), (∀ e ∈ events, Q e) → P s → P (run events s) := by
  intro events
  induction events with
  | nil => intro s _ hs; exact hs
  | cons e rest ih =>
    intro s hq hs
    exact ih (step s e) (fun x hx => hq x (List.mem_cons_of_mem e hx))
      (hstep s e (hq e (List.mem_cons_self e rest)) hs)

/-- The five ways one event can leave `logTask`: untouched, cleared, a fresh
job of a successful submission, the tracked job updated from a status
response, the tracked job marked FAILED. -/
theorem step_logTask (s : Poller) (e : Event) :
    (step s e).logTask = s.logTask ∨
    (step s e).logTask = none ∨
    (∃ taskId status date, (step s e).logTask = some
      { id := taskId, status := status, date := date,
        downloadUrl := JsVal.null, errorMessage := JsVal.null }) ∨
    (∃ prev taskId data, s.logTask = some prev ∧
      e = Event.pollSettled taskId (PollOutcome.ok data) ∧
      (step s e).logTask = some
        { prev with status := data.status, errorMessage := data.errorMessage,
                    downloadUrl := data.downloadUrl }) ∨
    (∃ prev, s.logTask = some prev ∧
      (step s e).logTask = some { prev with status := JsVal.str "FAILED" }) := by
  cases e with
  | pickDate date => exact Or.inl rfl
  | clickGenerate =>
    rcases handleStartGenerationSend_logTask s with h | h
    · exact Or.inl h
    · exact Or.inr (Or.inl h)
  | startSettled formattedDate outcome =>
    rcases handleStartGenerationSettle_logTask formattedDate outcome s with h | ⟨t, st, h⟩
    · exact Or.inl h
    · exact Or.inr (Or.inr (Or.inl ⟨t, st, formattedDate, h⟩))
  | timerFired handle => exact Or.inl (fireTimer_logTask handle s)
  | pollSettled taskId outcome =>
    rcases pollStatus_logTask taskId outcome s with h | h | ⟨prev, data, h1, h2, h3⟩ |
      ⟨prev, e, h1, _, h3⟩
    · exact Or.inl h
    · exact Or.inr (Or.inl h)
    · exact Or.inr (Or.inr (Or.inr (Or.inl ⟨prev, taskId, data, h1, by rw [h2], h3⟩)))
    · exact Or.inr (Or.inr (Or.inr (Or.inr ⟨prev, h1, h3⟩)))
  | alertClosed => exact Or.inl rfl
  | cleanup => exact Or.inl (stopPolling_frame s).1

/-! ## Facts about `calculateAverageRatings` -/

theorem dictGet_dictSet {α : Type} (obj : List (String × α)) (key : String) (value : α)
    (k : String) :
    dictGet (dictSet obj key value) k = if k = key then some value else dictGet obj k := by
  induction obj with
  | nil =>
    by_cases h : k = key
    · simp [dictSet, dictGet, List.lookup, h]
    · have hb : (k == key) = false := by simpa using h
      simp [dictSet, dictGet, List.lookup, h, hb]
  | cons entry rest ih =>
    obtain ⟨k0, v0⟩ := entry
    unfold dictGet at ih ⊢
    by_cases h0 : k0 = key
    · subst h0
      by_cases h : k = k0
      · simp [dictSet, List.lookup, h]
      · have hb : (k == k0) = false := by simpa using h
        simp [dictSet, List.lookup, h, hb]
    · by_cases h : k = key
      · subst h
        have hk : (k == k0) = false := by simpa using fun hh => h0 hh.symm
        simp [dictSet, List.lookup, h0, hk, ih]
      · by_cases h1 : k = k0
        · subst h1
          simp [dictSet, List.lookup, h0]
        · have hk : (k == k0) = false := by simpa using h1
          simp [dictSet, List.lookup, h0, hk, ih, h]

theorem mem_keys_dictSet {α : Type} (key : String) (value : α) (obj : List (String × α))
    (k : String) (hk : k ∈ (dictSet obj key value).map Prod.fst) :
    k = key ∨ k ∈ obj.map Prod.fst := by
  induction obj with
  | nil =>
    simp only [dictSet, List.map_cons, List.map_nil, List.mem_singleton] at hk
    exact Or.inl hk
  | cons entry rest ih =>
    obtain ⟨k0, v0⟩ := entry
    by_cases h0 : k0 = key
    · simp only [dictSet, h0, beq_self_eq_true, if_true, List.map_cons, List.mem_cons] at hk ⊢
      rcases hk with hk | hk
      · exact Or.inl hk
      · exact Or.inr (Or.inr hk)
    · simp only [dictSet, beq_iff_eq, h0, if_false, List.map_cons, List.mem_cons] at hk ⊢
      rcases hk with hk | hk
      · exact Or.inr (Or.inl hk)
      · rcases ih hk with h1 | h1
        · exact Or.inl h1
        · exact Or.inr (Or.inr h1)

theorem dictSet_keys_nodup {α : Type} (obj : List (String × α)) (key : String) (value : α)
    (h : (obj.map Prod.fst).Nodup) : ((dictSet obj key value).map Prod.fst).Nodup := by
  induction obj with
  | nil => simp [dictSet]
  | cons entry rest ih =>
    obtain ⟨k0, v0⟩ := entry
    simp only [List.map_cons, List.nodup_cons] at h
    by_cases h0 : k0 = key
    · simpa [dictSet, h0] using h
    · simp only [dictSet, beq_iff_eq, h0, if_false, List.map_cons, List.nodup_cons]
      refine ⟨?_, ih h.2⟩
      intro hk
      rcases mem_keys_dictSet key value rest k0 hk with h1 | h1
      · exact h0 h1
      · exact h.1 h1

/-- The rounded value is a whole number of tenths. -/
theorem toFixed1_tenths (x : ℚ) : ∃ n : ℤ, toFixed1 x = (n : ℚ) / 10 := by
  unfold toFixed1
  split
  · exact ⟨-⌊(-x) * 10 + 1 / 2⌋, by push_cast; ring⟩
  · exact ⟨⌊x * 10 + 1 / 2⌋, rfl⟩

/-- The rounded value is a nearest tenth: it is off by at most one twentieth. -/
theorem toFixed1_close (x : ℚ) : |toFixed1 x - x| ≤ 1 / 20 := by
  have key : ∀ y : ℚ, |((⌊y * 10 + 1 / 2⌋ : ℤ) : ℚ) / 10 - y| ≤ 1 / 20 := by
    intro y
    have h1 := Int.floor_le (y * 10 + 1 / 2)
    have h2 := Int.lt_floor_add_one (y * 10 + 1 / 2)
    rw [abs_le]
    constructor <;> linarith
  unfold toFixed1
  split
  · have h := key (-x)
    have heq : -(((⌊(-x) * 10 + 1 / 2⌋ : ℤ) : ℚ) / 10) - x
        = -((((⌊(-x) * 10 + 1 / 2⌋ : ℤ) : ℚ) / 10) - (-x)) := by ring
    rw [heq, abs_neg]
    exact h
  · exact key x

/-- Rounding to a whole number moves a number by at most one half. -/
theorem roundHalfEven_close (x : ℚ) : |(roundHalfEven x : ℚ) - x| ≤ 1 / 2 := by
  have h1 := Int.floor_le x
  have h2 := Int.lt_floor_add_one x
  unfold roundHalfEven
  rw [abs_le]
  split_ifs <;> push_cast <;> constructor <;> linarith

/-- Rounding to a whole number keeps a whole lower bound. -/
theorem roundHalfEven_ge (x : ℚ) (k : ℤ) (h : (k : ℚ) ≤ x) : k ≤ roundHalfEven x := by
  have hk : k ≤ ⌊x⌋ := Int.le_floor.mpr h
  unfold roundHalfEven
  split_ifs <;> omega

/-- Rounding to a whole number keeps a whole upper bound. -/
theorem roundHalfEven_le (x : ℚ) (k : ℤ) (h : x ≤ (k : ℚ)) : roundHalfEven x ≤ k := by
  have h1 := Int.floor_le x
  have hk : ⌊x⌋ ≤ k := by exact_mod_cast h1.trans h
  have hlt : 0 < x - ⌊x⌋ → ⌊x⌋ + 1 ≤ k := by
    intro hpos
    have : ((⌊x⌋ : ℤ) : ℚ) < (k : ℚ) := by linarith
    have : ⌊x⌋ < k := by exact_mod_cast this
    omega
  unfold roundHalfEven
  split_ifs with c1 c2 c3
  · exact hk
  · exact hlt (by linarith)
  · exact hk
  · exact hlt (by linarith)

/-- The rounding of a number less than one half away from a whole number. -/
theorem roundHalfEven_eq (x : ℚ) (m : ℤ) (h : |x - m| < 1 / 2) : roundHalfEven x = m := by
  rw [abs_lt] at h
  by_cases hx : (m : ℚ) ≤ x
  · have hf : ⌊x⌋ = m := by
      rw [Int.floor_eq_iff]
      constructor <;> linarith
    unfold roundHalfEven
    rw [hf, if_pos (by linarith)]
  · have hf : ⌊x⌋ = m - 1 := by
      rw [Int.floor_eq_iff]
      push_cast
      constructor <;> linarith
    unfold roundHalfEven
    rw [hf]
    push_cast
    rw [if_neg (by linarith), if_pos (by linarith)]
    ring

/-- The binary exponent of a positive number. -/
theorem log_two_eq (x : ℚ) (e : ℤ) (hlo : (2 : ℚ) ^ e ≤ x) (hhi : x < (2 : ℚ) ^ (e + 1)) :
    Int.log 2 x = e := by
  have hpos : 0 < x := lt_of_lt_of_le (by positivity) hlo
  have h1 : e ≤ Int.log 2 x := (Int.zpow_le_iff_le_log (by norm_num) hpos).mp (by exact_mod_cast hlo)
  have h2 : Int.log 2 x < e + 1 := (Int.lt_zpow_iff_log_lt (by norm_num) hpos).mp (by exact_mod_cast hhi)
  omega

/-- The double of a number, from its binary exponent and its rounded
significand. -/
theorem toDouble_eq (x : ℚ) (e m : ℤ) (hlo : (2 : ℚ) ^ e ≤ |x|) (hhi : |x| < (2 : ℚ) ^ (e + 1))
    (hm : |x / 2 ^ (e - 52) - m| < 1 / 2) : toDouble x = (m : ℚ) * 2 ^ (e - 52) := by
  have hx : x ≠ 0 := by
    intro h
    rw [h, abs_zero] at hlo
    exact absurd hlo (not_le.mpr (by positivity))
  unfold toDouble
  rw [if_neg hx, log_two_eq |x| e hlo hhi, roundHalfEven_eq _ m hm]

/-- The relative error of rounding to a double is at most 2^-53. -/
theorem toDouble_close (x : ℚ) : |toDouble x - x| ≤ |x| / 2 ^ 53 := by
  unfold toDouble
  split_ifs with hx
  · simp [hx]
  · have hpos : 0 < |x| := abs_pos.mpr hx
    have hlog : ((2 : ℕ) : ℚ) ^ Int.log 2 |x| ≤ |x| := Int.zpow_log_le_self (by norm_num) hpos
    have hq : (0 : ℚ) < 2 ^ (Int.log 2 |x| - 52) := by positivity
    have hr := roundHalfEven_close (x / 2 ^ (Int.log 2 |x| - 52))
    have hsplit : (2 : ℚ) ^ Int.log 2 |x| = 2 ^ (Int.log 2 |x| - 52) * 2 ^ (52 : ℕ) := by
      rw [← zpow_natCast, ← zpow_add₀ (by norm_num)]
      congr 1
      push_cast
      ring
    have heq : (roundHalfEven (x / 2 ^ (Int.log 2 |x| - 52)) : ℚ) * 2 ^ (Int.log 2 |x| - 52) - x
        = ((roundHalfEven (x / 2 ^ (Int.log 2 |x| - 52)) : ℚ) - x / 2 ^ (Int.log 2 |x| - 52))
          * 2 ^ (Int.log 2 |x| - 52) := by
      field_simp
    rw [heq, abs_mul, abs_of_pos hq]
    have hlog2 : (2 : ℚ) ^ (Int.log 2 |x| - 52) * 2 ^ (52 : ℕ) ≤ |x| := by
      rw [← hsplit]
      exact_mod_cast hlog
    have h3 : |(roundHalfEven (x / 2 ^ (Int.log 2 |x| - 52)) : ℚ) - x / 2 ^ (Int.log 2 |x| - 52)|
        * 2 ^ (Int.log 2 |x| - 52) ≤ 1 / 2 * 2 ^ (Int.log 2 |x| - 52) :=
      mul_le_mul_of_nonneg_right hr hq.le
    rw [le_div_iff₀ (by positivity)]
    norm_num at hlog2 ⊢
    nlinarith

/-- Below 2^53 rounding to a double keeps whole-number bounds. -/
theorem toDouble_bounds (a b : ℤ) (x : ℚ) (hx : |x| < 2 ^ 53) (ha : (a : ℚ) ≤ x)
    (hb : x ≤ (b : ℚ)) : (a : ℚ) ≤ toDouble x ∧ toDouble x ≤ (b : ℚ) := by
  unfold toDouble
  split_ifs with h0
  · rw [h0] at ha hb
    exact ⟨ha, hb⟩
  · have hpos : 0 < |x| := abs_pos.mpr h0
    have hlt : Int.log 2 |x| < 53 :=
      (Int.lt_zpow_iff_log_lt (by norm_num) hpos).mp (by exact_mod_cast hx)
    obtain ⟨k, hk⟩ : ∃ k : ℕ, Int.log 2 |x| - 52 = -(k : ℤ) :=
      ⟨(52 - Int.log 2 |x|).toNat, by omega⟩
    rw [hk]
    have hq : (2 : ℚ) ^ (-(k : ℤ)) = 1 / 2 ^ k := by
      rw [zpow_neg, zpow_natCast, one_div]
    rw [hq]
    have hp : (0 : ℚ) < 2 ^ k := by positivity
    have hdiv : x / (1 / 2 ^ k) = x * 2 ^ k := by field_simp
    rw [hdiv]
    have hge := roundHalfEven_ge (x * 2 ^ k) (a * 2 ^ k) (by
      push_cast
      exact mul_le_mul_of_nonneg_right ha hp.le)
    have hle := roundHalfEven_le (x * 2 ^ k) (b * 2 ^ k) (by
      push_cast
      exact mul_le_mul_of_nonneg_right hb hp.le)
    have hge2 : ((a * 2 ^ k : ℤ) : ℚ) ≤ (roundHalfEven (x * 2 ^ k) : ℚ) := by exact_mod_cast hge
    have hle2 : (roundHalfEven (x * 2 ^ k) : ℚ) ≤ ((b * 2 ^ k : ℤ) : ℚ) := by exact_mod_cast hle
    push_cast at hge2 hle2
    constructor
    · rw [mul_one_div, le_div_iff₀ hp]
      exact hge2
    · rw [mul_one_div, div_le_iff₀ hp]
      exact hle2


/-- A tenth nearest to the double quotient of two whole numbers is a tenth
nearest to their exact quotient, when twenty times the numerator is below 2^53. -/
theorem toFixed1_toDouble_close (s : ℤ) (c : ℕ) (hc : 0 < c) (hs : 20 * |s| < 2 ^ 53) :
    |toFixed1 (toDouble ((s : ℚ) / (c : ℚ))) - (s : ℚ) / (c : ℚ)| ≤ 1 / 20 := by
  obtain ⟨n, hn⟩ := toFixed1_tenths (toDouble ((s : ℚ) / (c : ℚ)))
  have hclose := toFixed1_close (toDouble ((s : ℚ) / (c : ℚ)))
  have hd := toDouble_close ((s : ℚ) / (c : ℚ))
  rw [hn] at hclose ⊢
  have hC : (0 : ℚ) < (c : ℚ) := by exact_mod_cast hc
  have hxC : (s : ℚ) / (c : ℚ) * (c : ℚ) = (s : ℚ) := by field_simp
  have habs : |(s : ℚ) / (c : ℚ)| * (c : ℚ) = |(s : ℚ)| := by
    rw [abs_div, abs_of_pos hC]
    field_simp
  have hsq : 20 * |(s : ℚ)| < 2 ^ 53 := by exact_mod_cast hs
  rw [abs_le] at hclose hd
  rw [le_div_iff₀ (by positivity)] at hd
  have hd1 : (toDouble ((s : ℚ) / (c : ℚ)) - (s : ℚ) / (c : ℚ)) * (c : ℚ) * 2 ^ 53
      ≤ |(s : ℚ)| := by
    have h := mul_le_mul_of_nonneg_right hd.2 hC.le
    rw [← habs]
    linarith
  have hd2 : ((s : ℚ) / (c : ℚ) - toDouble ((s : ℚ) / (c : ℚ))) * (c : ℚ) * 2 ^ 53
      ≤ |(s : ℚ)| := by
    have h1 : -(|(s : ℚ) / (c : ℚ)| / 2 ^ 53) * 2 ^ 53 = -|(s : ℚ) / (c : ℚ)| := by
      field_simp
    have h := mul_le_mul_of_nonneg_right hd.1 hC.le
    rw [← habs]
    nlinarith
  set d := toDouble ((s : ℚ) / (c : ℚ)) with hdef
  have hdC1 : d * (c : ℚ) * 20 ≤ (2 * (n : ℚ) + 1) * (c : ℚ) := by
    have h : d ≤ (2 * (n : ℚ) + 1) / 20 := by linarith [hclose.1]
    have h2 := mul_le_mul_of_nonneg_right h hC.le
    linarith
  have hdC2 : (2 * (n : ℚ) - 1) * (c : ℚ) ≤ d * (c : ℚ) * 20 := by
    have h : (2 * (n : ℚ) - 1) / 20 ≤ d := by linarith [hclose.2]
    have h2 := mul_le_mul_of_nonneg_right h hC.le
    linarith
  rw [abs_le]
  constructor
  · by_contra hcon
    rw [not_le] at hcon
    have h1 : ((n : ℚ) / 10 - (s : ℚ) / (c : ℚ)) * (c : ℚ) < -(1 / 20) * (c : ℚ) :=
      mul_lt_mul_of_pos_right hcon hC
    have h2 : ((2 * n + 1) * (c : ℤ) : ℤ) < 20 * s := by
      have : ((2 * (n : ℚ) + 1) * (c : ℚ)) < 20 * (s : ℚ) := by
        have : (n : ℚ) / 10 * (c : ℚ) - (s : ℚ) < -(1 / 20) * (c : ℚ) := by
          rw [sub_mul, hxC] at h1
          exact h1
        linarith
      exact_mod_cast this
    have h3 : (2 * n + 1) * (c : ℤ) + 1 ≤ 20 * s := by omega
    have h4 : (2 * (n : ℚ) + 1) * (c : ℚ) + 1 ≤ 20 * (s : ℚ) := by exact_mod_cast h3
    have h5 : ((s : ℚ) / (c : ℚ) - d) * (c : ℚ) * 20 ≥ 1 := by
      rw [sub_mul, hxC]
      linarith
    nlinarith
  · by_contra hcon
    rw [not_le] at hcon
    have h1 : 1 / 20 * (c : ℚ) < ((n : ℚ) / 10 - (s : ℚ) / (c : ℚ)) * (c : ℚ) :=
      mul_lt_mul_of_pos_right hcon hC
    have h2 : 20 * s < ((2 * n - 1) * (c : ℤ) : ℤ) := by
      have : 20 * (s : ℚ) < ((2 * (n : ℚ) - 1) * (c : ℚ)) := by
        have : 1 / 20 * (c : ℚ) < (n : ℚ) / 10 * (c : ℚ) - (s : ℚ) := by
          rw [sub_mul, hxC] at h1
          exact h1
        linarith
      exact_mod_cast this
    have h3 : 20 * s + 1 ≤ (2 * n - 1) * (c : ℤ) := by omega
    have h4 : 20 * (s : ℚ) + 1 ≤ (2 * (n : ℚ) - 1) * (c : ℚ) := by exact_mod_cast h3
    have h5 : (d - (s : ℚ) / (c : ℚ)) * (c : ℚ) * 20 ≥ 1 := by
      rw [sub_mul, hxC]
      linarith
    nlinarith

theorem gradesOf_singleton (key : String) (review : JsVal) :
    gradesOf key [review] =
      match reviewEntry review with
      | some (k, grade) => if k = key then [grade] else []
      | none => [] := by
  unfold gradesOf reviewEntry
  cases h1 : reviewTeacherId review with
  | none => simp [List.filterMap, h1]
  | some teacherId =>
    cases h2 : review.get "grade" <;> simp [List.filterMap, h1, h2]
    cases ht : teacherId.truthy
    · simp
    · by_cases hk : teacherId.toStr = key
      · simp [hk]
      · simp [hk]

theorem gradesOf_append (key : String) (xs ys : List JsVal) :
    gradesOf key (xs ++ ys) = gradesOf key xs ++ gradesOf key ys := by
  simp [gradesOf, List.filterMap_append]

/-- The callback of `forEach` in terms of what the review contributes. -/
theorem addReview_eq (acc : RatingSums) (review : JsVal) (teacherId : JsVal)
    (hid : reviewTeacherId review = some teacherId) :
    addReview acc review = some
      (match reviewEntry review with
        | some (k, grade) =>
          { gradeSums := dictSet acc.gradeSums k ((dictGet acc.gradeSums k).getD 0 + grade),
            reviewCounts := dictSet acc.reviewCounts k
              ((dictGet acc.reviewCounts k).getD 0 + 1) }
        | none => acc) := by
  unfold addReview reviewEntry
  simp only [hid]
  cases ht : teacherId.truthy
  · cases review.get "grade" <;> simp [ht]
  · cases review.get "grade" <;> simp [ht]

theorem addReview_none (acc : RatingSums) (review : JsVal)
    (hid : reviewTeacherId review = none) : addReview acc review = none := by
  unfold addReview
  simp only [hid]

/-- One more review keeps the sums and counts in step with the reviews seen. -/
theorem SumsOf_addReview (acc acc2 : RatingSums) (seen : List JsVal) (review : JsVal)
    (hacc : SumsOf acc seen) (hstep : addReview acc review = some acc2) :
    SumsOf acc2 (seen ++ [review]) := by
  cases hid : reviewTeacherId review with
  | none => rw [addReview_none acc review hid] at hstep; cases hstep
  | some teacherId =>
    rw [addReview_eq acc review teacherId hid] at hstep
    cases hentry : reviewEntry review with
    | none =>
      simp only [hentry, Option.some.injEq] at hstep
      subst hstep
      refine ⟨hacc.1, ?_⟩
      intro key
      rw [gradesOf_append, gradesOf_singleton, hentry]
      simpa using hacc.2 key
    | some entry =>
      obtain ⟨k, grade⟩ := entry
      simp only [hentry, Option.some.injEq] at hstep
      subst hstep
      refine ⟨dictSet_keys_nodup _ _ _ hacc.1, ?_⟩
      intro key
      rw [gradesOf_append, gradesOf_singleton, hentry]
      simp only [dictGet_dictSet]
      have hk := hacc.2 key
      by_cases hkey : key = k
      · subst hkey
        simp only [if_true] at hk ⊢
        by_cases hnil : gradesOf key seen = []
        · simp [hnil] at hk ⊢
          simp [hk.1, hk.2]
        · simp [hnil] at hk ⊢
          simp [hk.1, hk.2, List.sum_append]
      · have hkey2 : ¬ k = key := fun h => hkey h.symm
        simpa [hkey, hkey2] using hk

/-- After `forEach`, the sums and counts are those of all the reviews. -/
theorem SumsOf_foldlM (items : List JsVal) :
    ∀ (acc res : RatingSums) (seen : List JsVal), SumsOf acc seen →
      items.foldlM addReview acc = some res → SumsOf res (seen ++ items) := by
  induction items with
  | nil =>
    intro acc res seen hacc hres
    simp only [List.foldlM_nil, pure, Option.some.injEq] at hres
    subst hres
    simpa using hacc
  | cons review rest ih =>
    intro acc res seen hacc hres
    simp only [List.foldlM_cons, bind, Option.bind] at hres
    cases hstep : addReview acc review with
    | none => simp [hstep] at hres
    | some acc2 =>
      simp only [hstep] at hres
      have h := ih acc2 res (seen ++ [review]) (SumsOf_addReview acc acc2 seen review hacc hstep)
        hres
      simpa using h

/-- The `forEach` completes when no element is `null` or `undefined`. -/
theorem foldlM_addReview_isSome (items : List JsVal)
    (hitems : ∀ r ∈ items, r ≠ JsVal.null ∧ r ≠ JsVal.undefined) :
    ∀ acc, ∃ res, items.foldlM addReview acc = some res := by
  induction items with
  | nil => intro acc; exact ⟨acc, rfl⟩
  | cons review rest ih =>
    intro acc
    have hr := hitems review (List.mem_cons_self review rest)
    have hid : ∃ teacherId, reviewTeacherId review = some teacherId := by
      cases review with
      | undefined => exact absurd rfl hr.2
      | null => exact absurd rfl hr.1
      | bool b => exact ⟨_, rfl⟩
      | num n => exact ⟨_, rfl⟩
      | str t => exact ⟨_, rfl⟩
      | arr xs => exact ⟨_, rfl⟩
      | obj fields =>
        simp only [reviewTeacherId]
        split <;> exact ⟨_, rfl⟩
    obtain ⟨teacherId, hid⟩ := hid
    obtain ⟨res, hres⟩ := ih (fun r hr2 => hitems r (List.mem_cons_of_mem review hr2))
      (match reviewEntry review with
        | some (k, grade) =>
          { gradeSums := dictSet acc.gradeSums k ((dictGet acc.gradeSums k).getD 0 + grade),
            reviewCounts := dictSet acc.reviewCounts k
              ((dictGet acc.reviewCounts k).getD 0 + 1) }
        | none => acc)
    refine ⟨res, ?_⟩
    simp only [List.foldlM_cons, bind, Option.bind, addReview_eq acc review teacherId hid]
    exact hres

/-- What the `for ... in` loop leaves under a key: the rating of the quotient
of the sum and the count stored under that key. -/
theorem averageRatings_fold (counts : List (String × Nat)) (es : List (String × Int)) :
    ∀ (m : List (String × ℚ)), (es.map Prod.fst).Nodup → ∀ key,
      dictGet (es.foldl
        (fun ratingsMap entry =>
          match dictGet counts entry.1 with
          | some count =>
            if count > 0 then
              dictSet ratingsMap entry.1
                (parseFloat (toFixed1 (toDouble ((entry.2 : ℚ) / (count : ℚ)))))
            else ratingsMap
          | none => ratingsMap) m) key =
      match dictGet es key, dictGet counts key with
      | some sum, some count =>
        if count > 0 then
          some (parseFloat (toFixed1 (toDouble ((sum : ℚ) / (count : ℚ)))))
        else dictGet m key
      | _, _ => dictGet m key := by
  induction es with
  | nil => intro m _ key; simp [dictGet]
  | cons entry rest ih =>
    intro m hnodup key
    obtain ⟨k0, v0⟩ := entry
    simp only [List.map_cons, List.nodup_cons] at hnodup
    simp only [List.foldl_cons]
    rw [ih _ hnodup.2 key]
    by_cases hkey : key = k0
    · subst hkey
      have hrest : dictGet rest key = none := by
        unfold dictGet
        rw [List.lookup_eq_none_iff]
        intro p hp
        have hne : key ≠ p.1 := fun h => hnodup.1 (by rw [h]; exact List.mem_map_of_mem _ hp)
        simpa using hne
      have hhead : dictGet ((key, v0) :: rest) key = some v0 := by
        simp [dictGet]
      rw [hrest, hhead]
      cases hc : dictGet counts key with
      | none => simp
      | some count =>
        by_cases hpos : count > 0
        · simp [hpos, dictGet_dictSet]
        · simp [hpos]
    · have hb : (key == k0) = false := by simpa using hkey
      have hhead : dictGet ((k0, v0) :: rest) key = dictGet rest key := by
        simp [dictGet, List.lookup_cons, hb]
      have hm : dictGet
          (match dictGet counts k0 with
            | some count =>
              if count > 0 then
                dictSet m k0 (parseFloat (toFixed1 (toDouble ((v0 : ℚ) / (count : ℚ)))))
              else m
            | none => m) key = dictGet m key := by
        cases dictGet counts k0 with
        | none => rfl
        | some count =>
          by_cases hpos : count > 0
          · simp [hpos, dictGet_dictSet, hkey]
          · simp [hpos]
      rw [hhead, hm]

theorem SumsOf_empty : SumsOf { gradeSums := [], reviewCounts := [] } [] := by
  refine ⟨by simp, ?_⟩
  intro key
  simp [gradesOf, dictGet]

/-- A review with a truthy teacher id and a numeric grade puts its grade among
the grades of its key. -/
theorem gradesOf_ne_nil (items : List JsVal) (teacherId : JsVal)
    (htruthy : teacherId.truthy = true)
    (hreview : ∃ r ∈ items, reviewTeacherId r = some teacherId ∧
      ∃ grade, r.get "grade" = JsVal.num grade) :
    gradesOf teacherId.toStr items ≠ [] := by
  obtain ⟨r, hr, hid, grade, hgrade⟩ := hreview
  have hmem : grade ∈ gradesOf teacherId.toStr items := by
    unfold gradesOf
    rw [List.mem_filterMap]
    exact ⟨r, hr, by simp [hid, hgrade, htruthy]⟩
  intro hnil
  rw [hnil] at hmem
  cases hmem

/-- For a list without `null` and `undefined` elements `calculateAverageRatings`
returns the ratings of sums and counts that are those of the list. -/
theorem calculateAverageRatings_arr (items : List JsVal)
    (hitems : ∀ r ∈ items, r ≠ JsVal.null ∧ r ≠ JsVal.undefined) :
    ∃ res, SumsOf res items ∧
      calculateAverageRatings (JsVal.arr items) = some (averageRatings res) := by
  cases items with
  | nil => exact ⟨{ gradeSums := [], reviewCounts := [] }, SumsOf_empty, rfl⟩
  | cons first rest =>
    obtain ⟨res, hres⟩ := foldlM_addReview_isSome (first :: rest) hitems
      { gradeSums := [], reviewCounts := [] }
    have hsums : SumsOf res (first :: rest) := by
      simpa using SumsOf_foldlM (first :: rest) _ res [] SumsOf_empty hres
    refine ⟨res, hsums, ?_⟩
    simp only [calculateAverageRatings, JsVal.truthy, Bool.not_true, Bool.false_eq_true,
      if_false, hres, Option.map_some']

/-- The entry of the ratings map under a key: none when no grade has that key,
else the rating of the mean of the grades of that key. -/
theorem dictGet_averageRatings (res : RatingSums) (items : List JsVal)
    (hsums : SumsOf res items) (key : String) :
    dictGet (averageRatings res) key =
      if gradesOf key items = [] then none
      else some (parseFloat (toFixed1 (toDouble (mean (gradesOf key items))))) := by
  unfold averageRatings
  rw [averageRatings_fold res.reviewCounts res.gradeSums [] hsums.1 key,
    (hsums.2 key).1, (hsums.2 key).2]
  by_cases hnil : gradesOf key items = []
  · simp [hnil, dictGet]
  · have hpos : (gradesOf key items).length > 0 := List.length_pos.mpr hnil
    simp only [hnil, if_false, hpos, if_true, mean]

/-- A key has grades exactly when some review with a truthy teacher id of that
key has a numeric grade. -/
theorem gradesOf_ne_nil_iff (key : String) (items : List JsVal) :
    gradesOf key items ≠ [] ↔
      ∃ r ∈ items, ∃ teacherId grade, reviewTeacherId r = some teacherId ∧
        teacherId.truthy = true ∧ teacherId.toStr = key ∧
        r.get "grade" = JsVal.num grade := by
  constructor
  · intro hne
    obtain ⟨g, hg⟩ := List.exists_mem_of_ne_nil _ hne
    unfold gradesOf at hg
    rw [List.mem_filterMap] at hg
    obtain ⟨r, hr, hf⟩ := hg
    refine ⟨r, hr, ?_⟩
    cases hid : reviewTeacherId r with
    | none => simp [hid] at hf
    | some teacherId =>
      cases hgrade : r.get "grade" <;> simp [hid, hgrade] at hf
      exact ⟨teacherId, _, rfl, hf.1.1, hf.1.2, rfl⟩
  · rintro ⟨r, hr, teacherId, grade, hid, htruthy, hkey, hgrade⟩
    subst hkey
    exact gradesOf_ne_nil items teacherId htruthy ⟨r, hr, hid, grade, hgrade⟩

/-- Rounding to one decimal keeps a number within whole-number bounds. -/
theorem toFixed1_bounds (a b : ℤ) (x : ℚ) (ha : (a : ℚ) ≤ x) (hb : x ≤ (b : ℚ)) :
    (a : ℚ) ≤ toFixed1 x ∧ toFixed1 x ≤ (b : ℚ) := by
  have lower : ∀ (m : ℤ) (y : ℚ), (m : ℚ) ≤ y → m * 10 ≤ ⌊y * 10 + 1 / 2⌋ := by
    intro m y hm
    rw [Int.le_floor]
    push_cast
    linarith
  have upper : ∀ (m : ℤ) (y : ℚ), y ≤ (m : ℚ) → ⌊y * 10 + 1 / 2⌋ ≤ m * 10 := by
    intro m y hm
    have h1 := Int.floor_le (y * 10 + 1 / 2)
    have h2 : ((⌊y * 10 + 1 / 2⌋ : ℤ) : ℚ) < ((m * 10 + 1 : ℤ) : ℚ) := by
      push_cast
      linarith
    have h3 : ⌊y * 10 + 1 / 2⌋ < m * 10 + 1 := by exact_mod_cast h2
    omega
  unfold toFixed1
  split
  · have h1 := upper (-a) (-x) (by push_cast; linarith)
    have h2 := lower (-b) (-x) (by push_cast; linarith)
    have h1q : ((⌊(-x) * 10 + 1 / 2⌋ : ℤ) : ℚ) ≤ ((-a * 10 : ℤ) : ℚ) := by exact_mod_cast h1
    have h2q : ((-b * 10 : ℤ) : ℚ) ≤ ((⌊(-x) * 10 + 1 / 2⌋ : ℤ) : ℚ) := by exact_mod_cast h2
    push_cast at h1q h2q
    constructor <;> linarith
  · have h1 := lower a x ha
    have h2 := upper b x hb
    have h1q : ((a * 10 : ℤ) : ℚ) ≤ ((⌊x * 10 + 1 / 2⌋ : ℤ) : ℚ) := by exact_mod_cast h1
    have h2q : ((⌊x * 10 + 1 / 2⌋ : ℤ) : ℚ) ≤ ((b * 10 : ℤ) : ℚ) := by exact_mod_cast h2
    push_cast at h1q h2q
    constructor <;> linarith

/-- The stored rating of a quotient keeps whole-number bounds of the quotient
that are doubles themselves. -/
theorem rating_bounds (a b : ℤ) (x : ℚ) (hlo : -2 ^ 52 ≤ a) (hhi : b ≤ 2 ^ 52)
    (ha : (a : ℚ) ≤ x) (hb : x ≤ (b : ℚ)) :
    (a : ℚ) ≤ parseFloat (toFixed1 (toDouble x)) ∧
      parseFloat (toFixed1 (toDouble x)) ≤ (b : ℚ) := by
  have hloq : (-2 ^ 52 : ℚ) ≤ (a : ℚ) := by exact_mod_cast hlo
  have hhiq : (b : ℚ) ≤ 2 ^ 52 := by exact_mod_cast hhi
  have hsmall : ∀ y : ℚ, (a : ℚ) ≤ y → y ≤ (b : ℚ) → |y| < 2 ^ 53 := by
    intro y h1 h2
    rw [abs_lt]
    constructor <;> linarith
  have h1 := toDouble_bounds a b x (hsmall x ha hb) ha hb
  have h2 := toFixed1_bounds a b (toDouble x) h1.1 h1.2
  unfold parseFloat
  exact toDouble_bounds a b _ (hsmall _ h2.1 h2.2) h2.1 h2.2

/-- The number 8.5 is a double. -/
theorem toDouble_exact : toDouble (17 / 2) = 17 / 2 := by
  rw [toDouble_eq (17 / 2) 3 (17 * 2 ^ 48) (by norm_num [abs_of_pos]) (by norm_num [abs_of_pos])
    (by norm_num)]
  norm_num

/-- The double quotient of 23 and 20 lies below 1.15, so `toFixed(1)` gives 1.1. -/
theorem toFixed1_toDouble_tie : toFixed1 (toDouble (23 / 20)) = 11 / 10 := by
  rw [toDouble_eq (23 / 20) 0 5179139571476070 (by norm_num [abs_of_pos])
    (by norm_num [abs_of_pos]) (by norm_num [abs_lt])]
  unfold toFixed1
  norm_num [Int.floor_eq_iff]

/-- The double nearest to 1.1. -/
theorem parseFloat_tenth : parseFloat (11 / 10) = 2476979795053773 / 2251799813685248 := by
  unfold parseFloat
  rw [toDouble_eq (11 / 10) 0 4953959590107546 (by norm_num [abs_of_pos])
    (by norm_num [abs_of_pos]) (by norm_num [abs_lt])]
  norm_num

/-- The mean of grades lies between any bounds of the grades. -/
theorem mean_bounds (a b : ℤ) (grades : List Int) (hne : grades ≠ [])
    (hall : ∀ g ∈ grades, a ≤ g ∧ g ≤ b) :
    (a : ℚ) ≤ mean grades ∧ mean grades ≤ (b : ℚ) := by
  have hsum : ∀ l : List Int, (∀ g ∈ l, a ≤ g ∧ g ≤ b) →
      a * (l.length : ℤ) ≤ l.sum ∧ l.sum ≤ b * (l.length : ℤ) := by
    intro l
    induction l with
    | nil => intro _; simp
    | cons g rest ih =>
      intro h
      have hg := h g (List.mem_cons_self g rest)
      have hrest := ih (fun x hx => h x (List.mem_cons_of_mem g hx))
      simp only [List.length_cons, List.sum_cons]
      push_cast
      constructor <;> nlinarith [hg.1, hg.2, hrest.1, hrest.2]
  have hs := hsum grades hall
  have hlen : (0 : ℚ) < (grades.length : ℚ) := by
    exact_mod_cast List.length_pos.mpr hne
  have h1 : (a : ℚ) * (grades.length : ℚ) ≤ (grades.sum : ℚ) := by exact_mod_cast hs.1
  have h2 : (grades.sum : ℚ) ≤ (b : ℚ) * (grades.length : ℚ) := by exact_mod_cast hs.2
  unfold mean
  constructor
  · rw [le_div_iff₀ hlen]
    exact h1
  · rw [div_le_iff₀ hlen]
    exact h2

/-! ## Facts about `arraySort` and the sort keys -/

theorem arraySort_perm {α : Type} (compare : α → α → Int) (items : List α) :
    (arraySort compare items).Perm items :=
  List.perm_insertionSort _ items

/-- With a comparison function that is total and transitive the result is in order. -/
theorem arraySort_pairwise {α : Type} (compare : α → α → Int)
    (htotal : ∀ a b, compare a b ≤ 0 ∨ compare b a ≤ 0)
    (htrans : ∀ a b c, compare a b ≤ 0 → compare b c ≤ 0 → compare a c ≤ 0)
    (items : List α) :
    List.Pairwise (fun a b => compare a b ≤ 0) (arraySort compare items) := by
  haveI : IsTotal α (fun a b => compare a b ≤ 0) := ⟨htotal⟩
  haveI : IsTrans α (fun a b => compare a b ≤ 0) := ⟨htrans⟩
  exact List.sorted_insertionSort (fun a b => compare a b ≤ 0) items

theorem compareResult_le_iff (localeCompare : String → String → Int) (sortField : String)
    (a b : ReviewItem) :
    compareResult localeCompare sortField a b ≤ 0 ↔ keyLe localeCompare sortField a b := by
  unfold compareResult keyLe
  by_cases h1 : sortField = "teacher"
  · simp [h1]
  · by_cases h2 : sortField = "grade"
    · simp [h2]
    · simp [h1, h2]

theorem compareResult_ge_iff (localeCompare : String → String → Int)
    (hcmp : ConsistentComparator localeCompare) (sortField : String) (a b : ReviewItem) :
    0 ≤ compareResult localeCompare sortField a b ↔ keyLe localeCompare sortField b a := by
  unfold compareResult keyLe
  by_cases h1 : sortField = "teacher"
  · simp only [h1, beq_self_eq_true, if_true]
    exact (hcmp.1 _ _).symm
  · by_cases h2 : sortField = "grade"
    · simp [h2]
    · simp [h1, h2]

theorem keyLe_total (localeCompare : String → String → Int)
    (hcmp : ConsistentComparator localeCompare) (sortField : String) (a b : ReviewItem) :
    keyLe localeCompare sortField a b ∨ keyLe localeCompare sortField b a := by
  unfold keyLe
  by_cases h1 : sortField = "teacher"
  · simp only [h1, if_true]
    by_cases h : localeCompare (getTeacherFullName a.teacher) (getTeacherFullName b.teacher) ≤ 0
    · exact Or.inl h
    · exact Or.inr ((hcmp.1 _ _).mpr (le_of_lt (not_le.mp h)))
  · by_cases h2 : sortField = "grade"
    · simp only [h2, if_true]
      split
      · contradiction
      · exact le_total _ _
    · simp only [h1, h2, if_false]
      exact le_total _ _

theorem keyLe_trans (localeCompare : String → String → Int)
    (hcmp : ConsistentComparator localeCompare) (sortField : String) (a b c : ReviewItem)
    (hab : keyLe localeCompare sortField a b) (hbc : keyLe localeCompare sortField b c) :
    keyLe localeCompare sortField a c := by
  unfold keyLe at hab hbc ⊢
  by_cases h1 : sortField = "teacher"
  · simp only [h1, if_true] at hab hbc ⊢
    exact hcmp.2 _ _ _ hab hbc
  · by_cases h2 : sortField = "grade"
    · simp only [h1, h2, if_true, if_false] at hab hbc ⊢
      exact le_trans hab hbc
    · simp only [h1, h2, if_false] at hab hbc ⊢
      exact le_trans hab hbc

/-- The filter of the effect is the filter of the selection. -/
theorem filter_eq_passesFilters (mode : String)
    (selectedAuthorId selectedTeacherId selectedSubjectId : Option Int)
    (allReviews : List ReviewItem) :
    (if mode == "all" then
      allReviews.filter (fun review =>
        let authorMatch := !idTruthy selectedAuthorId || review.authorId == selectedAuthorId
        let teacherMatch := !idTruthy selectedTeacherId ||
          review.teacher.bind (fun t => t.id) == selectedTeacherId
        let subjectMatch := !idTruthy selectedSubjectId ||
          review.subjectId == selectedSubjectId
        authorMatch && teacherMatch && subjectMatch)
    else allReviews) =
    allReviews.filter (passesFilters mode selectedAuthorId selectedTeacherId
      selectedSubjectId) := by
  have hmatch : ∀ selected actual : Option Int,
      (!idTruthy selected || actual == selected) = filterMatches selected actual := by
    intro selected actual
    cases selected with
    | none => simp [idTruthy, filterMatches]
    | some n =>
      by_cases hn : n = 0
      · simp [idTruthy, filterMatches, hn]
      · simp [idTruthy, filterMatches, hn]
  by_cases hmode : mode = "all"
  · simp only [hmode, beq_self_eq_true, if_true]
    congr 1
    funext review
    simp only [passesFilters, if_true, hmatch]
  · have hb : (mode == "all") = false := by simpa using hmode
    simp only [hb, Bool.false_eq_true, if_false]
    have hall : passesFilters mode selectedAuthorId selectedTeacherId selectedSubjectId
        = fun _ => true := by
      funext review
      simp [passesFilters, hmode]
    rw [hall]
    simp

/-! ## Facts about `nameRegex` -/

theorem charClass_rmatch_iff (chars : List Char) (x : List Char) :
    (charClass chars).rmatch x = true ↔ ∃ c ∈ chars, x = [c] := by
  induction chars with
  | nil => simp [charClass]
  | cons c cs ih =>
    have h : charClass (c :: cs) = RegularExpression.char c + charClass cs := rfl
    rw [h, RegularExpression.add_rmatch_iff, RegularExpression.char_rmatch_iff, ih]
    simp

/-- What `[...]+` matches: a string that is not empty, of characters of the class. -/
theorem oneOrMore_charClass_rmatch (chars : List Char) (x : List Char)
    (h : (oneOrMore (charClass chars)).rmatch x = true) :
    x ≠ [] ∧ ∀ c ∈ x, c ∈ chars := by
  unfold oneOrMore at h
  rw [RegularExpression.mul_rmatch_iff] at h
  obtain ⟨t, u, hx, ht, hu⟩ := h
  rw [charClass_rmatch_iff] at ht
  obtain ⟨c, hc, rfl⟩ := ht
  rw [RegularExpression.star_rmatch_iff] at hu
  obtain ⟨S, hS, hall⟩ := hu
  subst hx
  refine ⟨by simp, ?_⟩
  intro d hd
  simp only [List.singleton_append, List.mem_cons] at hd
  rcases hd with rfl | hd
  · exact hc
  · rw [hS, List.mem_flatten] at hd
    obtain ⟨piece, hpiece, hd2⟩ := hd
    have hmatch := (hall piece hpiece).2
    rw [charClass_rmatch_iff] at hmatch
    obtain ⟨c2, hc2, rfl⟩ := hmatch
    simp only [List.mem_singleton] at hd2
    subst hd2
    exact hc2

/-- What one part of the pattern matches: an uppercase character followed by
at least one lowercase character. -/
theorem namePart_rmatch (x : List Char) (h : namePart.rmatch x = true) :
    ∃ u ls, x = u :: ls ∧ u ∈ upperChars ∧ ls ≠ [] ∧ ∀ c ∈ ls, c ∈ lowerChars := by
  unfold namePart at h
  rw [RegularExpression.mul_rmatch_iff] at h
  obtain ⟨t, rest, hx, ht, hrest⟩ := h
  rw [charClass_rmatch_iff] at ht
  obtain ⟨u, hu, rfl⟩ := ht
  have hl := oneOrMore_charClass_rmatch lowerChars rest hrest
  exact ⟨u, rest, by simpa using hx, hu, hl.1, hl.2⟩

/-- What the pattern matches: one part, or two parts joined by a hyphen. -/
theorem nameRegex_shape (x : List Char) (h : nameRegex.rmatch x = true) :
    ∃ u ls tail, x = u :: ls ++ tail ∧ u ∈ upperChars ∧ ls ≠ [] ∧
      (∀ c ∈ ls, c ∈ lowerChars) ∧
      (tail = [] ∨ ∃ u2 ls2, tail = '-' :: u2 :: ls2 ∧ u2 ∈ upperChars ∧ ls2 ≠ [] ∧
        ∀ c ∈ ls2, c ∈ lowerChars) := by
  unfold nameRegex optional at h
  rw [RegularExpression.mul_rmatch_iff] at h
  obtain ⟨first, tail, hx, hfirst, htail⟩ := h
  obtain ⟨u, ls, rfl, hu, hne, hls⟩ := namePart_rmatch first hfirst
  refine ⟨u, ls, tail, hx, hu, hne, hls, ?_⟩
  rw [RegularExpression.add_rmatch_iff] at htail
  rcases htail with htail | htail
  · rw [RegularExpression.mul_rmatch_iff] at htail
    obtain ⟨hy, second, htl, hhy, hsecond⟩ := htail
    rw [RegularExpression.char_rmatch_iff] at hhy
    subst hhy
    obtain ⟨u2, ls2, rfl, hu2, hne2, hls2⟩ := namePart_rmatch second hsecond
    exact Or.inr ⟨u2, ls2, by simpa using htl, hu2, hne2, hls2⟩
  · rw [RegularExpression.one_rmatch_iff] at htail
    exact Or.inl htail

/-- The characters of the first class are uppercase letters; none is a hyphen,
a blank or a digit. -/
theorem upperChars_letters : ∀ c ∈ upperChars,
    (('А' ≤ c ∧ c ≤ 'Я') ∨ c = 'Ё' ∨ ('A' ≤ c ∧ c ≤ 'Z')) ∧
      c ≠ '-' ∧ c ≠ ' ' ∧ c.isDigit = false := by
  decide

/-- The characters of the second class are lowercase letters; none is a hyphen,
a blank or a digit. -/
theorem lowerChars_letters : ∀ c ∈ lowerChars,
    (('а' ≤ c ∧ c ≤ 'я') ∨ c = 'ё' ∨ ('a' ≤ c ∧ c ≤ 'z')) ∧
      c ≠ '-' ∧ c ≠ ' ' ∧ c.isDigit = false := by
  decide

/-- The properties of a string the pattern matches, in terms of the two classes. -/
theorem nameRegex_accepts (x : List Char) (h : nameRegex.rmatch x = true) :
    (∃ first rest, x = first :: rest ∧ first ∈ upperChars) ∧
    (∀ c ∈ x, (c ∈ upperChars ∨ c ∈ lowerChars) ∨ c = '-') ∧
    x.count '-' ≤ 1 ∧
    x.getLast? ≠ some '-' := by
  obtain ⟨u, ls, tail, hx, hu, hne, hls, htail⟩ := nameRegex_shape x h
  have hcount : ∀ l : List Char, (∀ c ∈ l, c ∈ lowerChars) → l.count '-' = 0 := by
    intro l hl
    rw [List.count_eq_zero]
    intro hmem
    exact (lowerChars_letters _ (hl _ hmem)).2.1 rfl
  have hlast : ∀ (pre l : List Char), l ≠ [] → (∀ c ∈ l, c ∈ lowerChars) →
      (pre ++ l).getLast? ≠ some '-' := by
    intro pre l hl hall hcon
    rw [List.getLast?_append_of_ne_nil pre hl] at hcon
    exact (lowerChars_letters _ (hall _ (List.mem_of_getLast?_eq_some hcon))).2.1 rfl
  have hu0 : ('-' : Char) ≠ u := fun hh => (upperChars_letters u hu).2.1 hh.symm
  rcases htail with rfl | ⟨u2, ls2, rfl, hu2, hne2, hls2⟩
  · subst hx
    refine ⟨⟨u, ls ++ [], by simp, hu⟩, ?_, ?_, ?_⟩
    · intro c hc
      simp only [List.append_nil, List.mem_cons] at hc
      rcases hc with rfl | hc
      · exact Or.inl (Or.inl hu)
      · exact Or.inl (Or.inr (hls c hc))
    · simp only [List.append_nil, List.count_cons, hcount ls hls]
      simp [hu0.symm]
    · simpa using hlast [u] ls hne hls
  · subst hx
    have hu20 : ('-' : Char) ≠ u2 := fun hh => (upperChars_letters u2 hu2).2.1 hh.symm
    refine ⟨⟨u, ls ++ '-' :: u2 :: ls2, by simp, hu⟩, ?_, ?_, ?_⟩
    · intro c hc
      simp only [List.mem_cons, List.mem_append] at hc
      rcases hc with (rfl | hc) | rfl | rfl | hc
      · exact Or.inl (Or.inl hu)
      · exact Or.inl (Or.inr (hls c hc))
      · exact Or.inr rfl
      · exact Or.inl (Or.inl hu2)
      · exact Or.inl (Or.inr (hls2 c hc))
    · simp only [List.count_cons, List.count_append, hcount ls hls, hcount ls2 hls2]
      simp [hu0.symm, hu20.symm]
    · have h := hlast (u :: ls ++ ['-', u2]) ls2 hne2 hls2
      simpa using h

/-! ## The claims -/

/-- C1: after a successful submission, a run of successful poll responses for
the tracked job whose statuses are all non-terminal except the last keeps the
recurring schedule (the ref holds the handle of the interval timer, which is
still pending, and `logLoading` is true) after every non-terminal response; the
terminal response clears the ref, removes the timer and sets `logLoading` to
false. -/
theorem schedule_stops_at_terminal_response
    (s0 : Poller) (date : Dayjs) (hdate : s0.logDate = some date)
    (start : StartData) (taskId : String) (hstart : start.taskId = some taskId)
    (hid : taskId ≠ "")
    (responses : List StatusData) (hnon : ∀ r ∈ responses, terminal r.status = false)
    (last : StatusData) (hlast : terminal last.status = true) :
    (∀ k, k ≤ responses.length →
      (pollResponses taskId (responses.take k)
          (handleStartGeneration (StartOutcome.ok start) s0)).pollingIntervalRef
        = some (Nat.succPNat (s0.lastHandle + 1)) ∧
      scheduleActive taskId (pollResponses taskId (responses.take k)
          (handleStartGeneration (StartOutcome.ok start) s0)) ∧
      (pollResponses taskId (responses.take k)
          (handleStartGeneration (StartOutcome.ok start) s0)).logLoading = true) ∧
    (pollResponses taskId (responses ++ [last])
        (handleStartGeneration (StartOutcome.ok start) s0)).pollingIntervalRef = none ∧
    (pollResponses taskId (responses ++ [last])
        (handleStartGeneration (StartOutcome.ok start) s0)).logLoading = false ∧
    (∀ t ∈ (pollResponses taskId (responses ++ [last])
        (handleStartGeneration (StartOutcome.ok start) s0)).timers,
      t.handle ≠ Nat.succPNat (s0.lastHandle + 1)) := by
  have hs1 := handleStartGeneration_ok s0 date hdate start taskId hstart hid
  refine ⟨?_, ?_⟩
  · intro k _
    have hk := pollResponses_nonterminal taskId (responses.take k)
      (fun r hr => hnon r (List.mem_of_mem_take hr))
      (handleStartGeneration (StartOutcome.ok start) s0)
    refine ⟨?_, ?_, ?_⟩
    · rw [hk.1, hs1]
    · refine ⟨Nat.succPNat (s0.lastHandle + 1), ?_, ?_⟩
      · rw [hk.1, hs1]
      · rw [hk.2.1, hs1]
        simp
    · rw [hk.2.2, hs1]
  · have hall := pollResponses_nonterminal taskId responses hnon
      (handleStartGeneration (StartOutcome.ok start) s0)
    have happ : pollResponses taskId (responses ++ [last])
        (handleStartGeneration (StartOutcome.ok start) s0) =
        pollStatus taskId (PollOutcome.ok last)
          (pollResponses taskId responses (handleStartGeneration (StartOutcome.ok start) s0)) := by
      simp [pollResponses, List.foldl_append]
    have hterm := pollStatus_ok_terminal taskId last
      (pollResponses taskId responses (handleStartGeneration (StartOutcome.ok start) s0))
      hid hlast
    rw [happ]
    refine ⟨hterm.1, hterm.2.1, ?_⟩
    intro t ht hEq
    rw [hterm.2.2, stopPolling_timers_of_ref _ (Nat.succPNat (s0.lastHandle + 1))
      (by rw [hall.1, hs1])] at ht
    simp [clearInterval, List.mem_filter, hEq] at ht

/-- Witness of C1: submission of 2024-01-01 answered with T1, then RUNNING, then COMPLETED. -/
theorem schedule_stops_at_terminal_response_witness :
    (pollResponses "T1" [Sample.running] Sample.submittedT1).pollingIntervalRef = some 2 ∧
    (pollResponses "T1" [Sample.running] Sample.submittedT1).logLoading = true ∧
    (pollResponses "T1" ([Sample.running] ++ [Sample.completed])
      Sample.submittedT1).pollingIntervalRef = none ∧
    (pollResponses "T1" ([Sample.running] ++ [Sample.completed])
      Sample.submittedT1).logLoading = false := by
  have h := schedule_stops_at_terminal_response Sample.idle Sample.date rfl Sample.startT1 "T1"
    rfl (by decide) [Sample.running]
    (by intro r hr; rw [List.mem_singleton] at hr; subst hr; rfl)
    Sample.completed rfl
  exact ⟨(h.1 1 (le_refl 1)).1, (h.1 1 (le_refl 1)).2.2, h.2.1, h.2.2.1⟩

/-- C2: a successful status response handled by `pollStatus` for a task id
that is not the id of the tracked job, or while no job is tracked, leaves
`logTask` as it was. -/
theorem stale_response_keeps_logTask (s : Poller) (taskId : String) (data : StatusData)
    (h : ∀ job, s.logTask = some job → job.id ≠ taskId) :
    (pollStatus taskId (PollOutcome.ok data) s).logTask = s.logTask := by
  have key : (match s.logTask with
      | none => none
      | some prev =>
        if prev.id = taskId then
          some { prev with status := data.status, errorMessage := data.errorMessage,
                           downloadUrl := data.downloadUrl }
        else some prev) = s.logTask := by
    cases hj : s.logTask with
    | none => rfl
    | some job => simp [h job hj]
  unfold pollStatus
  by_cases ht : taskId = ""
  · simp [ht]
  · simp only [beq_iff_eq, ht, if_false]
    split
    · split <;> split <;> simp [(stopPolling_frame _).1, key]
    · simp [key]

/-- Witness of C2: while T2 is tracked, a COMPLETED response for T1 leaves `logTask` alone;
so does any response while nothing is tracked. -/
theorem stale_response_keeps_logTask_witness :
    (pollStatus "T1" (PollOutcome.ok Sample.completed) Sample.trackingT2).logTask
      = Sample.trackingT2.logTask ∧
    (pollStatus "T1" (PollOutcome.ok Sample.completed) Sample.idle).logTask
      = Sample.idle.logTask :=
  ⟨stale_response_keeps_logTask Sample.trackingT2 "T1" Sample.completed
      (by intro job hj; cases hj; decide),
   stale_response_keeps_logTask Sample.idle "T1" Sample.completed
      (by intro job hj; cases hj)⟩

/-- C3, the code at the failing input: job T2 is tracked (second submission,
the first status request for T1 still unanswered); when that request for T1
fails, `pollStatus` replaces `logTask` by `null`, so job T2 is no longer
tracked. -/
theorem stale_failure_drops_tracked_job :
    Sample.trackingT2.logTask = some
      { id := "T2", status := JsVal.str "PENDING", date := "2024-01-01",
        downloadUrl := JsVal.null, errorMessage := JsVal.null } ∧
    (pollStatus "T1" (PollOutcome.error Sample.networkError) Sample.trackingT2).logTask
      = none :=
  ⟨rfl, rfl⟩

/-- C4, the code at the failing input: job T2 is tracked with its interval
timer (handle 4) pending and `logLoading` true; a COMPLETED response for the
superseded task T1 clears the ref, removes the timer of T2 and sets
`logLoading` to false, and a failed request for T1 does the same and also
writes `logError`. -/
theorem stale_outcome_stops_schedule :
    (Sample.trackingT2.pollingIntervalRef = some 4 ∧
      Sample.trackingT2.timers = [Timer.mk 3 "T2" false, Timer.mk 4 "T2" true] ∧
      Sample.trackingT2.logLoading = true ∧ Sample.trackingT2.logError = JsVal.null) ∧
    ((pollStatus "T1" (PollOutcome.ok Sample.completed)
        Sample.trackingT2).pollingIntervalRef = none ∧
      (pollStatus "T1" (PollOutcome.ok Sample.completed) Sample.trackingT2).timers
        = [Timer.mk 3 "T2" false] ∧
      (pollStatus "T1" (PollOutcome.ok Sample.completed)
        Sample.trackingT2).logLoading = false) ∧
    ((pollStatus "T1" (PollOutcome.error Sample.networkError)
        Sample.trackingT2).pollingIntervalRef = none ∧
      (pollStatus "T1" (PollOutcome.error Sample.networkError) Sample.trackingT2).timers
        = [Timer.mk 3 "T2" false] ∧
      (pollStatus "T1" (PollOutcome.error Sample.networkError)
        Sample.trackingT2).logLoading = false ∧
      (pollStatus "T1" (PollOutcome.error Sample.networkError) Sample.trackingT2).logError
        = JsVal.str ("Не удалось подключиться к серверу. Проверьте бэкенд и сеть." ++
            ". Проверка остановлена.")) :=
  ⟨⟨rfl, rfl, rfl, rfl⟩, ⟨rfl, rfl, rfl⟩, ⟨rfl, rfl, rfl, rfl⟩⟩

/-- C5: `stopPolling` is idempotent, is the identity when the ref is `null`,
always leaves the ref `null`, and changes none of `logTask`, `logLoading`,
`logError` (nor the date, the notifications or the handle counter). -/
theorem stopPolling_idempotent (s : Poller) :
    stopPolling (stopPolling s) = stopPolling s ∧
    (s.pollingIntervalRef = none → stopPolling s = s) ∧
    (stopPolling s).pollingIntervalRef = none ∧
    (stopPolling s).logTask = s.logTask ∧
    (stopPolling s).logLoading = s.logLoading ∧
    (stopPolling s).logError = s.logError ∧
    (stopPolling s).logDate = s.logDate ∧
    (stopPolling s).messages = s.messages ∧
    (stopPolling s).lastHandle = s.lastHandle := by
  have hf := stopPolling_frame s
  exact ⟨stopPolling_of_ref_none _ (stopPolling_ref s), stopPolling_of_ref_none s,
    stopPolling_ref s, hf.1, hf.2.1, hf.2.2.1, hf.2.2.2.1, hf.2.2.2.2.1, hf.2.2.2.2.2⟩

/-- C6: from the idle state with 2024-01-01 picked, a submission answered with
task id T1 and status PENDING, the one-shot timer firing (a status request for
T1 is sent) and answered RUNNING, the interval timer firing (a status request
for T1 is sent) and answered COMPLETED with download link "/x": the job is then
T1 of 2024-01-01, COMPLETED with link "/x", the ref is `null`, no timer is
pending, `logLoading` is false and `logError` is `null`. -/
theorem scenario_submit_running_completed :
    (fireTimer 1 Sample.submittedT1).2 = some "T1" ∧
    (fireTimer 2 (pollStatus "T1" (PollOutcome.ok Sample.running)
      (fireTimer 1 Sample.submittedT1).1)).2 = some "T1" ∧
    pollStatus "T1" (PollOutcome.ok Sample.completed)
      (fireTimer 2 (pollStatus "T1" (PollOutcome.ok Sample.running)
        (fireTimer 1 Sample.submittedT1).1)).1 =
      { logDate := some Sample.date,
        logTask := some
          { id := "T1", status := JsVal.str "COMPLETED", date := "2024-01-01",
            downloadUrl := JsVal.str "/x", errorMessage := JsVal.undefined },
        logLoading := false,
        logError := JsVal.null,
        pollingIntervalRef := none,
        timers := [],
        lastHandle := 2,
        messages := [Message.mk MessageKind.success
          (JsVal.str "Задача генерации лога T1 запущена.")] } :=
  ⟨rfl, rfl, rfl⟩

/-- C7: in a state that tracks job J, a failed status request for J, whose
error `handleApiError` turns into the message `m`, makes the job FAILED with
its other fields unchanged, clears the ref (removing the pending interval
timer), sets `logLoading` to false, sets `logError` to `m` followed by
". Проверка остановлена." and sends no notification.  In particular, after a
submission from a freshly mounted component whose first status request (sent
by the one-shot timer) fails with a transport error (an error without
response), the job is FAILED, the ref is `null`, `logLoading` is false, no
timer is pending and so no timer can send a further status request. -/
theorem poll_failure_forces_failed (s : Poller) (job : LogTask) (e : ApiError) (m : JsVal)
    (sent : List Message) (hjob : s.logTask = some job) (hid : job.id ≠ "")
    (herr : handleApiError e false "Ошибка при проверке статуса задачи" = some (m, sent)) :
    ((pollStatus job.id (PollOutcome.error e) s).logTask
        = some { job with status := JsVal.str "FAILED" } ∧
      (pollStatus job.id (PollOutcome.error e) s).pollingIntervalRef = none ∧
      (pollStatus job.id (PollOutcome.error e) s).timers = (stopPolling s).timers ∧
      (pollStatus job.id (PollOutcome.error e) s).logLoading = false ∧
      (pollStatus job.id (PollOutcome.error e) s).logError
        = JsVal.str (m.toStr ++ ". Проверка остановлена.") ∧
      (pollStatus job.id (PollOutcome.error e) s).messages = s.messages) ∧
    (∀ (date : Dayjs) (start : StartData) (taskId : String) (transport : ApiError),
      start.taskId = some taskId → taskId ≠ "" → transport.response = none →
      (fireTimer 1 (handleStartGeneration (StartOutcome.ok start)
        (setLogDate date Poller.initial))).2 = some taskId ∧
      (pollStatus taskId (PollOutcome.error transport)
        (fireTimer 1 (handleStartGeneration (StartOutcome.ok start)
          (setLogDate date Poller.initial))).1).logTask
        = some { id := taskId, status := JsVal.str "FAILED", date := date.format,
                 downloadUrl := JsVal.null, errorMessage := JsVal.null } ∧
      (pollStatus taskId (PollOutcome.error transport)
        (fireTimer 1 (handleStartGeneration (StartOutcome.ok start)
          (setLogDate date Poller.initial))).1).pollingIntervalRef = none ∧
      (pollStatus taskId (PollOutcome.error transport)
        (fireTimer 1 (handleStartGeneration (StartOutcome.ok start)
          (setLogDate date Poller.initial))).1).logLoading = false ∧
      (pollStatus taskId (PollOutcome.error transport)
        (fireTimer 1 (handleStartGeneration (StartOutcome.ok start)
          (setLogDate date Poller.initial))).1).timers = [] ∧
      (∀ handle, (fireTimer handle (pollStatus taskId (PollOutcome.error transport)
        (fireTimer 1 (handleStartGeneration (StartOutcome.ok start)
          (setLogDate date Poller.initial))).1)).2 = none)) := by
  refine ⟨?_, ?_⟩
  · rw [pollStatus_error job.id e m sent s hid herr]
    simp [hjob, LogGenerationStatus]
  · intro date start taskId transport hstart htask htransport
    have hs1 := handleStartGeneration_ok (setLogDate date Poller.initial) date rfl start taskId
      hstart htask
    have h01 : Nat.succPNat 0 = 1 := rfl
    have h12 : Nat.succPNat 1 = 2 := rfl
    have h21 : ((2 : ℕ+) == 1) = false := by decide
    have h21n : ((2 : ℕ+) != 1) = true := by decide
    have hfire : fireTimer 1 (handleStartGeneration (StartOutcome.ok start)
        (setLogDate date Poller.initial)) =
        ({ logDate := some date,
           logTask := some
             { id := taskId, status := start.status.or (JsVal.str LogGenerationStatus.PENDING),
               date := date.format, downloadUrl := JsVal.null, errorMessage := JsVal.null },
           logLoading := true,
           logError := JsVal.null,
           pollingIntervalRef := some 2,
           timers := [Timer.mk 2 taskId true],
           lastHandle := 2,
           messages := [Message.mk MessageKind.success
             (JsVal.str ("Задача генерации лога " ++ taskId ++ " запущена."))] },
         some taskId) := by
      rw [hs1]
      simp [fireTimer, stopPolling, setLogDate, Poller.initial, htask, h01, h12,
        h21, h21n, List.filter]
    have hfinal := pollStatus_error taskId transport _ _
      (fireTimer 1 (handleStartGeneration (StartOutcome.ok start)
        (setLogDate date Poller.initial))).1 htask
      (handleApiError_of_no_response transport false _ htransport)
    rw [hfire] at hfinal
    simp only [] at hfinal
    have htimers : (pollStatus taskId (PollOutcome.error transport)
        (fireTimer 1 (handleStartGeneration (StartOutcome.ok start)
          (setLogDate date Poller.initial))).1).timers = [] := by
      rw [hfire, hfinal]
      simp [stopPolling, clearInterval, List.filter]
    refine ⟨by rw [hfire], ?_, ?_, ?_, htimers, ?_⟩
    · rw [hfire, hfinal]
      simp [LogGenerationStatus]
    · simp only [hfire, hfinal]
    · simp only [hfire, hfinal]
    · intro handle
      exact fireTimer_of_no_timers _ handle htimers

/-- Witness of C7: job T1, just submitted, and a status request that got no response. -/
theorem poll_failure_forces_failed_witness :
    (pollStatus "T1" (PollOutcome.error Sample.networkError) Sample.submittedT1).logTask
      = some { id := "T1", status := JsVal.str "FAILED", date := "2024-01-01",
               downloadUrl := JsVal.null, errorMessage := JsVal.null } ∧
    (pollStatus "T1" (PollOutcome.error Sample.networkError)
      Sample.submittedT1).pollingIntervalRef = none ∧
    (pollStatus "T1" (PollOutcome.error Sample.networkError) Sample.submittedT1).logError
      = JsVal.str ("Не удалось подключиться к серверу. Проверьте бэкенд и сеть." ++
          ". Проверка остановлена.") :=
  have h := poll_failure_forces_failed Sample.submittedT1
    { id := "T1", status := JsVal.str "PENDING", date := "2024-01-01",
      downloadUrl := JsVal.null, errorMessage := JsVal.null }
    Sample.networkError
    (JsVal.str "Не удалось подключиться к серверу. Проверьте бэкенд и сеть.") []
    rfl (by decide) rfl
  ⟨h.1.1, h.1.2.1, h.1.2.2.2.2.1⟩

/-- C8: when a date is picked and the start request is rejected, or answered
without a task id, `handleStartGeneration` (its `catch` block receiving the
error `e`, which `handleApiError` turns into the message `m`) leaves `logTask`
and the ref `null`, registers no timer (the pending timers are those left by
its initial `stopPolling`, and no handle was handed out), sets `logLoading` to
false and `logError` to `m`, and shows `m` as an error notification. -/
theorem failed_submission_starts_nothing (s : Poller) (date : Dayjs) (outcome : StartOutcome)
    (e : ApiError) (m : JsVal) (sent : List Message)
    (hdate : s.logDate = some date) (hthrown : outcome.thrown = some e)
    (herr : handleApiError e true "Не удалось запустить генерацию лога" = some (m, sent)) :
    (handleStartGeneration outcome s).logTask = none ∧
    (handleStartGeneration outcome s).pollingIntervalRef = none ∧
    (handleStartGeneration outcome s).timers = (stopPolling s).timers ∧
    (∀ t ∈ (handleStartGeneration outcome s).timers, t ∈ s.timers) ∧
    (handleStartGeneration outcome s).lastHandle = s.lastHandle ∧
    (handleStartGeneration outcome s).logLoading = false ∧
    (handleStartGeneration outcome s).logError = m ∧
    (handleStartGeneration outcome s).messages
      = s.messages ++ [Message.mk MessageKind.error m] := by
  have hsent : sent = [Message.mk MessageKind.error m] := by
    simpa using handleApiError_sent e true _ m sent herr
  have hf := stopPolling_frame s
  have hres : handleStartGeneration outcome s =
      { logDate := (stopPolling s).logDate,
        logTask := none,
        logLoading := false,
        logError := m,
        pollingIntervalRef := (stopPolling s).pollingIntervalRef,
        timers := (stopPolling s).timers,
        lastHandle := (stopPolling s).lastHandle,
        messages := (stopPolling s).messages ++ [Message.mk MessageKind.error m] } := by
    rw [handleStartGeneration_thrown s date hdate outcome e hthrown]
    simp only [handleStartGenerationCatch, herr, hsent]
  rw [hres]
  refine ⟨rfl, stopPolling_ref s, rfl, ?_, hf.2.2.2.2.2, rfl, rfl, ?_⟩
  swap
  · show (stopPolling s).messages ++ _ = _
    rw [hf.2.2.2.2.1]
  intro t ht
  replace ht : t ∈ (stopPolling s).timers := ht
  simp only [stopPolling] at ht
  cases href : s.pollingIntervalRef with
  | none => simpa [href] using ht
  | some handle =>
    simp only [href, clearInterval, List.mem_filter] at ht
    exact ht.1

/-- Witness of C8: a rejected start request (no response), and a response without task id. -/
theorem failed_submission_starts_nothing_witness :
    ((handleStartGeneration (StartOutcome.error Sample.networkError) Sample.idle).logTask = none ∧
      (handleStartGeneration (StartOutcome.error Sample.networkError) Sample.idle).timers = [] ∧
      (handleStartGeneration (StartOutcome.error Sample.networkError) Sample.idle).logError
        = JsVal.str "Не удалось подключиться к серверу. Проверьте бэкенд и сеть.") ∧
    ((handleStartGeneration (StartOutcome.ok Sample.startNoId) Sample.trackingT2).logTask = none ∧
      (handleStartGeneration (StartOutcome.ok Sample.startNoId) Sample.trackingT2).pollingIntervalRef = none ∧
      (handleStartGeneration (StartOutcome.ok Sample.startNoId) Sample.trackingT2).logError
        = JsVal.str ("Ошибка при настройке запроса: " ++
            "Не удалось получить ID задачи от сервера.")) :=
  have h1 := failed_submission_starts_nothing Sample.idle Sample.date
    (StartOutcome.error Sample.networkError) Sample.networkError
    (JsVal.str "Не удалось подключиться к серверу. Проверьте бэкенд и сеть.")
    [Message.mk MessageKind.error
      (JsVal.str "Не удалось подключиться к серверу. Проверьте бэкенд и сеть.")]
    rfl rfl rfl
  have h2 := failed_submission_starts_nothing Sample.trackingT2 Sample.date
    (StartOutcome.ok Sample.startNoId) noTaskIdError
    (JsVal.str ("Ошибка при настройке запроса: " ++ "Не удалось получить ID задачи от сервера."))
    [Message.mk MessageKind.error (JsVal.str
      ("Ошибка при настройке запроса: " ++ "Не удалось получить ID задачи от сервера."))]
    rfl rfl rfl
  ⟨⟨h1.1, h1.2.2.1, h1.2.2.2.2.2.2.1⟩, ⟨h2.1, h2.2.1, h2.2.2.2.2.2.2.1⟩⟩

/-- C9 as stated fails: a start response with task id T1 whose status field is
RUNNING makes `handleStartGeneration` track job T1 with status RUNNING, not
PENDING. -/
theorem submission_status_not_always_pending :
    (handleStartGeneration (StartOutcome.ok Sample.startRunning) Sample.idle).logTask = some
      { id := "T1", status := JsVal.str "RUNNING", date := "2024-01-01",
        downloadUrl := JsVal.null, errorMessage := JsVal.null } ∧
    ¬ ∃ job, (handleStartGeneration (StartOutcome.ok Sample.startRunning)
        Sample.idle).logTask = some job ∧ job.id = "T1" ∧ job.status = JsVal.str "PENDING" := by
  have h : (handleStartGeneration (StartOutcome.ok Sample.startRunning) Sample.idle).logTask
      = some { id := "T1", status := JsVal.str "RUNNING", date := "2024-01-01",
               downloadUrl := JsVal.null, errorMessage := JsVal.null } := rfl
  refine ⟨h, ?_⟩
  rintro ⟨job, hjob, -, hstatus⟩
  rw [h] at hjob
  cases hjob
  simp at hstatus

/-- C9, amended: for a successful submission response (a task id that is not
empty, any status field), the job `handleStartGeneration` starts tracking has
the returned task id, the formatted date, no download link and no error
message, and its status is the status field of the response when that field is
truthy, and PENDING when it is not (absent, `null`, empty). -/
theorem submission_tracks_returned_id (s : Poller) (date : Dayjs) (data : StartData)
    (taskId : String) (hdate : s.logDate = some date) (hid : data.taskId = some taskId)
    (hne : taskId ≠ "") :
    (handleStartGeneration (StartOutcome.ok data) s).logTask = some
      { id := taskId,
        status := if data.status.truthy then data.status else JsVal.str "PENDING",
        date := date.format, downloadUrl := JsVal.null, errorMessage := JsVal.null } := by
  rw [handleStartGeneration_ok s date hdate data taskId hid hne]
  rfl

/-- Witness of C9 (amended): a response without status field gives PENDING. -/
theorem submission_tracks_returned_id_witness :
    (handleStartGeneration (StartOutcome.ok
        { taskId := some "T1", status := JsVal.undefined, statusUrl := JsVal.undefined })
      Sample.idle).logTask = some
      { id := "T1", status := JsVal.str "PENDING", date := "2024-01-01",
        downloadUrl := JsVal.null, errorMessage := JsVal.null } :=
  submission_tracks_returned_id Sample.idle Sample.date
    { taskId := some "T1", status := JsVal.undefined, statusUrl := JsVal.undefined }
    "T1" rfl rfl (by decide)

/-- C10 as stated fails: job T1 is COMPLETED (the answer to the interval
timer's request) while the one-shot timer's request is still unanswered; when
that one is answered RUNNING, the status of the tracked job goes from
COMPLETED back to RUNNING and its download link is lost. -/
theorem late_response_reopens_completed_job :
    Sample.finishedT1.logTask = some
      { id := "T1", status := JsVal.str "COMPLETED", date := "2024-01-01",
        downloadUrl := JsVal.str "/x", errorMessage := JsVal.undefined } ∧
    (pollStatus "T1" (PollOutcome.ok Sample.running) Sample.finishedT1).logTask = some
      { id := "T1", status := JsVal.str "RUNNING", date := "2024-01-01",
        downloadUrl := JsVal.undefined, errorMessage := JsVal.undefined } ∧
    ¬ ((pollStatus "T1" (PollOutcome.ok Sample.running) Sample.finishedT1).logTask.map
        (fun job => job.status) = Sample.finishedT1.logTask.map (fun job => job.status)) := by
  have h1 : Sample.finishedT1.logTask = some
      { id := "T1", status := JsVal.str "COMPLETED", date := "2024-01-01",
        downloadUrl := JsVal.str "/x", errorMessage := JsVal.undefined } := rfl
  have h2 : (pollStatus "T1" (PollOutcome.ok Sample.running) Sample.finishedT1).logTask = some
      { id := "T1", status := JsVal.str "RUNNING", date := "2024-01-01",
        downloadUrl := JsVal.undefined, errorMessage := JsVal.undefined } := rfl
  refine ⟨h1, h2, ?_⟩
  rw [h1, h2]
  simp

/-- C10, amended: a poll outcome for the id of the tracked job sets the job's
status without looking at its previous status: a successful response replaces
status, error message and download link by those of the response, and a failed
request (whose error `handleApiError` turns into a message) sets the status to
FAILED and keeps the other fields; a successful response for another id leaves
the job as it is. -/
theorem poll_outcome_overwrites_status (s : Poller) (job : LogTask) (data : StatusData)
    (hjob : s.logTask = some job) (hid : job.id ≠ "") :
    (pollStatus job.id (PollOutcome.ok data) s).logTask = some
      { id := job.id, status := data.status, date := job.date,
        downloadUrl := data.downloadUrl, errorMessage := data.errorMessage } ∧
    (∀ (e : ApiError) (m : JsVal) (sent : List Message),
      handleApiError e false "Ошибка при проверке статуса задачи" = some (m, sent) →
      (pollStatus job.id (PollOutcome.error e) s).logTask = some
        { id := job.id, status := JsVal.str "FAILED", date := job.date,
          downloadUrl := job.downloadUrl, errorMessage := job.errorMessage }) ∧
    (∀ taskId, taskId ≠ job.id →
      (pollStatus taskId (PollOutcome.ok data) s).logTask = some job) := by
  refine ⟨?_, ?_, ?_⟩
  · rw [pollStatus_ok_logTask job.id data s hid]
    simp [hjob]
  · intro e m sent herr
    rw [pollStatus_error job.id e m sent s hid herr]
    simp [hjob, LogGenerationStatus]
  · intro taskId hne
    by_cases ht : taskId = ""
    · simp [pollStatus, ht, hjob]
    · rw [pollStatus_ok_logTask taskId data s ht]
      simp [hjob, Ne.symm hne]

/-- Witness of C10 (amended): job T1, just submitted with status PENDING, is answered RUNNING. -/
theorem poll_outcome_overwrites_status_witness :
    (pollStatus "T1" (PollOutcome.ok Sample.running) Sample.submittedT1).logTask = some
      { id := "T1", status := JsVal.str "RUNNING", date := "2024-01-01",
        downloadUrl := JsVal.undefined, errorMessage := JsVal.undefined } :=
  (poll_outcome_overwrites_status Sample.submittedT1
    { id := "T1", status := JsVal.str "PENDING", date := "2024-01-01",
      downloadUrl := JsVal.null, errorMessage := JsVal.null }
    Sample.running rfl (by decide)).1

/-- C11 as stated fails, in two ways.  A status response for the tracked job
T1 with status RUNNING and a download link leaves a RUNNING job with a link.
And with responses that carry a link only when COMPLETED: job T1 is COMPLETED
with link "/x" while the request of the one-shot timer is unanswered; when
that request fails, the job is FAILED and still has the link. -/
theorem link_without_completed_status :
    ((run (Sample.submitT1 ++ [Event.timerFired 1,
        Event.pollSettled "T1" (PollOutcome.ok Sample.runningWithLink)])
        Poller.initial).logTask = some
      { id := "T1", status := JsVal.str "RUNNING", date := "2024-01-01",
        downloadUrl := JsVal.str "/x", errorMessage := JsVal.undefined } ∧
      (JsVal.str "/x").truthy = true ∧ JsVal.str "RUNNING" ≠ JsVal.str "COMPLETED") ∧
    ((run (Sample.finishT1 ++ [Event.pollSettled "T1" (PollOutcome.error Sample.networkError)])
        Poller.initial).logTask = some
      { id := "T1", status := JsVal.str "FAILED", date := "2024-01-01",
        downloadUrl := JsVal.str "/x", errorMessage := JsVal.undefined } ∧
      JsVal.str "FAILED" ≠ JsVal.str "COMPLETED") := by
  refine ⟨⟨rfl, rfl, ?_⟩, ⟨rfl, ?_⟩⟩ <;> simp

/-- C11, amended: after every run from the freshly mounted component in which
each status response that carries a download link has status COMPLETED, a
tracked job with a (truthy) download link has status COMPLETED, or FAILED. -/
theorem link_only_when_completed_or_failed (events : List Event)
    (hwf : ∀ e ∈ events, e.linkOnlyWhenCompleted) (job : LogTask)
    (hjob : (run events Poller.initial).logTask = some job)
    (hlink : job.downloadUrl.truthy = true) :
    job.status = JsVal.str "COMPLETED" ∨ job.status = JsVal.str "FAILED" := by
  have hinv := run_invariant
    (fun s => ∀ job, s.logTask = some job → job.downloadUrl.truthy = true →
      job.status = JsVal.str "COMPLETED" ∨ job.status = JsVal.str "FAILED")
    Event.linkOnlyWhenCompleted
    (by
      intro s e hq hs job hj hl
      rcases step_logTask s e with h | h | ⟨t, st, d, h⟩ | ⟨prev, t, data, h1, h2, h3⟩ |
        ⟨prev, h1, h3⟩
      · exact hs job (h ▸ hj) hl
      · rw [h] at hj; cases hj
      · rw [h] at hj; cases hj; simp [JsVal.truthy] at hl
      · rw [h3] at hj
        cases hj
        subst h2
        exact Or.inl (hq hl)
      · rw [h3] at hj
        cases hj
        exact Or.inr rfl)
    events Poller.initial hwf
    (by intro job hj; cases hj)
  exact hinv job hjob hlink

/-- Witness of C11 (amended): the run that ends with job T1 COMPLETED with link "/x". -/
theorem link_only_when_completed_or_failed_witness :
    (run Sample.finishT1 Poller.initial).logTask = some
      { id := "T1", status := JsVal.str "COMPLETED", date := "2024-01-01",
        downloadUrl := JsVal.str "/x", errorMessage := JsVal.undefined } ∧
    (JsVal.str "COMPLETED" = JsVal.str "COMPLETED" ∨
      JsVal.str "COMPLETED" = JsVal.str "FAILED") :=
  ⟨rfl, link_only_when_completed_or_failed Sample.finishT1
    (by
      intro e he
      simp only [Sample.finishT1, Sample.submitT1, List.cons_append, List.nil_append,
        List.mem_cons, List.mem_singleton, List.not_mem_nil, or_false] at he
      rcases he with h | h | h | h | h | h <;> subst h <;>
        simp [Event.linkOnlyWhenCompleted, Sample.completed])
    { id := "T1", status := JsVal.str "COMPLETED", date := "2024-01-01",
      downloadUrl := JsVal.str "/x", errorMessage := JsVal.undefined }
    rfl rfl⟩

/-- C12 as stated fails: a status response for the tracked job T1 with status
RUNNING and an error message leaves a RUNNING job with an error message. -/
theorem error_message_without_failed_status :
    (run (Sample.submitT1 ++ [Event.timerFired 1,
      Event.pollSettled "T1" (PollOutcome.ok Sample.runningWithError)])
      Poller.initial).logTask = some
      { id := "T1", status := JsVal.str "RUNNING", date := "2024-01-01",
        downloadUrl := JsVal.undefined, errorMessage := JsVal.str "boom" } ∧
    (JsVal.str "boom").truthy = true ∧ JsVal.str "RUNNING" ≠ JsVal.str "FAILED" := by
  refine ⟨rfl, rfl, ?_⟩
  simp

/-- C12, amended: after every run from the freshly mounted component in which
each status response that carries an error message has status FAILED, a
tracked job with a (truthy) error message has status FAILED. -/
theorem error_message_only_when_failed (events : List Event)
    (hwf : ∀ e ∈ events, e.errorOnlyWhenFailed) (job : LogTask)
    (hjob : (run events Poller.initial).logTask = some job)
    (herror : job.errorMessage.truthy = true) :
    job.status = JsVal.str "FAILED" := by
  have hinv := run_invariant
    (fun s => ∀ job, s.logTask = some job → job.errorMessage.truthy = true →
      job.status = JsVal.str "FAILED")
    Event.errorOnlyWhenFailed
    (by
      intro s e hq hs job hj hl
      rcases step_logTask s e with h | h | ⟨t, st, d, h⟩ | ⟨prev, t, data, h1, h2, h3⟩ |
        ⟨prev, h1, h3⟩
      · exact hs job (h ▸ hj) hl
      · rw [h] at hj; cases hj
      · rw [h] at hj; cases hj; simp [JsVal.truthy] at hl
      · rw [h3] at hj
        cases hj
        subst h2
        exact hq hl
      · rw [h3] at hj
        cases hj
        rfl)
    events Poller.initial hwf
    (by intro job hj; cases hj)
  exact hinv job hjob herror

/-- Witness of C12 (amended): job T1 is answered FAILED with the error message "boom". -/
theorem error_message_only_when_failed_witness :
    (run (Sample.submitT1 ++ [Event.timerFired 1,
      Event.pollSettled "T1" (PollOutcome.ok Sample.failedWithError)])
      Poller.initial).logTask = some
      { id := "T1", status := JsVal.str "FAILED", date := "2024-01-01",
        downloadUrl := JsVal.undefined, errorMessage := JsVal.str "boom" } ∧
    JsVal.str "FAILED" = JsVal.str "FAILED" :=
  ⟨rfl, error_message_only_when_failed
    (Sample.submitT1 ++ [Event.timerFired 1,
      Event.pollSettled "T1" (PollOutcome.ok Sample.failedWithError)])
    (by
      intro e he
      simp only [Sample.submitT1, List.cons_append, List.nil_append,
        List.mem_cons, List.mem_singleton, List.not_mem_nil, or_false] at he
      rcases he with h | h | h | h | h <;> subst h <;>
        simp [Event.errorOnlyWhenFailed, Sample.failedWithError])
    { id := "T1", status := JsVal.str "FAILED", date := "2024-01-01",
      downloadUrl := JsVal.undefined, errorMessage := JsVal.str "boom" }
    rfl rfl⟩

/-- C13: in a state that tracks job J, a successful status response for J with
status COMPLETED leaves the job COMPLETED (with the error message and link of
the response), clears the ref (removing the interval timer) and `logLoading`;
when the download link is missing or empty (not truthy) it sends exactly one
notification, a warning, and when the link is truthy it sends none. -/
theorem completed_without_link_warns_once (s : Poller) (job : LogTask) (data : StatusData)
    (hjob : s.logTask = some job) (hid : job.id ≠ "")
    (hstatus : data.status = JsVal.str "COMPLETED") :
    (pollStatus job.id (PollOutcome.ok data) s).logTask = some
      { id := job.id, status := JsVal.str "COMPLETED", date := job.date,
        downloadUrl := data.downloadUrl, errorMessage := data.errorMessage } ∧
    (pollStatus job.id (PollOutcome.ok data) s).pollingIntervalRef = none ∧
    (pollStatus job.id (PollOutcome.ok data) s).timers = (stopPolling s).timers ∧
    (pollStatus job.id (PollOutcome.ok data) s).logLoading = false ∧
    (data.downloadUrl.truthy = false →
      (pollStatus job.id (PollOutcome.ok data) s).messages = s.messages ++
        [Message.mk MessageKind.warning (JsVal.str
          "Генерация завершена, но ссылка на скачивание не получена от сервера.")]) ∧
    (data.downloadUrl.truthy = true →
      (pollStatus job.id (PollOutcome.ok data) s).messages = s.messages) := by
  have h := pollStatus_ok_completed job.id data s hid hstatus
  refine ⟨?_, ?_, ?_, ?_, ?_, ?_⟩
  · rw [pollStatus_ok_logTask job.id data s hid]
    simp [hjob, hstatus]
  · rw [h]
  · rw [h]
  · rw [h]
  · intro hl
    rw [h]
    simp [hl]
  · intro hl
    rw [h]
    simp [hl]

/-- Witness of C13: job T1, just submitted, is answered COMPLETED without link. -/
theorem completed_without_link_warns_once_witness :
    (pollStatus "T1" (PollOutcome.ok Sample.completedNoLink) Sample.submittedT1).messages =
      Sample.submittedT1.messages ++
        [Message.mk MessageKind.warning (JsVal.str
          "Генерация завершена, но ссылка на скачивание не получена от сервера.")] :=
  (completed_without_link_warns_once Sample.submittedT1
    { id := "T1", status := JsVal.str "PENDING", date := "2024-01-01",
      downloadUrl := JsVal.null, errorMessage := JsVal.null }
    Sample.completedNoLink rfl (by decide) rfl).2.2.2.2.1 rfl

/-- C14 as stated fails: job T1, just submitted, is answered COMPLETED without
link; afterwards `logError` is not `null` but a message, the view shows the
error alert and does not show the panel of the job. -/
theorem incomplete_result_sets_logError :
    (pollStatus "T1" (PollOutcome.ok Sample.completedNoLink) Sample.submittedT1).logError
      = JsVal.str "Генерация завершена, но ссылка на скачивание отсутствует." ∧
    (pollStatus "T1" (PollOutcome.ok Sample.completedNoLink) Sample.submittedT1).logError
      ≠ JsVal.null ∧
    showsErrorAlert
      (pollStatus "T1" (PollOutcome.ok Sample.completedNoLink) Sample.submittedT1) = true ∧
    showsTaskPanel
      (pollStatus "T1" (PollOutcome.ok Sample.completedNoLink) Sample.submittedT1) = false := by
  have h : (pollStatus "T1" (PollOutcome.ok Sample.completedNoLink)
      Sample.submittedT1).logError
      = JsVal.str "Генерация завершена, но ссылка на скачивание отсутствует." := rfl
  refine ⟨h, ?_, rfl, rfl⟩
  rw [h]
  simp

/-- C14, amended: in a state that tracks job J, a successful status response
for J with status COMPLETED and no (truthy) download link leaves the job
COMPLETED, not FAILED, sends a warning notification, and also sets `logError`
to a message while `logLoading` becomes false: the view then shows the error
alert and not the panel of the job. -/
theorem incomplete_result_shows_alert (s : Poller) (job : LogTask) (data : StatusData)
    (hjob : s.logTask = some job) (hid : job.id ≠ "")
    (hstatus : data.status = JsVal.str "COMPLETED") (hlink : data.downloadUrl.truthy = false) :
    (pollStatus job.id (PollOutcome.ok data) s).logTask = some
      { id := job.id, status := JsVal.str "COMPLETED", date := job.date,
        downloadUrl := data.downloadUrl, errorMessage := data.errorMessage } ∧
    (pollStatus job.id (PollOutcome.ok data) s).messages = s.messages ++
      [Message.mk MessageKind.warning (JsVal.str
        "Генерация завершена, но ссылка на скачивание не получена от сервера.")] ∧
    (pollStatus job.id (PollOutcome.ok data) s).logError
      = JsVal.str "Генерация завершена, но ссылка на скачивание отсутствует." ∧
    (pollStatus job.id (PollOutcome.ok data) s).logLoading = false ∧
    showsErrorAlert (pollStatus job.id (PollOutcome.ok data) s) = true ∧
    showsTaskPanel (pollStatus job.id (PollOutcome.ok data) s) = false := by
  have h := pollStatus_ok_completed job.id data s hid hstatus
  refine ⟨?_, ?_, ?_, ?_, ?_, ?_⟩
  · rw [pollStatus_ok_logTask job.id data s hid]
    simp [hjob, hstatus]
  · rw [h]
    simp [hlink]
  · rw [h]
    simp [hlink]
  · rw [h]
  · rw [h]
    simp only [showsErrorAlert, hlink, Bool.false_eq_true, if_false]
    rfl
  · rw [h]
    simp only [showsTaskPanel, hlink, Bool.false_eq_true, if_false]
    have htruthy : (JsVal.str
        "Генерация завершена, но ссылка на скачивание отсутствует.").truthy = true := rfl
    rw [htruthy]
    simp

/-- Witness of C14 (amended): job T1, just submitted, answered COMPLETED without link. -/
theorem incomplete_result_shows_alert_witness :
    showsErrorAlert
      (pollStatus "T1" (PollOutcome.ok Sample.completedNoLink) Sample.submittedT1) = true ∧
    showsTaskPanel
      (pollStatus "T1" (PollOutcome.ok Sample.completedNoLink) Sample.submittedT1) = false :=
  have h := incomplete_result_shows_alert Sample.submittedT1
    { id := "T1", status := JsVal.str "PENDING", date := "2024-01-01",
      downloadUrl := JsVal.null, errorMessage := JsVal.null }
    Sample.completedNoLink rfl (by decide) rfl rfl
  ⟨h.2.2.2.2.1, h.2.2.2.2.2⟩

/-- C15: with a date picked, the first part of `handleStartGeneration` (up to
the start request) leaves the ref `null`, the interval timer the ref held
removed from the window, `logTask` `null`, `logError` `null` and `logLoading`
true.  After the submission succeeds the ref holds the handle of a new
recurring timer that polls the returned task id; any other recurring timer
was pending before and not held by the ref, so when the ref held every
recurring timer before, the new one is the only recurring timer. -/
theorem new_submission_replaces_schedule (s : Poller) (date : Dayjs)
    (hdate : s.logDate = some date) (start : StartData) (taskId : String)
    (hstart : start.taskId = some taskId) (hne : taskId ≠ "") :
    ((handleStartGenerationSend s).2 = some date.format ∧
      (handleStartGenerationSend s).1.pollingIntervalRef = none ∧
      (handleStartGenerationSend s).1.timers = (stopPolling s).timers ∧
      (∀ handle, s.pollingIntervalRef = some handle →
        ∀ t ∈ (handleStartGenerationSend s).1.timers, t.handle ≠ handle) ∧
      (handleStartGenerationSend s).1.logTask = none ∧
      (handleStartGenerationSend s).1.logError = JsVal.null ∧
      (handleStartGenerationSend s).1.logLoading = true) ∧
    ((handleStartGeneration (StartOutcome.ok start) s).pollingIntervalRef
        = some (Nat.succPNat (s.lastHandle + 1)) ∧
      Timer.mk (Nat.succPNat (s.lastHandle + 1)) taskId true
        ∈ (handleStartGeneration (StartOutcome.ok start) s).timers ∧
      (∀ t ∈ (handleStartGeneration (StartOutcome.ok start) s).timers, t.recurring = true →
        t = Timer.mk (Nat.succPNat (s.lastHandle + 1)) taskId true ∨
        (t ∈ s.timers ∧ s.pollingIntervalRef ≠ some t.handle)) ∧
      ((∀ t ∈ s.timers, t.recurring = true → s.pollingIntervalRef = some t.handle) →
        (handleStartGeneration (StartOutcome.ok start) s).timers.filter (fun t => t.recurring)
          = [Timer.mk (Nat.succPNat (s.lastHandle + 1)) taskId true])) := by
  have hold : ∀ t ∈ (stopPolling s).timers, t ∈ s.timers ∧ s.pollingIntervalRef ≠ some t.handle := by
    intro t ht
    cases href : s.pollingIntervalRef with
    | none =>
      rw [stopPolling_of_ref_none s href] at ht
      exact ⟨ht, by simp⟩
    | some handle =>
      rw [stopPolling_timers_of_ref s handle href] at ht
      simp only [clearInterval, List.mem_filter, bne_iff_ne, ne_eq] at ht
      exact ⟨ht.1, by simpa using fun h => ht.2 h.symm⟩
  have hsend : handleStartGenerationSend s =
      ({ stopPolling s with logLoading := true, logError := JsVal.null, logTask := none },
        some date.format) := by
    simp [handleStartGenerationSend, hdate]
  refine ⟨?_, ?_⟩
  · rw [hsend]
    refine ⟨rfl, stopPolling_ref s, rfl, ?_, rfl, rfl, rfl⟩
    intro handle href t ht hEq
    exact (hold t ht).2 (by rw [href, hEq])
  · rw [handleStartGeneration_ok s date hdate start taskId hstart hne]
    refine ⟨rfl, by simp, ?_, ?_⟩
    · intro t ht hrec
      simp only [List.mem_append, List.mem_cons, List.mem_singleton, List.not_mem_nil,
        or_false] at ht
      rcases ht with h | h | h
      · exact Or.inr (hold t h)
      · rw [h] at hrec
        simp at hrec
      · exact Or.inl h
    · intro hall
      have hnone : (stopPolling s).timers.filter (fun t => t.recurring) = [] := by
        rw [List.filter_eq_nil_iff]
        intro t ht hrec
        exact (hold t ht).2 (hall t (hold t ht).1 hrec)
      simp [List.filter_append, hnone, List.filter]

/-- Witness of C15: while job T1 is tracked and polled, a second submission is answered T2. -/
theorem new_submission_replaces_schedule_witness :
    (handleStartGenerationSend Sample.submittedT1).1.pollingIntervalRef = none ∧
    (handleStartGenerationSend Sample.submittedT1).1.logTask = none ∧
    (handleStartGeneration (StartOutcome.ok Sample.startT2) Sample.submittedT1).timers.filter
      (fun t => t.recurring) = [Timer.mk 4 "T2" true] :=
  have h := new_submission_replaces_schedule Sample.submittedT1 Sample.date rfl Sample.startT2
    "T2" rfl (by decide)
  ⟨h.1.2.1, h.1.2.2.2.2.1, h.2.2.2.2 (by
    intro t ht hrec
    have hts : Sample.submittedT1.timers = [Timer.mk 1 "T1" false, Timer.mk 2 "T1" true] := rfl
    rw [hts] at ht
    simp only [List.mem_cons, List.mem_singleton, List.not_mem_nil, or_false] at ht
    rcases ht with h | h
    · rw [h] at hrec; simp at hrec
    · rw [h]; rfl)⟩

/-- C16, the code at the failing input: right after the submission answered
with T1 two timers are pending, the one-shot timer (handle 1) and the interval
timer (handle 2); `stopPolling` clears the ref and removes the interval timer
only, the one-shot timer stays pending, and when it fires a status request for
T1 is sent. -/
theorem stopPolling_keeps_one_shot_poll :
    Sample.submittedT1.timers = [Timer.mk 1 "T1" false, Timer.mk 2 "T1" true] ∧
    (stopPolling Sample.submittedT1).pollingIntervalRef = none ∧
    (stopPolling Sample.submittedT1).timers = [Timer.mk 1 "T1" false] ∧
    (fireTimer 1 (stopPolling Sample.submittedT1)).2 = some "T1" :=
  ⟨rfl, rfl, rfl, rfl⟩

/-- C17: in a state with `logTask` `null`, every settled status request
(response or failure, any task id) leaves `logTask` `null`, and so does every
failed submission, whenever its request settles; and in any state, a
submission attempted with no date picked sends no request and changes nothing
but the notifications, to which it adds one warning. -/
theorem job_only_from_successful_submission (s : Poller) (hnull : s.logTask = none) :
    (∀ taskId outcome, (pollStatus taskId outcome s).logTask = none) ∧
    (∀ outcome e, outcome.thrown = some e →
      (handleStartGeneration outcome s).logTask = none ∧
      ∀ formattedDate, (handleStartGenerationSettle formattedDate outcome s).logTask = none) ∧
    (∀ (t : Poller) (outcome : StartOutcome), t.logDate = none →
      (handleStartGenerationSend t).2 = none ∧
      handleStartGeneration outcome t =
        { t with messages := t.messages ++ [Message.mk MessageKind.warning
            (JsVal.str "Пожалуйста, выберите дату для генерации лога.")] }) := by
  refine ⟨?_, ?_, ?_⟩
  · intro taskId outcome
    rcases pollStatus_logTask taskId outcome s with h | h | ⟨prev, _, h1, _⟩ | ⟨prev, _, h1, _⟩
    · rw [h, hnull]
    · exact h
    · rw [hnull] at h1; cases h1
    · rw [hnull] at h1; cases h1
  · intro outcome e hthrown
    have hsettle : ∀ (formattedDate : String) (u : Poller), u.logTask = none →
        (handleStartGenerationSettle formattedDate outcome u).logTask = none := by
      intro formattedDate u hu
      cases outcome with
      | error e2 =>
        simp only [handleStartGenerationSettle]
        rw [(handleStartGenerationCatch_frame e2 u).1, hu]
      | ok data =>
        simp only [StartOutcome.thrown] at hthrown
        cases hid : data.taskId with
        | none =>
          simp only [handleStartGenerationSettle, hid]
          rw [(handleStartGenerationCatch_frame _ u).1, hu]
        | some taskId =>
          simp only [hid] at hthrown
          by_cases hempty : (taskId == "") = true
          · simp only [handleStartGenerationSettle, hid, hempty, if_true]
            rw [(handleStartGenerationCatch_frame _ u).1, hu]
          · simp [hempty] at hthrown
    refine ⟨?_, fun formattedDate => hsettle formattedDate s hnull⟩
    unfold handleStartGeneration handleStartGenerationSend
    cases hd : s.logDate with
    | none => exact hnull
    | some d => exact hsettle _ _ rfl
  · intro t outcome hd
    simp [handleStartGeneration, handleStartGenerationSend, hd]

/-- Witness of C17: the freshly mounted component, with and without a date. -/
theorem job_only_from_successful_submission_witness :
    (pollStatus "T1" (PollOutcome.ok Sample.completed) Sample.idle).logTask = none ∧
    (pollStatus "T1" (PollOutcome.error Sample.networkError) Sample.idle).logTask = none ∧
    (handleStartGeneration (StartOutcome.error Sample.networkError) Sample.idle).logTask
      = none ∧
    handleStartGeneration (StartOutcome.ok Sample.startT1) Poller.initial =
      { Poller.initial with messages := [Message.mk MessageKind.warning
          (JsVal.str "Пожалуйста, выберите дату для генерации лога.")] } :=
  have h := job_only_from_successful_submission Sample.idle rfl
  ⟨h.1 "T1" (PollOutcome.ok Sample.completed),
   h.1 "T1" (PollOutcome.error Sample.networkError),
   (h.2.1 (StartOutcome.error Sample.networkError) Sample.networkError rfl).1,
   (h.2.2 Poller.initial (StartOutcome.ok Sample.startT1) rfl).2⟩

/-- C18: for a list of reviews (none of them `null` or `undefined`)
`calculateAverageRatings` returns a map which, for every truthy teacher id
with at least one review with a numeric grade, holds under the id's property
key the number `parseFloat(average.toFixed(1))`, where `average` is the double
quotient of the sum and the count of exactly the numeric grades of the reviews
with that key.  That number is the double of a whole number of tenths; the
tenth differs from the double quotient by at most one twentieth, the double
quotient from the arithmetic mean by at most the 2^53-th part of the mean, and,
when twenty times the sum of the grades is below 2^53, the tenth differs from
the arithmetic mean itself by at most one twentieth: it is the mean rounded to
one decimal place. -/
theorem calculateAverageRatings_mean (items : List JsVal)
    (hitems : ∀ r ∈ items, r ≠ JsVal.null ∧ r ≠ JsVal.undefined) :
    ∃ ratings, calculateAverageRatings (JsVal.arr items) = some ratings ∧
      ∀ teacherId : JsVal, teacherId.truthy = true →
        (∃ r ∈ items, reviewTeacherId r = some teacherId ∧
          ∃ grade, r.get "grade" = JsVal.num grade) →
        gradesOf teacherId.toStr items ≠ [] ∧
        dictGet ratings teacherId.toStr
          = some (parseFloat (toFixed1 (toDouble (mean (gradesOf teacherId.toStr items))))) ∧
        ∃ n : ℤ,
          toFixed1 (toDouble (mean (gradesOf teacherId.toStr items))) = (n : ℚ) / 10 ∧
          |(n : ℚ) / 10 - toDouble (mean (gradesOf teacherId.toStr items))| ≤ 1 / 20 ∧
          |toDouble (mean (gradesOf teacherId.toStr items))
            - mean (gradesOf teacherId.toStr items)|
            ≤ |mean (gradesOf teacherId.toStr items)| / 2 ^ 53 ∧
          (20 * |(gradesOf teacherId.toStr items).sum| < 2 ^ 53 →
            |(n : ℚ) / 10 - mean (gradesOf teacherId.toStr items)| ≤ 1 / 20) := by
  cases items with
  | nil =>
    refine ⟨[], rfl, ?_⟩
    rintro teacherId - ⟨r, hr, -⟩
    cases hr
  | cons first rest =>
    obtain ⟨res, hres⟩ := foldlM_addReview_isSome (first :: rest) hitems
      { gradeSums := [], reviewCounts := [] }
    have hsums : SumsOf res (first :: rest) := by
      simpa using SumsOf_foldlM (first :: rest) _ res [] SumsOf_empty hres
    refine ⟨averageRatings res, ?_, ?_⟩
    · simp only [calculateAverageRatings, JsVal.truthy, Bool.not_true, Bool.false_eq_true,
        if_false, hres, Option.map_some']
    · intro teacherId htruthy hreview
      have hne := gradesOf_ne_nil (first :: rest) teacherId htruthy hreview
      refine ⟨hne, ?_, ?_⟩
      · rw [dictGet_averageRatings res (first :: rest) hsums teacherId.toStr, if_neg hne]
      · obtain ⟨n, hn⟩ :=
          toFixed1_tenths (toDouble (mean (gradesOf teacherId.toStr (first :: rest))))
        refine ⟨n, hn, ?_, toDouble_close _, ?_⟩
        · rw [← hn]
          exact toFixed1_close _
        · intro hsmall
          rw [← hn]
          unfold mean
          exact toFixed1_toDouble_close _ _ (List.length_pos.mpr hne) hsmall

/-- Witness of C18: of the five sample reviews, teacher 1 has the numeric
grades 8 and 9 and gets the rating 8.5; seventeen grades 1 and three grades 2
have the mean 1.15, whose double quotient lies below it, and give the double
of 1.1. -/
theorem calculateAverageRatings_mean_witness :
    (∃ ratings, calculateAverageRatings (JsVal.arr Sample.reviews) = some ratings ∧
      dictGet ratings "1" = some (17 / 2)) ∧
    (∃ ratings, calculateAverageRatings (JsVal.arr Sample.tieReviews) = some ratings ∧
      dictGet ratings "1" = some (parseFloat (11 / 10))) ∧
    parseFloat (11 / 10) = 2476979795053773 / 2251799813685248 := by
  refine ⟨?_, ?_, parseFloat_tenth⟩
  · obtain ⟨ratings, hratings, hall⟩ := calculateAverageRatings_mean Sample.reviews
      (by
        intro r hr
        simp only [Sample.reviews, Sample.review, List.mem_cons, List.mem_singleton,
          List.not_mem_nil, or_false] at hr
        rcases hr with h | h | h | h | h <;> subst h <;> exact ⟨by simp, by simp⟩)
    have h1 := hall (JsVal.num 1) rfl
      ⟨Sample.review 1 (JsVal.num 8), by simp [Sample.reviews], rfl, 8, rfl⟩
    have hkey : (JsVal.num 1).toStr = "1" := rfl
    have hgrades : gradesOf "1" Sample.reviews = [8, 9] := rfl
    have hmean : mean [8, 9] = 17 / 2 := by
      unfold mean
      norm_num
    have hfixed : toFixed1 (17 / 2) = 17 / 2 := by
      unfold toFixed1
      norm_num [Int.floor_eq_iff]
    rw [hkey, hgrades, hmean, toDouble_exact, hfixed] at h1
    unfold parseFloat at h1
    rw [toDouble_exact] at h1
    exact ⟨ratings, hratings, h1.2.1⟩
  · obtain ⟨ratings, hratings, hall⟩ := calculateAverageRatings_mean Sample.tieReviews
      (by
        intro r hr
        simp only [Sample.tieReviews, Sample.review, List.mem_append, List.mem_replicate] at hr
        rcases hr with h | h <;> rw [h.2] <;> exact ⟨by simp, by simp⟩)
    have h1 := hall (JsVal.num 1) rfl
      ⟨Sample.review 1 (JsVal.num 1), by simp [Sample.tieReviews], rfl, 1, rfl⟩
    have hkey : (JsVal.num 1).toStr = "1" := rfl
    have hgrades : gradesOf "1" Sample.tieReviews
        = List.replicate 17 1 ++ List.replicate 3 2 := rfl
    have hmean : mean (List.replicate 17 1 ++ List.replicate 3 2) = 23 / 20 := by
      unfold mean
      norm_num
    rw [hkey, hgrades, hmean, toFixed1_toDouble_tie] at h1
    exact ⟨ratings, hratings, h1.2.1⟩

/-- C19: the validator of the field `grade` passes `null` and `undefined`;
any other value is judged by its number `Number(value)`: it is accepted
exactly when that number is a finite number between 1 and 10, it is rejected
with 'Введите число!' when that number is `NaN`, and with 'Оценка должна быть
от 1 до 10!' when that number is below 1 or above 10.  In particular a number
`n` is accepted exactly when `1 ≤ n ≤ 10` and is rejected with the second
message otherwise. -/
theorem gradeValidator_accepts_one_to_ten (stringToNumber : String → JsNumber)
    (value : JsVal) :
    gradeValidator stringToNumber JsVal.null = Validation.resolved ∧
    gradeValidator stringToNumber JsVal.undefined = Validation.resolved ∧
    (value ≠ JsVal.null → value ≠ JsVal.undefined →
      (gradeValidator stringToNumber value = Validation.resolved ↔
        ∃ q, toNumber stringToNumber value = JsNumber.finite q ∧ 1 ≤ q ∧ q ≤ 10) ∧
      (toNumber stringToNumber value = JsNumber.nan →
        gradeValidator stringToNumber value = Validation.rejected "Введите число!") ∧
      ((toNumber stringToNumber value = JsNumber.negInf ∨
          toNumber stringToNumber value = JsNumber.posInf ∨
          ∃ q, toNumber stringToNumber value = JsNumber.finite q ∧ (q < 1 ∨ 10 < q)) →
        gradeValidator stringToNumber value
          = Validation.rejected "Оценка должна быть от 1 до 10!")) ∧
    (∀ n : ℤ, gradeValidator stringToNumber (JsVal.num n) =
      if 1 ≤ n ∧ n ≤ 10 then Validation.resolved
      else Validation.rejected "Оценка должна быть от 1 до 10!") := by
  have hgen : ∀ v : JsVal, v ≠ JsVal.null → v ≠ JsVal.undefined →
      gradeValidator stringToNumber v =
        if (toNumber stringToNumber v).isNaN then Validation.rejected "Введите число!"
        else if (toNumber stringToNumber v).lt 1 || (toNumber stringToNumber v).gt 10 then
          Validation.rejected "Оценка должна быть от 1 до 10!"
        else Validation.resolved := by
    intro v h1 h2
    cases v with
    | null => exact absurd rfl h1
    | undefined => exact absurd rfl h2
    | bool b => rfl
    | num n => rfl
    | str t => rfl
    | arr xs => rfl
    | obj fields => rfl
  refine ⟨rfl, rfl, ?_, ?_⟩
  · intro h1 h2
    rw [hgen value h1 h2]
    cases hnum : toNumber stringToNumber value with
    | nan => simp [JsNumber.isNaN]
    | negInf => simp [JsNumber.isNaN, JsNumber.lt]
    | posInf => simp [JsNumber.isNaN, JsNumber.lt, JsNumber.gt]
    | finite q =>
      simp only [JsNumber.isNaN, JsNumber.lt, JsNumber.gt, Bool.false_eq_true, if_false,
        Bool.or_eq_true, decide_eq_true_eq]
      by_cases hq : q < 1 ∨ q > 10
      · simp only [hq, if_true]
        refine ⟨?_, ?_, ?_⟩
        · constructor
          · intro h; cases h
          · rintro ⟨q2, hq2, hlo, hhi⟩
            cases hq2
            rcases hq with h | h
            · exact absurd hlo (not_le.mpr h)
            · exact absurd hhi (not_le.mpr h)
        · intro h; cases h
        · intro _; trivial
      · simp only [hq, if_false]
        have hq2 : 1 ≤ q ∧ q ≤ 10 := by
          constructor
          · exact not_lt.mp (fun h => hq (Or.inl h))
          · exact not_lt.mp (fun h => hq (Or.inr h))
        refine ⟨?_, ?_, ?_⟩
        · exact ⟨fun _ => ⟨q, rfl, hq2.1, hq2.2⟩, fun _ => trivial⟩
        · intro h; cases h
        · rintro (h | h | ⟨q3, h3, h4⟩)
          · cases h
          · cases h
          · cases h3
            exact absurd h4 hq
  · intro n
    rw [hgen (JsVal.num n) (by simp) (by simp)]
    simp only [toNumber, JsNumber.isNaN, JsNumber.lt, JsNumber.gt, Bool.false_eq_true,
      if_false, Bool.or_eq_true, decide_eq_true_eq]
    by_cases hn : 1 ≤ n ∧ n ≤ 10
    · have h1 : ¬ ((n : ℚ) < 1 ∨ (n : ℚ) > 10) := by
        rintro (h | h)
        · have : n < 1 := by exact_mod_cast h
          omega
        · have : n > 10 := by exact_mod_cast h
          omega
      simp [hn, h1]
    · have h1 : (n : ℚ) < 1 ∨ (n : ℚ) > 10 := by
        by_cases hlo : n < 1
        · exact Or.inl (by exact_mod_cast hlo)
        · refine Or.inr ?_
          have : n > 10 := by omega
          exact_mod_cast this
      simp [hn, h1]

/-- C20, the code at the failing input: a comment of 255 characters is within
the limit the message states, and the rule rejects it, with that very message;
the rule accepts exactly the comments of at most 254 characters. -/
theorem commentRule_rejects_255_characters :
    (String.mk (List.replicate 255 'a')).length = 255 ∧
    commentRule (String.mk (List.replicate 255 'a'))
      = Validation.rejected "Максимум 255 символов" ∧
    (∀ comment : String, commentRule comment = Validation.resolved ↔ comment.length ≤ 254) := by
  have hlen : (String.mk (List.replicate 255 'a')).length = 255 :=
    List.length_replicate 255 'a'
  refine ⟨hlen, ?_, ?_⟩
  · unfold commentRule commentRuleMax
    rw [hlen]
    rfl
  · intro comment
    unfold commentRule commentRuleMax
    by_cases h : comment.length > 254
    · simp [h]
    · simp only [h, if_false, true_iff]
      omega

/-- C22: the result of `handleApiError` (the message it returns, the
notification it sends, or the fact that it throws) is the same whatever the
default message: every path assigns `errorMessage` anew. -/
theorem handleApiError_ignores_default (error : ApiError) (messageApi : Bool)
    (d1 d2 : String) :
    handleApiError error messageApi d1 = handleApiError error messageApi d2 := by
  unfold handleApiError
  rfl

/-- C23: `getRatingColor` returns 'default' for `null`, for `undefined` and
for every other value whose number is `NaN` or infinite; for a value whose
number is the finite `r`, and for a number `r` itself, it returns 'error'
exactly when `0 ≤ r < 4`, 'warning' exactly when `4 ≤ r < 7`, 'gold' exactly
when `7 ≤ r < 9`, 'success' exactly when `9 ≤ r ≤ 10` and 'default' exactly
when `r < 0` or `r > 10`: the four coloured ranges are disjoint and cover
exactly the interval from 0 to 10. -/
theorem getRatingColor_piecewise (stringToNumber : String → JsNumber) :
    getRatingColor stringToNumber JsVal.null = "default" ∧
    getRatingColor stringToNumber JsVal.undefined = "default" ∧
    (∀ value : JsVal, value ≠ JsVal.null → value ≠ JsVal.undefined →
      (toNumber stringToNumber value = JsNumber.nan ∨
        toNumber stringToNumber value = JsNumber.negInf ∨
        toNumber stringToNumber value = JsNumber.posInf →
        getRatingColor stringToNumber value = "default") ∧
      (∀ r, toNumber stringToNumber value = JsNumber.finite r →
        getRatingColor stringToNumber value = getRatingColorOfNumber r)) ∧
    (∀ r : ℚ,
      (getRatingColorOfNumber r = "error" ↔ 0 ≤ r ∧ r < 4) ∧
      (getRatingColorOfNumber r = "warning" ↔ 4 ≤ r ∧ r < 7) ∧
      (getRatingColorOfNumber r = "gold" ↔ 7 ≤ r ∧ r < 9) ∧
      (getRatingColorOfNumber r = "success" ↔ 9 ≤ r ∧ r ≤ 10) ∧
      (getRatingColorOfNumber r = "default" ↔ r < 0 ∨ 10 < r)) := by
  have hgen : ∀ v : JsVal, v ≠ JsVal.null → v ≠ JsVal.undefined →
      getRatingColor stringToNumber v = ratingColor (toNumber stringToNumber v) := by
    intro v h1 h2
    cases v with
    | null => exact absurd rfl h1
    | undefined => exact absurd rfl h2
    | bool b => rfl
    | num n => rfl
    | str t => rfl
    | arr xs => rfl
    | obj fields => rfl
  refine ⟨rfl, rfl, ?_, ?_⟩
  · intro value h1 h2
    rw [hgen value h1 h2]
    refine ⟨?_, ?_⟩
    · rintro (h | h | h) <;> rw [h] <;> rfl
    · intro r hr
      rw [hr]
      rfl
  · intro r
    have hval : getRatingColorOfNumber r =
        if 0 ≤ r ∧ r < 4 then "error"
        else if 4 ≤ r ∧ r < 7 then "warning"
        else if 7 ≤ r ∧ r < 9 then "gold"
        else if 9 ≤ r ∧ r ≤ 10 then "success"
        else "default" := by
      simp [getRatingColorOfNumber, ratingColor, JsNumber.isNaN, JsNumber.ge, JsNumber.lt,
        JsNumber.le]
    rw [hval]
    by_cases h1 : 0 ≤ r ∧ r < 4
    · rw [if_pos h1]
      refine ⟨⟨fun _ => h1, fun _ => rfl⟩, ?_, ?_, ?_, ?_⟩
      · constructor
        · intro h; exact absurd h (by decide)
        · intro h; linarith [h1.2, h.1]
      · constructor
        · intro h; exact absurd h (by decide)
        · intro h; linarith [h1.2, h.1]
      · constructor
        · intro h; exact absurd h (by decide)
        · intro h; linarith [h1.2, h.1]
      · constructor
        · intro h; exact absurd h (by decide)
        · rintro (h | h) <;> linarith [h1.1, h1.2]
    · by_cases h2 : 4 ≤ r ∧ r < 7
      · rw [if_neg h1, if_pos h2]
        refine ⟨?_, ⟨fun _ => h2, fun _ => rfl⟩, ?_, ?_, ?_⟩
        · exact ⟨fun h => absurd h (by decide), fun h => absurd h h1⟩
        · exact ⟨fun h => absurd h (by decide), fun h => by linarith [h2.2, h.1]⟩
        · exact ⟨fun h => absurd h (by decide), fun h => by linarith [h2.2, h.1]⟩
        · constructor
          · intro h; exact absurd h (by decide)
          · rintro (h | h) <;> linarith [h2.1, h2.2]
      · by_cases h3 : 7 ≤ r ∧ r < 9
        · rw [if_neg h1, if_neg h2, if_pos h3]
          refine ⟨?_, ?_, ⟨fun _ => h3, fun _ => rfl⟩, ?_, ?_⟩
          · exact ⟨fun h => absurd h (by decide), fun h => absurd h h1⟩
          · exact ⟨fun h => absurd h (by decide), fun h => absurd h h2⟩
          · exact ⟨fun h => absurd h (by decide), fun h => by linarith [h3.2, h.1]⟩
          · constructor
            · intro h; exact absurd h (by decide)
            · rintro (h | h) <;> linarith [h3.1, h3.2]
        · by_cases h4 : 9 ≤ r ∧ r ≤ 10
          · rw [if_neg h1, if_neg h2, if_neg h3, if_pos h4]
            refine ⟨?_, ?_, ?_, ⟨fun _ => h4, fun _ => rfl⟩, ?_⟩
            · exact ⟨fun h => absurd h (by decide), fun h => absurd h h1⟩
            · exact ⟨fun h => absurd h (by decide), fun h => absurd h h2⟩
            · exact ⟨fun h => absurd h (by decide), fun h => absurd h h3⟩
            · constructor
              · intro h; exact absurd h (by decide)
              · rintro (h | h) <;> linarith [h4.1, h4.2]
          · rw [if_neg h1, if_neg h2, if_neg h3, if_neg h4]
            refine ⟨?_, ?_, ?_, ?_, ?_⟩
            · exact ⟨fun h => absurd h (by decide), fun h => absurd h h1⟩
            · exact ⟨fun h => absurd h (by decide), fun h => absurd h h2⟩
            · exact ⟨fun h => absurd h (by decide), fun h => absurd h h3⟩
            · exact ⟨fun h => absurd h (by decide), fun h => absurd h h4⟩
            · refine ⟨fun _ => ?_, fun _ => rfl⟩
              by_contra hcon
              push_neg at hcon
              by_cases ha : r < 4
              · exact h1 ⟨hcon.1, ha⟩
              · by_cases hb : r < 7
                · exact h2 ⟨not_lt.mp ha, hb⟩
                · by_cases hc : r < 9
                  · exact h3 ⟨not_lt.mp hb, hc⟩
                  · exact h4 ⟨not_lt.mp hc, hcon.2⟩

/-- C24: `calculateAverageRatings` yields the empty map for `null`, for
`undefined` and for the empty list; for a list of reviews (none of them `null`
or `undefined`) the keys of the map it returns are exactly the property keys
of the truthy teacher ids that occur in a review with a numeric grade; a
review without teacher, with the teacher id 0 or with a grade that is not a
number leaves sums and counts as they are. -/
theorem calculateAverageRatings_keys (items : List JsVal)
    (hitems : ∀ r ∈ items, r ≠ JsVal.null ∧ r ≠ JsVal.undefined) :
    calculateAverageRatings JsVal.null = some [] ∧
    calculateAverageRatings JsVal.undefined = some [] ∧
    calculateAverageRatings (JsVal.arr []) = some [] ∧
    (∃ ratings, calculateAverageRatings (JsVal.arr items) = some ratings ∧
      ∀ key, (dictGet ratings key).isSome = true ↔
        ∃ r ∈ items, ∃ teacherId grade, reviewTeacherId r = some teacherId ∧
          teacherId.truthy = true ∧ teacherId.toStr = key ∧
          r.get "grade" = JsVal.num grade) ∧
    (∀ (acc : RatingSums) (r : JsVal),
      (reviewTeacherId r = some JsVal.undefined ∨
        reviewTeacherId r = some (JsVal.num 0) ∨
        (∃ teacherId, reviewTeacherId r = some teacherId ∧
          ∀ grade, r.get "grade" ≠ JsVal.num grade)) →
      addReview acc r = some acc) := by
  refine ⟨rfl, rfl, rfl, ?_, ?_⟩
  · obtain ⟨res, hsums, hres⟩ := calculateAverageRatings_arr items hitems
    refine ⟨averageRatings res, hres, ?_⟩
    intro key
    rw [dictGet_averageRatings res items hsums key, ← gradesOf_ne_nil_iff]
    by_cases hnil : gradesOf key items = []
    · simp [hnil]
    · simp [hnil]
  · intro acc r h
    have hentry : ∀ teacherId, reviewTeacherId r = some teacherId →
        reviewEntry r = none → addReview acc r = some acc := by
      intro teacherId hid hnone
      rw [addReview_eq acc r teacherId hid, hnone]
    rcases h with h | h | ⟨teacherId, hid, hgrade⟩
    · refine hentry _ h ?_
      unfold reviewEntry
      rw [h]
      cases r.get "grade" <;> simp [JsVal.truthy]
    · refine hentry _ h ?_
      unfold reviewEntry
      rw [h]
      cases r.get "grade" <;> simp [JsVal.truthy]
    · refine hentry _ hid ?_
      unfold reviewEntry
      rw [hid]
      cases hg : r.get "grade" <;> simp
      exact absurd hg (hgrade _)

/-- Witness of C24: among the five sample reviews teacher 1 has numeric grades,
so "1" is a key of the ratings map. -/
theorem calculateAverageRatings_keys_witness :
    ∃ ratings, calculateAverageRatings (JsVal.arr Sample.reviews) = some ratings ∧
      (dictGet ratings "1").isSome = true := by
  obtain ⟨ratings, hratings, hkeys⟩ := (calculateAverageRatings_keys Sample.reviews
    (by
      intro r hr
      simp only [Sample.reviews, Sample.review, List.mem_cons, List.mem_singleton,
        List.not_mem_nil, or_false] at hr
      rcases hr with h | h | h | h | h <;> subst h <;> exact ⟨by simp, by simp⟩)).2.2.2.1
  exact ⟨ratings, hratings, (hkeys "1").mpr
    ⟨Sample.review 1 (JsVal.num 8), by simp [Sample.reviews], JsVal.num 1, 8, rfl, rfl, rfl,
      rfl⟩⟩

/-- C25: for a list of reviews (none of them `null` or `undefined`) in which
every numeric grade lies between 1 and 10, every rating of the map
`calculateAverageRatings` returns lies between 1 and 10, so `getRatingColor`
does not return 'default' for it; more generally a rating lies between any
whole-number bounds of the grades of its key, such as the smallest and the
largest of them. -/
theorem ratings_within_grade_bounds (items : List JsVal)
    (hitems : ∀ r ∈ items, r ≠ JsVal.null ∧ r ≠ JsVal.undefined)
    (hgrades : ∀ r ∈ items, ∀ grade, r.get "grade" = JsVal.num grade →
      1 ≤ grade ∧ grade ≤ 10) :
    ∃ ratings, calculateAverageRatings (JsVal.arr items) = some ratings ∧
      ∀ key rating, dictGet ratings key = some rating →
        (1 ≤ rating ∧ rating ≤ 10) ∧
        getRatingColorOfNumber rating ≠ "default" ∧
        (∀ a b : ℤ, (∀ g ∈ gradesOf key items, a ≤ g ∧ g ≤ b) →
          (a : ℚ) ≤ rating ∧ rating ≤ (b : ℚ)) := by
  obtain ⟨res, hsums, hres⟩ := calculateAverageRatings_arr items hitems
  refine ⟨averageRatings res, hres, ?_⟩
  intro key rating hrating
  rw [dictGet_averageRatings res items hsums key] at hrating
  by_cases hnil : gradesOf key items = []
  · simp [hnil] at hrating
  · simp only [hnil, if_false, Option.some.injEq] at hrating
    subst hrating
    have hrange : ∀ g ∈ gradesOf key items, (1 : ℤ) ≤ g ∧ g ≤ 10 := by
      intro g hg
      unfold gradesOf at hg
      rw [List.mem_filterMap] at hg
      obtain ⟨r, hr, hf⟩ := hg
      cases hid : reviewTeacherId r with
      | none => simp [hid] at hf
      | some teacherId =>
        cases hgrade : r.get "grade" <;> simp [hid, hgrade] at hf
        rw [← hf.2]
        exact hgrades r hr _ hgrade
    have hgeneral : ∀ a b : ℤ, (∀ g ∈ gradesOf key items, a ≤ g ∧ g ≤ b) →
        (a : ℚ) ≤ parseFloat (toFixed1 (toDouble (mean (gradesOf key items)))) ∧
        parseFloat (toFixed1 (toDouble (mean (gradesOf key items)))) ≤ (b : ℚ) := by
      intro a b hall
      have hall2 : ∀ g ∈ gradesOf key items, max a 1 ≤ g ∧ g ≤ min b 10 := fun g hg =>
        ⟨max_le (hall g hg).1 (hrange g hg).1, le_min (hall g hg).2 (hrange g hg).2⟩
      have hm := mean_bounds (max a 1) (min b 10) (gradesOf key items) hnil hall2
      have hb := rating_bounds (max a 1) (min b 10) (mean (gradesOf key items))
        (le_trans (by norm_num) (le_max_right a 1))
        (le_trans (min_le_right b 10) (by norm_num)) hm.1 hm.2
      have hlo : (a : ℚ) ≤ ((max a 1 : ℤ) : ℚ) := Int.cast_le.mpr (le_max_left a 1)
      have hhi : ((min b 10 : ℤ) : ℚ) ≤ (b : ℚ) := Int.cast_le.mpr (min_le_left b 10)
      exact ⟨le_trans hlo hb.1, le_trans hb.2 hhi⟩
    have hbounds := hgeneral 1 10 hrange
    have h1 : (1 : ℚ) ≤ parseFloat (toFixed1 (toDouble (mean (gradesOf key items)))) := by
      simpa using hbounds.1
    have h10 : parseFloat (toFixed1 (toDouble (mean (gradesOf key items)))) ≤ (10 : ℚ) := by
      simpa using hbounds.2
    refine ⟨⟨h1, h10⟩, ?_, hgeneral⟩
    intro hdefault
    have hval : getRatingColorOfNumber (parseFloat (toFixed1 (toDouble (mean (gradesOf key items))))) =
        if 0 ≤ parseFloat (toFixed1 (toDouble (mean (gradesOf key items)))) ∧
            parseFloat (toFixed1 (toDouble (mean (gradesOf key items)))) < 4 then "error"
        else if 4 ≤ parseFloat (toFixed1 (toDouble (mean (gradesOf key items)))) ∧
            parseFloat (toFixed1 (toDouble (mean (gradesOf key items)))) < 7 then "warning"
        else if 7 ≤ parseFloat (toFixed1 (toDouble (mean (gradesOf key items)))) ∧
            parseFloat (toFixed1 (toDouble (mean (gradesOf key items)))) < 9 then "gold"
        else if 9 ≤ parseFloat (toFixed1 (toDouble (mean (gradesOf key items)))) ∧
            parseFloat (toFixed1 (toDouble (mean (gradesOf key items)))) ≤ 10 then "success"
        else "default" := by
      simp [getRatingColorOfNumber, ratingColor, JsNumber.isNaN, JsNumber.ge, JsNumber.lt,
        JsNumber.le]
    rw [hval] at hdefault
    split_ifs at hdefault with c1 c2 c3 c4
    · exact absurd hdefault (by decide)
    · exact absurd hdefault (by decide)
    · exact absurd hdefault (by decide)
    · exact absurd hdefault (by decide)
    · by_cases ha : parseFloat (toFixed1 (toDouble (mean (gradesOf key items)))) < 4
      · exact c1 ⟨by linarith, ha⟩
      · by_cases hb : parseFloat (toFixed1 (toDouble (mean (gradesOf key items)))) < 7
        · exact c2 ⟨not_lt.mp ha, hb⟩
        · by_cases hc : parseFloat (toFixed1 (toDouble (mean (gradesOf key items)))) < 9
          · exact c3 ⟨not_lt.mp hb, hc⟩
          · exact c4 ⟨not_lt.mp hc, h10⟩

/-- Witness of C25: the five sample reviews have the numeric grades 8, 5, 9 and 3. -/
theorem ratings_within_grade_bounds_witness :
    ∃ ratings, calculateAverageRatings (JsVal.arr Sample.reviews) = some ratings ∧
      ∀ key rating, dictGet ratings key = some rating →
        (1 ≤ rating ∧ rating ≤ 10) ∧ getRatingColorOfNumber rating ≠ "default" := by
  obtain ⟨ratings, hratings, hall⟩ := ratings_within_grade_bounds Sample.reviews
    (by
      intro r hr
      simp only [Sample.reviews, Sample.review, List.mem_cons, List.mem_singleton,
        List.not_mem_nil, or_false] at hr
      rcases hr with h | h | h | h | h <;> subst h <;> exact ⟨by simp, by simp⟩)
    (by
      intro r hr grade hgrade
      simp only [Sample.reviews, Sample.review, List.mem_cons, List.mem_singleton,
        List.not_mem_nil, or_false] at hr
      rcases hr with h | h | h | h | h <;> subst h <;>
        simp [JsVal.get, List.lookup] at hgrade <;> omega)
  exact ⟨ratings, hratings, fun key rating h => ⟨(hall key rating h).1, (hall key rating h).2.1⟩⟩

/-- C26: in `updateTeacherSubjects` the current ids are the ids of the first
subject of each current name (names without subject or id dropped); `idsToAdd`
holds exactly the selected ids that are not current, `idsToRemove` exactly the
current ids that are not selected, no id is in both, and the current ids
without `idsToRemove` together with `idsToAdd` are exactly the selected ids;
the requests sent are one `assign` for each id of `idsToAdd` and one `remove`
for each id of `idsToRemove`, and none at all when selected and current ids
are the same set. -/
theorem updateTeacherSubjects_difference (allSubjects : List Subject) (teacherId : Int)
    (newSubjectIds : List Int) (currentSubjectNames : List String) :
    (∀ id, id ∈ currentSubjectIds allSubjects currentSubjectNames ↔
      ∃ name ∈ currentSubjectNames, ∃ subject,
        allSubjects.find? (fun s => s.name == name) = some subject ∧ subject.id = some id) ∧
    (∀ id, id ∈ idsToAdd newSubjectIds (currentSubjectIds allSubjects currentSubjectNames) ↔
      id ∈ newSubjectIds ∧ id ∉ currentSubjectIds allSubjects currentSubjectNames) ∧
    (∀ id, id ∈ idsToRemove newSubjectIds (currentSubjectIds allSubjects currentSubjectNames) ↔
      id ∈ currentSubjectIds allSubjects currentSubjectNames ∧ id ∉ newSubjectIds) ∧
    (∀ id, ¬ (id ∈ idsToAdd newSubjectIds (currentSubjectIds allSubjects currentSubjectNames) ∧
      id ∈ idsToRemove newSubjectIds (currentSubjectIds allSubjects currentSubjectNames))) ∧
    (∀ id,
      ((id ∈ currentSubjectIds allSubjects currentSubjectNames ∧
          id ∉ idsToRemove newSubjectIds (currentSubjectIds allSubjects currentSubjectNames)) ∨
        id ∈ idsToAdd newSubjectIds (currentSubjectIds allSubjects currentSubjectNames)) ↔
      id ∈ newSubjectIds) ∧
    updateTeacherSubjects allSubjects teacherId newSubjectIds currentSubjectNames =
      (idsToAdd newSubjectIds (currentSubjectIds allSubjects currentSubjectNames)).map
        (SubjectRequest.assign teacherId) ++
      (idsToRemove newSubjectIds (currentSubjectIds allSubjects currentSubjectNames)).map
        (SubjectRequest.remove teacherId) ∧
    ((∀ id, id ∈ newSubjectIds ↔ id ∈ currentSubjectIds allSubjects currentSubjectNames) →
      updateTeacherSubjects allSubjects teacherId newSubjectIds currentSubjectNames = []) := by
  have hadd : ∀ (cur : List Int) id, id ∈ idsToAdd newSubjectIds cur ↔
      id ∈ newSubjectIds ∧ id ∉ cur := by
    intro cur id
    simp [idsToAdd, List.mem_filter]
  have hrem : ∀ (cur : List Int) id, id ∈ idsToRemove newSubjectIds cur ↔
      id ∈ cur ∧ id ∉ newSubjectIds := by
    intro cur id
    simp [idsToRemove, List.mem_filter]
  refine ⟨?_, hadd _, hrem _, ?_, ?_, rfl, ?_⟩
  · intro id
    unfold currentSubjectIds
    simp only [List.mem_filterMap, List.mem_map]
    constructor
    · rintro ⟨found, ⟨name, hname, hfound⟩, hid⟩
      subst hfound
      cases hfind : allSubjects.find? (fun s => s.name == name) with
      | none => simp [hfind] at hid
      | some subject =>
        simp only [hfind, Option.bind] at hid
        exact ⟨name, hname, subject, hfind, hid⟩
    · rintro ⟨name, hname, subject, hfind, hid⟩
      exact ⟨some id, ⟨name, hname, by simp [hfind, hid]⟩, rfl⟩
  · intro id h
    exact ((hadd _ id).mp h.1).2 ((hrem _ id).mp h.2).1
  · intro id
    rw [hadd, hrem]
    constructor
    · rintro (⟨hcur, hnot⟩ | ⟨hnew, _⟩)
      · by_contra hcon
        exact hnot ⟨hcur, hcon⟩
      · exact hnew
    · intro hnew
      by_cases hcur : id ∈ currentSubjectIds allSubjects currentSubjectNames
      · exact Or.inl ⟨hcur, fun h => h.2 hnew⟩
      · exact Or.inr ⟨hnew, hcur⟩
  · intro hsame
    have h1 : idsToAdd newSubjectIds (currentSubjectIds allSubjects currentSubjectNames)
        = [] := by
      rw [List.eq_nil_iff_forall_not_mem]
      intro id h
      exact ((hadd _ id).mp h).2 ((hsame id).mp ((hadd _ id).mp h).1)
    have h2 : idsToRemove newSubjectIds (currentSubjectIds allSubjects currentSubjectNames)
        = [] := by
      rw [List.eq_nil_iff_forall_not_mem]
      intro id h
      exact ((hrem _ id).mp h).2 ((hsame id).mpr ((hrem _ id).mp h).1)
    simp [updateTeacherSubjects, h1, h2]

/-- C27: for a consistent collation `localeCompare`, the list the effect
produces is a permutation of the reviews that pass the filters, and it is
ordered by the sort key (teacher full name, grade with a missing grade counted
as 0, or date): non-decreasingly for the order 'asc' and non-increasingly for
every other order, 'desc' among them. -/
theorem processReviews_sorted_permutation (localeCompare : String → String → Int)
    (hcmp : ConsistentComparator localeCompare) (mode : String)
    (selectedAuthorId selectedTeacherId selectedSubjectId : Option Int)
    (sortField sortOrder : String) (allReviews : List ReviewItem) :
    (processReviews localeCompare mode selectedAuthorId selectedTeacherId selectedSubjectId
        sortField sortOrder allReviews).Perm
      (allReviews.filter
        (passesFilters mode selectedAuthorId selectedTeacherId selectedSubjectId)) ∧
    (sortOrder = "asc" →
      List.Pairwise (fun x y => keyLe localeCompare sortField x y)
        (processReviews localeCompare mode selectedAuthorId selectedTeacherId
          selectedSubjectId sortField sortOrder allReviews)) ∧
    (sortOrder ≠ "asc" →
      List.Pairwise (fun x y => keyLe localeCompare sortField y x)
        (processReviews localeCompare mode selectedAuthorId selectedTeacherId
          selectedSubjectId sortField sortOrder allReviews)) := by
  unfold processReviews
  simp only [filter_eq_passesFilters]
  refine ⟨arraySort_perm _ _, ?_, ?_⟩
  · intro hasc
    have hpair := arraySort_pairwise
      (fun a b => compareResult localeCompare sortField a b * (1 : Int))
      (by
        intro a b
        simp only [mul_one, compareResult_le_iff]
        exact keyLe_total localeCompare hcmp sortField a b)
      (by
        intro a b c
        simp only [mul_one, compareResult_le_iff]
        exact keyLe_trans localeCompare hcmp sortField a b c)
      (allReviews.filter
        (passesFilters mode selectedAuthorId selectedTeacherId selectedSubjectId))
    simp only [hasc, beq_self_eq_true, if_true]
    refine hpair.imp ?_
    intro a b hab
    simpa only [mul_one, compareResult_le_iff] using hab
  · intro hdesc
    have hflip : ∀ a b : ReviewItem,
        compareResult localeCompare sortField a b * (-1 : Int) ≤ 0 ↔
          keyLe localeCompare sortField b a := by
      intro a b
      rw [← compareResult_ge_iff localeCompare hcmp sortField a b]
      constructor <;> intro h <;> linarith
    have hpair := arraySort_pairwise
      (fun a b => compareResult localeCompare sortField a b * (-1 : Int))
      (by
        intro a b
        rw [hflip, hflip]
        exact keyLe_total localeCompare hcmp sortField b a)
      (by
        intro a b c hab hbc
        rw [hflip] at hab hbc ⊢
        exact keyLe_trans localeCompare hcmp sortField c b a hbc hab)
      (allReviews.filter
        (passesFilters mode selectedAuthorId selectedTeacherId selectedSubjectId))
    have hb : (sortOrder == "asc") = false := by simpa using hdesc
    simp only [hb, Bool.false_eq_true, if_false]
    refine hpair.imp ?_
    intro a b hab
    exact (hflip a b).mp hab

/-- Witness of C27: three reviews, the filter on author 1, sorted by grade in
the order 'desc', with strings collated by length. -/
theorem processReviews_sorted_permutation_witness :
    processReviews Sample.byLength "all" (some 1) none none "grade" "desc"
      [Sample.item 1 5 10, Sample.item 2 9 20, Sample.item 1 8 30]
      = [Sample.item 1 8 30, Sample.item 1 5 10] ∧
    List.Pairwise (fun x y => keyLe Sample.byLength "grade" y x)
      (processReviews Sample.byLength "all" (some 1) none none "grade" "desc"
        [Sample.item 1 5 10, Sample.item 2 9 20, Sample.item 1 8 30]) :=
  ⟨by decide,
   (processReviews_sorted_permutation Sample.byLength
    ⟨fun a b => by unfold Sample.byLength; omega,
     fun a b c => by unfold Sample.byLength; omega⟩
    "all" (some 1) none none "grade" "desc"
    [Sample.item 1 5 10, Sample.item 2 9 20, Sample.item 1 8 30]).2.2 (by decide)⟩

/-- C21: every string `nameRegex` accepts starts with an uppercase Cyrillic or
Latin letter, consists only of letters and at most one hyphen, and has the hyphen
neither first nor last; the documented example is accepted; a string with two
hyphens, with a digit or with a blank is rejected. -/
theorem nameRegex_sound :
    (∀ value : String, nameRegexTest value = true →
      (∃ first rest, value.data = first :: rest ∧ isUpperLetter first) ∧
      (∀ c ∈ value.data, isLetter c ∨ c = '-') ∧
      value.data.count '-' ≤ 1 ∧
      value.data.head? ≠ some '-' ∧
      value.data.getLast? ≠ some '-') ∧
    nameRegexTest "Анна-Мария" = true ∧
    (∀ value : String,
      (2 ≤ value.data.count '-' ∨ (∃ c ∈ value.data, c.isDigit = true) ∨
        ' ' ∈ value.data) →
      nameRegexTest value = false) := by
  refine ⟨?_, by decide, ?_⟩
  · intro value h
    obtain ⟨⟨first, rest, hx, hfirst⟩, hall, hcount, hlast⟩ :=
      nameRegex_accepts value.data h
    refine ⟨⟨first, rest, hx, (upperChars_letters first hfirst).1⟩, ?_, hcount, ?_, hlast⟩
    · intro c hc
      rcases hall c hc with (hu | hl) | hh
      · exact Or.inl (Or.inl (upperChars_letters c hu).1)
      · exact Or.inl (Or.inr (lowerChars_letters c hl).1)
      · exact Or.inr hh
    · rw [hx]
      intro hcon
      simp only [List.head?_cons, Option.some.injEq] at hcon
      exact (upperChars_letters first hfirst).2.1 hcon
  · intro value hbad
    cases htest : nameRegexTest value with
    | false => rfl
    | true =>
      exfalso
      obtain ⟨_, hall, hcount, _⟩ := nameRegex_accepts value.data htest
      rcases hbad with h2 | ⟨c, hc, hdigit⟩ | hblank
      · omega
      · rcases hall c hc with (hu | hl) | hh
        · rw [(upperChars_letters c hu).2.2.2] at hdigit
          exact Bool.false_ne_true hdigit
        · rw [(lowerChars_letters c hl).2.2.2] at hdigit
          exact Bool.false_ne_true hdigit
        · subst hh
          revert hdigit
          decide
      · rcases hall ' ' hblank with (hu | hl) | hh
        · exact (upperChars_letters ' ' hu).2.2.1 rfl
        · exact (lowerChars_letters ' ' hl).2.2.1 rfl
        · revert hh
          decide

end SpringReviewer
